import Mathlib

/-!
# TheC: type comparison, initializer and function emission, string library

A shallow embedding of three parts of the compiler:

* `src/cc/type.c`: the type representation, `same_type`, `ptrof`, `arrayof`,
  `array_to_ptr`, `new_func_type`, `find_struct`, `define_struct`;
* `src/cc/arch/x64/emit_code.c`: `construct_initial_value`, the lowering of a global
  initializer to assembler data directives, `emit_varinfo`, `put_args_to_stack` and
  `emit_defun`;
* `wasm/runtime/lib.c`: `strcmp`, `strcasecmp`, `strncasecmp`, `memcmp`, `strncpy`,
  `memmove` and `strtol`.

Pointers to immutable tree data (`Type*`, `Expr*`, `Initializer*`) are embedded as the
tree they point to; a pointer that the code compares by address (`StructInfo*` in
`same_type`) is embedded as that address together with the object found there. A null
pointer is `none`. Code that can
dereference a null pointer or abort returns an explicit failure.
-/

set_option autoImplicit false

/-! ## Part 1: `type.c` -/

/-- The number kinds that `type.c` stores in `u.num.type`. -/
inductive NumType
  | NUM_CHAR
  | NUM_SHORT
  | NUM_INT
  | NUM_LONG
  | NUM_ENUM
  deriving DecidableEq, Repr

/-- The tag `type->type` of a type object in `type.c`. -/
inductive eType
  | TY_VOID
  | TY_NUM
  | TY_PTR
  | TY_ARRAY
  | TY_FUNC
  | TY_STRUCT
  deriving DecidableEq, Repr

mutual
/-- The `Type` object of `type.c`, one constructor per tag, each carrying the union
fields that the tag selects. `param_types` is a `Vector*` and may be null (`none`);
`info` is a `StructInfo*` and is null for a forward-declared struct. The `name` of a
struct type is read only when its `info` is null, that is for a type made from a tag. -/
inductive CType where
  | TY_VOID
  | TY_NUM (num : NumType)
  | TY_PTR (ptrof : CType)
  | TY_ARRAY (ptrof : CType) (length : Nat)
  | TY_FUNC (ret : CType) (param_types : Option (List CType)) (vaargs : Bool)
  | TY_STRUCT (info : Option StructInfoPtr) (name : String)
/-- Modelled from the spec: a non-null `StructInfo*`, as the address it holds and the
object at that address, an ordered member list, the union flag, size and alignment
(`type.h`, which declares `StructInfo` for `type.c`, is not among the sources). Two
pointers are `==` when their addresses are equal. -/
inductive StructInfoPtr where
  | mk (addr : Nat) (members : List StructMember) (is_union : Bool) (size : Nat) (align : Nat)
/-- Modelled from the spec: one member of a struct, its name, type and offset. -/
inductive StructMember where
  | mk (name : String) (type : CType) (offset : Nat)
end

/-- The address held by a non-null `StructInfo*`. -/
def StructInfoPtr.addr : StructInfoPtr → Nat
  | .mk addr _ _ _ _ => addr

/-- The member list of the object behind a `StructInfo*`. -/
def StructInfoPtr.members : StructInfoPtr → List StructMember
  | .mk _ members _ _ _ => members

/-- Pointer comparison `p == q` of two non-null `StructInfo*`. -/
def StructInfoPtr.same (p q : StructInfoPtr) : Bool := decide (p.addr = q.addr)

/-- Reading `type->type`. -/
def CType.type : CType → eType
  | .TY_VOID => .TY_VOID
  | .TY_NUM _ => .TY_NUM
  | .TY_PTR _ => .TY_PTR
  | .TY_ARRAY _ _ => .TY_ARRAY
  | .TY_FUNC _ _ _ => .TY_FUNC
  | .TY_STRUCT _ _ => .TY_STRUCT

def tyChar : CType := .TY_NUM .NUM_CHAR
def tyShort : CType := .TY_NUM .NUM_SHORT
def tyInt : CType := .TY_NUM .NUM_INT
def tyLong : CType := .TY_NUM .NUM_LONG
def tyEnum : CType := .TY_NUM .NUM_ENUM
def tyVoid : CType := .TY_VOID

/-- Modelled from the spec: the string-keyed map of the utilities (`Map`, declared in
`util.h`, which is not among the sources). It is an association list searched from the
front; a key bound to a null pointer reads like an absent key. -/
abbrev Map := List (String × Option StructInfoPtr)

/-- Modelled from the spec: `map_get` of the utilities, the value bound to the key or
null when there is none. -/
def map_get (map : Map) (key : String) : Option StructInfoPtr :=
  match map with
  | [] => none
  | (k, v) :: rest => if k = key then v else map_get rest key

/-- Modelled from the spec: `map_put` of the utilities, after which the key is bound to
the value and every other key is bound as before. -/
def map_put (map : Map) (key : String) (value : Option StructInfoPtr) : Map :=
  (key, value) :: map

/-- `find_struct(name)`, with the global `struct_map` passed explicitly. -/
def find_struct (struct_map : Map) (name : String) : Option StructInfoPtr :=
  map_get struct_map name

/-- `define_struct(name, sinfo)`: returns the updated `struct_map`. -/
def define_struct (struct_map : Map) (name : String) (sinfo : Option StructInfoPtr) : Map :=
  map_put struct_map name sinfo

/-- `struct_map` maps the name to the `StructInfo` that the pointer `sinfo` points to:
`find_struct(name)` is non-null and `==` to `sinfo`. -/
def maps_to (struct_map : Map) (name : String) (sinfo : StructInfoPtr) : Bool :=
  match find_struct struct_map name with
  | some found => found.same sinfo
  | none => false

mutual
/-- `same_type(type1, type2)`. The result is `none` when the C code dereferences a null
pointer (a null `param_types`), `some b` when it returns `b`.

The last alternative is the test `type1->type != type2->type` at the head of the loop;
the `continue` of the array and pointer case is the recursive call on the two `ptrof`
fields. In the function case the return types are compared first and the parameter
vectors are read only if that comparison returned true (`||` short-circuits). In the
struct case the swap of `type1` and `type2` is unfolded into the two alternatives with
exactly one null `info`. -/
def same_type (struct_map : Map) : CType → CType → Option Bool
  | .TY_VOID, .TY_VOID => some true
  | .TY_NUM num1, .TY_NUM num2 => some (decide (num1 = num2))
  | .TY_ARRAY ptrof1 _, .TY_ARRAY ptrof2 _ => same_type struct_map ptrof1 ptrof2
  | .TY_PTR ptrof1, .TY_PTR ptrof2 => same_type struct_map ptrof1 ptrof2
  | .TY_FUNC ret1 param_types1 _, .TY_FUNC ret2 param_types2 _ =>
    match same_type struct_map ret1 ret2 with
    | none => none
    | some false => some false
    | some true =>
      match param_types1, param_types2 with
      | some ps1, some ps2 =>
        if ps1.length ≠ ps2.length then some false
        else same_type_params struct_map ps1 ps2
      | _, _ => none
  | .TY_STRUCT info1 name1, .TY_STRUCT info2 name2 =>
    match info1, info2 with
    | some i1, some i2 => some (i1.same i2)
    | some i1, none =>
      match find_struct struct_map name2 with
      | none => some false
      | some sinfo => some (sinfo.same i1)
    | none, none => some (decide (name1 = name2))
    | none, some i2 =>
      match find_struct struct_map name1 with
      | none => some false
      | some sinfo => some (sinfo.same i2)
  | _, _ => some false
/-- The parameter loop of `same_type`: compares the vectors index by index and returns
false at the first pair that is not the same type. -/
def same_type_params (struct_map : Map) : List CType → List CType → Option Bool
  | t1 :: rest1, t2 :: rest2 =>
    match same_type struct_map t1 t2 with
    | none => none
    | some false => some false
    | some true => same_type_params struct_map rest1 rest2
  | _, _ => some true
end

/-- `ptrof(type)`: a new pointer type object. -/
def ptrof (type : CType) : CType := .TY_PTR type

/-- `arrayof(type, length)`: a new array type object. -/
def arrayof (type : CType) (length : Nat) : CType := .TY_ARRAY type length

/-- `new_func_type(ret, param_types, vaargs)`. -/
def new_func_type (ret : CType) (param_types : Option (List CType)) (vaargs : Bool) : CType :=
  .TY_FUNC ret param_types vaargs

mutual
/-- Well-formed types: every function type inside carries a non-null parameter vector. -/
def well_formed : CType → Bool
  | .TY_VOID => true
  | .TY_NUM _ => true
  | .TY_PTR ptrof => well_formed ptrof
  | .TY_ARRAY ptrof _ => well_formed ptrof
  | .TY_FUNC ret (some ps) _ => well_formed ret && well_formed_list ps
  | .TY_FUNC _ none _ => false
  | .TY_STRUCT _ _ => true
/-- Every type of the list is well formed. -/
def well_formed_list : List CType → Bool
  | [] => true
  | t :: rest => well_formed t && well_formed_list rest
end

/-! ## Part 2: `emit_code.c` -/

/-- The integer kinds `type->fixnum.kind` that `emit_code.c` distinguishes. -/
inductive FixnumKind
  | FX_CHAR
  | FX_SHORT
  | FX_INT
  | FX_LONG
  | FX_LLONG
  | FX_ENUM
  deriving DecidableEq, Repr

/-- The floating-point kinds `type->flonum.kind`. -/
inductive FlonumKind
  | FL_FLOAT
  | FL_DOUBLE
  deriving DecidableEq, Repr

mutual
/-- The `Type` object as `emit_code.c` reads it (`type->kind` and the fields selected by
it). `length` is an `ssize_t`, with -1 for an unspecified length. The emitter
dereferences `type->struct_.info` without a test, so a struct type carries its
`StructInfo`. The fields of a function type are not read by the initializer lowering. -/
inductive EmitType where
  | TY_VOID
  | TY_FIXNUM (kind : FixnumKind)
  | TY_FLONUM (kind : FlonumKind)
  | TY_PTR (ptrof : EmitType)
  | TY_ARRAY (ptrof : EmitType) (length : Int)
  | TY_FUNC
  | TY_STRUCT (info : StructInfo)
/-- The `StructInfo` record: ordered members, size, alignment, union flag. -/
inductive StructInfo where
  | mk (members : List MemberInfo) (size : Nat) (align : Nat) (is_union : Bool)
/-- One member of a struct: name, type and recorded byte offset. -/
inductive MemberInfo where
  | mk (name : String) (type : EmitType) (offset : Nat)
end

def StructInfo.members : StructInfo → List MemberInfo
  | .mk members _ _ _ => members

def StructInfo.size : StructInfo → Nat
  | .mk _ size _ _ => size

def StructInfo.align : StructInfo → Nat
  | .mk _ _ align _ => align

def StructInfo.is_union : StructInfo → Bool
  | .mk _ _ _ is_union => is_union

def MemberInfo.name : MemberInfo → String
  | .mk name _ _ => name

def MemberInfo.type : MemberInfo → EmitType
  | .mk _ type _ => type

def MemberInfo.offset : MemberInfo → Nat
  | .mk _ _ offset => offset

/-- Modelled from the spec: the storage bits of a `VarInfo` (`VS_*`, declared in `var.h`,
which is not among the sources). `storage & VS_X` is membership of `VS_X`. -/
inductive StorageBit
  | VS_EXTERN
  | VS_STATIC
  | VS_TYPEDEF
  | VS_ENUM_MEMBER
  | VS_PARAM
  deriving DecidableEq, Repr

/-- Modelled from the spec: the qualifier bits of a type (`TQ_*`, declared in `type.h`,
which is not among the sources). `qualifier & TQ_X` is membership of `TQ_X`. -/
inductive TypeQualifier
  | TQ_CONST
  | TQ_VOLATILE
  deriving DecidableEq, Repr

mutual
/-- The `Expr` node as `emit_code.c` reads it. Every node carries its type. A string
literal carries its bytes (`str.buf`, of which `str.size` is the length); a floating
constant is carried as the bit pattern of its `double`. `EX_OTHER` stands for every
expression kind that `emit_code.c` does not name. -/
inductive Expr where
  | EX_FIXNUM (type : EmitType) (fixnum : Int)
  | EX_FLONUM (type : EmitType) (flonum : Nat)
  | EX_STR (type : EmitType) (buf : List Nat)
  | EX_VAR (type : EmitType) (name : String) (scope : Scope)
  | EX_ADD (type : EmitType) (lhs : Expr) (rhs : Expr)
  | EX_SUB (type : EmitType) (lhs : Expr) (rhs : Expr)
  | EX_REF (type : EmitType) (sub : Expr)
  | EX_DEREF (type : EmitType) (sub : Expr)
  | EX_CAST (type : EmitType) (sub : Expr)
  | EX_MEMBER (type : EmitType) (target : Expr) (index : Nat)
  | EX_OTHER (type : EmitType)
/-- The `Initializer` node. The entries of an `IK_MULTI` vector may be null. -/
inductive Initializer where
  | IK_SINGLE (single : Expr)
  | IK_MULTI (multi : List (Option Initializer))
  | IK_DOT (name : String) (value : Option Initializer)
  | IK_ARR (index : Expr) (value : Option Initializer)
/-- A scope: parent pointer and variable vector, either of which may be null. -/
inductive Scope where
  | mk (parent : Option Scope) (vars : Option (List VarInfo))
/-- A `VarInfo`: name, type, storage bits, `global.init`, `static_.gvar`, the frame
offset `local.reg->offset`, and the qualifier bits `type->qualifier` of its type. -/
inductive VarInfo where
  | mk (name : String) (type : EmitType) (storage : List StorageBit)
      (global_init : Option Initializer) (static_gvar : Option VarInfo) (local_offset : Int)
      (qualifier : List TypeQualifier)
end

def Expr.type : Expr → EmitType
  | .EX_FIXNUM type _ => type
  | .EX_FLONUM type _ => type
  | .EX_STR type _ => type
  | .EX_VAR type _ _ => type
  | .EX_ADD type _ _ => type
  | .EX_SUB type _ _ => type
  | .EX_REF type _ => type
  | .EX_DEREF type _ => type
  | .EX_CAST type _ => type
  | .EX_MEMBER type _ _ => type
  | .EX_OTHER type => type

def Scope.parent : Scope → Option Scope
  | .mk parent _ => parent

def Scope.vars : Scope → Option (List VarInfo)
  | .mk _ vars => vars

def VarInfo.name : VarInfo → String
  | .mk name _ _ _ _ _ _ => name

def VarInfo.type : VarInfo → EmitType
  | .mk _ type _ _ _ _ _ => type

def VarInfo.storage : VarInfo → List StorageBit
  | .mk _ _ storage _ _ _ _ => storage

def VarInfo.global_init : VarInfo → Option Initializer
  | .mk _ _ _ global_init _ _ _ => global_init

def VarInfo.static_gvar : VarInfo → Option VarInfo
  | .mk _ _ _ _ static_gvar _ _ => static_gvar

def VarInfo.local_offset : VarInfo → Int
  | .mk _ _ _ _ _ local_offset _ => local_offset

def VarInfo.qualifier : VarInfo → List TypeQualifier
  | .mk _ _ _ _ _ _ qualifier => qualifier

/-- One line written to the assembly output: an instruction or directive with its
operands (`EMIT_ASM0` to `EMIT_ASM4`, null operands left out), a label, an alignment
request, or a comment. -/
inductive Asm
  | EMIT_ASM (op : String) (operands : List String)
  | EMIT_LABEL (label : String)
  | EMIT_ALIGN (align : Nat)
  | emit_comment (text : Option String)
  deriving DecidableEq, Repr

/-- The ways in which the emitter stops: `error(...)` with its message, a failed
`assert`, or undefined behaviour of the C code (null dereference, read past the end of a
vector, read of a union field that was not stored). -/
inductive Fatal
  | error (msg : String)
  | assert (what : String)
  | undefined (what : String)
  deriving DecidableEq, Repr

/-- A run of emitter code: the lines written so far and either the returned value or
the reason the run stopped. -/
structure Run (α : Type) where
  out : List Asm
  res : Except Fatal α

def Run.pure {α : Type} (a : α) : Run α := ⟨[], .ok a⟩

/-- Sequencing: the second part runs only if the first returned. -/
def Run.bind {α β : Type} (x : Run α) (f : α → Run β) : Run β :=
  match x.res with
  | .ok a => ⟨x.out ++ (f a).out, (f a).res⟩
  | .error e => ⟨x.out, .error e⟩

instance : Monad Run where
  pure := Run.pure
  bind := Run.bind

/-- Write one line. -/
def emit (a : Asm) : Run Unit := ⟨[a], .ok ()⟩

/-- Stop without writing. -/
def fatal {α : Type} (e : Fatal) : Run α := ⟨[], .error e⟩

/-- Lift a computation that writes nothing. -/
def Run.lift {α : Type} (x : Except Fatal α) : Run α := ⟨[], x⟩

/-- `true` when the run returned normally. -/
def Run.ok {α : Type} (x : Run α) : Bool :=
  match x.res with
  | .ok _ => true
  | .error _ => false

def _BYTE (x : String) : Run Unit := emit (.EMIT_ASM ".byte" [x])
def _WORD (x : String) : Run Unit := emit (.EMIT_ASM ".word" [x])
def _LONG (x : String) : Run Unit := emit (.EMIT_ASM ".long" [x])
def _QUAD (x : String) : Run Unit := emit (.EMIT_ASM ".quad" [x])
def _ASCII (x : String) : Run Unit := emit (.EMIT_ASM ".ascii" [x])
def EMIT_ALIGN (x : Nat) : Run Unit := emit (.EMIT_ALIGN x)

/-- What the emitter takes from files that are not among the sources and that the spec
does not pin down: `type_size` and `align_size` (the spec names them and gives two
examples), the platform mangling `MANGLE`, `escape_string` of the utilities (the text it
appends for a byte sequence), the narrowing of a `double` bit pattern to the bit
pattern of the nearest `float`, whether `__APPLE__` is defined, and the reserved name
`RET_VAR_NAME` of the hidden return-value variable. -/
structure Target where
  type_size : EmitType → Nat
  align_size : EmitType → Nat
  MANGLE : String → String
  escape_string : List Nat → String
  double_to_float_bits : Nat → Nat
  apple : Bool
  RET_VAR_NAME : String

/-- Modelled from the spec: `NUM(x)`, the decimal text of an integer (`num` of `emit.h`,
which is not among the sources). -/
def NUM (x : Int) : String := toString x

/-- Modelled from the spec: `HEXNUM(x)`, the hexadecimal text of a bit pattern (`hexnum`
of `emit.h`, which is not among the sources). -/
def HEXNUM (x : Nat) : String := "0x" ++ String.mk (Nat.toDigits 16 x)

/-- Modelled from the spec: `ALIGN(x, align)`, the value rounded up to the next multiple
of the alignment (a macro of `util.h`, which is not among the sources; for the powers of
two that alignments are, rounding by division and rounding by masking agree). -/
def ALIGN (x : Nat) (align : Nat) : Nat := (x + align - 1) / align * align

/-- Modelled from the spec: `fmt_name`, the characters of an interned name. -/
def fmt_name (name : String) : String := name

/-- Modelled from the spec: `is_const` of `ast.h`, true of the literal kinds. -/
def is_const : Expr → Bool
  | .EX_FIXNUM _ _ => true
  | .EX_FLONUM _ _ => true
  | .EX_STR _ _ => true
  | _ => false

/-- Modelled from the spec: `is_flonum` of `type.h`, the floating-point types. -/
def is_flonum : EmitType → Bool
  | .TY_FLONUM _ => true
  | _ => false

/-- `is_char_type`, as in `type.c`, on the type object of the emitter. -/
def is_char_type : EmitType → Bool
  | .TY_FIXNUM .FX_CHAR => true
  | _ => false

/-- Modelled from the spec: `ptr_or_array` of `type.h`. -/
def ptr_or_array : EmitType → Bool
  | .TY_PTR _ => true
  | .TY_ARRAY _ _ => true
  | _ => false

/-- Modelled from the spec: `strip_cast` of `ast.h`, the expression under all casts. -/
def strip_cast : Expr → Expr
  | .EX_CAST _ sub => strip_cast sub
  | e => e

/-- Modelled from the spec: `var_find`, the first variable of the vector with the name. -/
def var_find (vars : List VarInfo) (name : String) : Option VarInfo :=
  vars.find? (fun v => v.name == name)

/-- Modelled from the spec: `scope_find` of `var.h`. Lookup walks the parent chain; the
result is the variable and the scope it was found in. -/
def scope_find : Scope → String → Option (VarInfo × Scope)
  | .mk parent vars, name =>
    match (match vars with
           | some vs => var_find vs name
           | none => none) with
    | some varinfo => some (varinfo, .mk parent vars)
    | none =>
      match parent with
      | some p => scope_find p name
      | none => none

/-- Modelled from the spec: `is_global_scope`, the scope without a parent. -/
def is_global_scope (scope : Scope) : Bool := scope.parent.isNone

mutual
/-- `eval_initial_value_member(expr, pvar, poffset)`: the in-out parameters `*pvar` and
`*poffset` are passed in and returned. -/
def eval_initial_value_member : Expr → Option Expr → Int → Except Fatal (Option Expr × Int)
  | .EX_VAR type name scope, pvar, poffset =>
    match pvar with
    | some _ => .error (.assert "*pvar == NULL")
    | none => .ok (some (.EX_VAR type name scope), poffset)
  | .EX_MEMBER _ target index, pvar, poffset =>
    match eval_initial_value_member target pvar poffset with
    | .error e => .error e
    | .ok (pvar1, poffset1) =>
      let type := if ptr_or_array target.type then
          (match target.type with
           | .TY_PTR ptrof => ptrof
           | .TY_ARRAY ptrof _ => ptrof
           | t => t)
        else target.type
      match type with
      | .TY_STRUCT info =>
        match info.members.get? index with
        | some member => .ok (pvar1, poffset1 + member.offset)
        | none => .error (.undefined "members->data[expr->member.index]")
      | _ => .error (.assert "type->kind == TY_STRUCT")
  | _, _, _ => .error (.assert "illegal")
/-- `eval_initial_value(expr, pvar, poffset)`, with the in-out parameters passed in and
returned. `Fixnum` arithmetic is taken without overflow. -/
def eval_initial_value : Expr → Option Expr → Int → Except Fatal (Option Expr × Int)
  | .EX_CAST _ sub, pvar, poffset => eval_initial_value sub pvar poffset
  | .EX_REF _ sub, pvar, poffset =>
    match sub with
    | .EX_DEREF _ sub2 => eval_initial_value sub2 pvar poffset
    | .EX_VAR type name scope => eval_initial_value (.EX_VAR type name scope) pvar poffset
    | .EX_MEMBER type target index =>
      eval_initial_value_member (.EX_MEMBER type target index) pvar poffset
    | _ => .error (.assert "false")
  | .EX_VAR type name scope, pvar, poffset =>
    match pvar with
    | some _ => .error (.assert "*pvar == NULL")
    | none => .ok (some (.EX_VAR type name scope), poffset)
  | .EX_FIXNUM type fixnum, pvar, _ =>
    if !is_const (.EX_FIXNUM type fixnum) then .error (.assert "initializer type error")
    else .ok (pvar, fixnum)
  | .EX_STR _ _, _, _ => .error (.assert "should be handled in parser")
  | .EX_ADD _ lhs rhs, pvar, _ =>
    match eval_initial_value lhs none 0 with
    | .error e => .error e
    | .ok (var1, offset1) =>
      match eval_initial_value rhs none 0 with
      | .error e => .error e
      | .ok (var2, offset2) =>
        match var1, var2 with
        | some _, some _ => .error (.assert "var2 == NULL")
        | some v1, none => .ok (some v1, offset1 + offset2)
        | none, some v2 => .ok (some v2, offset1 + offset2)
        | none, none => .ok (pvar, offset1 + offset2)
  | .EX_SUB _ lhs rhs, pvar, _ =>
    match eval_initial_value lhs none 0 with
    | .error e => .error e
    | .ok (var1, offset1) =>
      match eval_initial_value rhs none 0 with
      | .error e => .error e
      | .ok (var2, offset2) =>
        match var1, var2 with
        | some _, some _ => .error (.assert "var2 == NULL")
        | some v1, none => .ok (some v1, offset1 + -offset2)
        | none, some _ => .error (.assert "expr->kind == EX_ADD")
        | none, none => .ok (pvar, offset1 + -offset2)
  | _, _, _ => .error (.assert "illegal")
end

/-- The scalar case of `construct_initial_value` up to the choice of directive: the
operand text for a `TY_FIXNUM` or `TY_PTR` object. -/
def scalar_output (tg : Target) (init : Option Initializer) : Except Fatal String :=
  let evaluated : Except Fatal (Option Expr × Int) :=
    match init with
    | none => .ok (none, 0)
    | some (.IK_SINGLE single) => eval_initial_value single none 0
    | some _ => .error (.assert "init->kind == IK_SINGLE")
  match evaluated with
  | .error e => .error e
  | .ok (none, offset) => .ok (NUM offset)
  | .ok (some (.EX_VAR _ name0 scope0), offset) =>
    match scope_find scope0 name0 with
    | none => .error (.assert "varinfo != NULL")
    | some (varinfo0, scope) =>
      let resolved : Except Fatal (VarInfo × String) :=
        if !is_global_scope scope && varinfo0.storage.contains .VS_STATIC then
          match varinfo0.static_gvar with
          | none => .error (.assert "varinfo != NULL")
          | some gvar => .ok (gvar, gvar.name)
        else .ok (varinfo0, name0)
      match resolved with
      | .error e => .error e
      | .ok (varinfo, name) =>
        let label0 := fmt_name name
        let label := if !varinfo.storage.contains .VS_STATIC then tg.MANGLE label0 else label0
        if offset = 0 then .ok label
        else .ok (label ++ " + " ++ toString offset)
  | .ok (some _, _) => .error (.undefined "var->var")

/-- Run the same emission `n` times in a row (a counting `for` loop). -/
def Run.times (x : Run Unit) : Nat → Run Unit
  | 0 => pure ()
  | n + 1 => do
    x
    Run.times x n

/-- The loop over the entries of an array initializer, with the recursive call on the
element type passed as `emit_elem`. Returns the value of `index` after the loop. -/
def array_init_loop (emit_elem : Option Initializer → Run Unit) :
    List (Option Initializer) → Int → Run Int
  | [], index => pure index
  | none :: _, _ => fatal (.undefined "init_elem->kind")
  | some (.IK_ARR idx value) :: rest, index =>
    match idx with
    | .EX_FIXNUM _ next => do
      Run.times (emit_elem none) (next - index).toNat
      emit_elem value
      array_init_loop emit_elem rest (next + 1)
    | _ => fatal (.undefined "init_elem->arr.index->fixnum")
  | some init_elem :: rest, index => do
    emit_elem (some init_elem)
    array_init_loop emit_elem rest (index + 1)

/-- The padding at the end of the struct case, for `d = size - offset`. -/
def struct_padding (d : Int) : Run Unit :=
  if d = 1 then _BYTE (NUM 0)
  else if d = 2 then _WORD (NUM 0)
  else if d = 4 then _LONG (NUM 0)
  else if d = 8 then _QUAD (NUM 0)
  else Run.times (_BYTE (NUM 0)) d.toNat

mutual
/-- `construct_initial_value(type, init)`: the directives written for an object of the
type with the initializer (null: zero-initialized). -/
def construct_initial_value (tg : Target) (type : EmitType) (init : Option Initializer) :
    Run Unit :=
  match init with
  | some (.IK_DOT _ _) => fatal (.assert "init == NULL || init->kind != IK_DOT")
  | _ =>
    match type with
    | .TY_FLONUM .FL_DOUBLE =>
      match init with
      | none => _QUAD (HEXNUM 0)
      | some (.IK_SINGLE value) =>
        if !(is_const value && is_flonum value.type) then
          fatal (.error "Illegal initializer: constant number expected")
        else
          match value with
          | .EX_FLONUM _ flonum => _QUAD (HEXNUM flonum)
          | _ => fatal (.undefined "value->flonum")
      | some _ => fatal (.assert "init->kind == IK_SINGLE")
    | .TY_FLONUM .FL_FLOAT =>
      match init with
      | none => _LONG (HEXNUM 0)
      | some (.IK_SINGLE value) =>
        if !(is_const value && is_flonum value.type) then
          fatal (.error "Illegal initializer: constant number expected")
        else
          match value with
          | .EX_FLONUM _ flonum => _LONG (HEXNUM (tg.double_to_float_bits flonum))
          | _ => fatal (.undefined "value->flonum")
      | some _ => fatal (.assert "init->kind == IK_SINGLE")
    | .TY_PTR _ => do
      let output ← Run.lift (scalar_output tg init)
      _QUAD output
    | .TY_FIXNUM kind => do
      let output ← Run.lift (scalar_output tg init)
      match kind with
      | .FX_CHAR => _BYTE output
      | .FX_SHORT => _WORD output
      | .FX_LONG => _QUAD output
      | .FX_LLONG => _QUAD output
      | .FX_INT => _LONG output
      | .FX_ENUM => _LONG output
    | .TY_ARRAY elem_type length =>
      match init with
      | none => Run.times (construct_initial_value tg elem_type none) length.toNat
      | some (.IK_MULTI init_array) => do
        let index ← array_init_loop (fun init_elem => construct_initial_value tg elem_type init_elem)
          init_array 0
        Run.times (construct_initial_value tg elem_type none) (length - index).toNat
      | some (.IK_SINGLE single) =>
        if is_char_type elem_type then
          match strip_cast single with
          | .EX_STR _ buf =>
            let size := tg.type_size (.TY_ARRAY elem_type length)
            let src_size := if buf.length > size then size else buf.length
            _ASCII ("\"" ++ tg.escape_string (buf.take src_size)
              ++ String.join (List.replicate (size - src_size) "\\0") ++ "\"")
          | _ => fatal (.error "Illegal initializer")
        else fatal (.error "Illegal initializer")
      | some _ => fatal (.error "Illegal initializer")
    | .TY_STRUCT (.mk members ssize salign is_union) =>
      match (match init with
             | none => Except.ok none
             | some (.IK_MULTI multi) => Except.ok (some multi)
             | some _ => Except.error (Fatal.assert "init == NULL || init->kind == IK_MULTI")) with
      | .error e => fatal e
      | .ok multi => do
        let (count, offset) ← struct_member_loop tg is_union multi members 0 0 0
        let offset1 ←
          (if is_union && count = 0 then
            match members with
            | .mk _ mtype _ :: _ => do
              construct_initial_value tg mtype none
              pure (offset + tg.type_size mtype)
            | [] => fatal (.undefined "sinfo->members->data[0]")
          else pure offset)
        let size := tg.type_size (.TY_STRUCT (.mk members ssize salign is_union))
        if size ≠ offset1 then struct_padding ((size : Int) - (offset1 : Int))
        else pure ()
    | _ => fatal (.assert "false")
/-- The member loop of the struct case, from member `i` on, with the running `count` and
`offset`; `multi` is `init->multi`, or `none` when `init` is null. Returns the final
`count` and `offset`. The first alternative of the inner match is the `continue` of a
null-initialized union; `offset % align` with a zero alignment is a division by zero. -/
def struct_member_loop (tg : Target) (is_union : Bool) (multi : Option (List (Option Initializer))) :
    List MemberInfo → Nat → Nat → Nat → Run (Nat × Nat)
  | [], _, count, offset => pure (count, offset)
  | .mk _ mtype _ :: rest, i, count, offset =>
    match (match multi with
           | none => if is_union then none else some (Except.ok none)
           | some m =>
             match m.get? i with
             | some mem_init => some (Except.ok mem_init)
             | none => some (Except.error (Fatal.undefined "init->multi->data[i]"))) with
    | none => struct_member_loop tg is_union multi rest (i + 1) count offset
    | some (.error e) => fatal e
    | some (.ok mem_init) =>
      if mem_init.isSome || !is_union then
        let align := tg.align_size mtype
        if align = 0 then fatal (.undefined "offset % align")
        else do
          let offset1 ←
            (if offset % align ≠ 0 then do
              EMIT_ALIGN align
              pure (ALIGN offset align)
            else pure offset)
          construct_initial_value tg mtype mem_init
          struct_member_loop tg is_union multi rest (i + 1) (count + 1)
            (ALIGN offset1 align + tg.type_size mtype)
      else struct_member_loop tg is_union multi rest (i + 1) count offset
end

/-! ## Reference notions used to state the properties -/

/-- Modelled from the spec: the LP64 sizes (`type_size`; `type.h` and its implementation
are not among the sources): char 1, short 2, int and enum 4, long and long long 8,
float 4, double 8, pointer 8, an array its length times the element size, a struct its
recorded size. -/
def lp64_type_size : EmitType → Nat
  | .TY_VOID => 1
  | .TY_FIXNUM .FX_CHAR => 1
  | .TY_FIXNUM .FX_SHORT => 2
  | .TY_FIXNUM .FX_INT => 4
  | .TY_FIXNUM .FX_ENUM => 4
  | .TY_FIXNUM .FX_LONG => 8
  | .TY_FIXNUM .FX_LLONG => 8
  | .TY_FLONUM .FL_FLOAT => 4
  | .TY_FLONUM .FL_DOUBLE => 8
  | .TY_PTR _ => 8
  | .TY_ARRAY ptrof length => lp64_type_size ptrof * length.toNat
  | .TY_FUNC => 1
  | .TY_STRUCT info => info.size

/-- Modelled from the spec: the LP64 alignments (`align_size`): a scalar its size, an
array the alignment of its element, a struct its recorded alignment. -/
def lp64_align_size : EmitType → Nat
  | .TY_ARRAY ptrof _ => lp64_align_size ptrof
  | .TY_STRUCT info => info.align
  | t => lp64_type_size t

/-- Modelled from the spec: the text of one byte inside a quoted `.ascii` operand, with
C escapes. -/
def escape_byte (c : Nat) : String :=
  if c = 0 then "\\0"
  else if c = 10 then "\\n"
  else if c = 13 then "\\r"
  else if c = 9 then "\\t"
  else if c = 34 then "\\\""
  else if c = 92 then "\\\\"
  else if 32 ≤ c ∧ c < 127 then String.singleton (Char.ofNat c)
  else "\\x" ++ String.mk (Nat.toDigits 16 (c / 16 % 16)) ++ String.mk (Nat.toDigits 16 (c % 16))

/-- Modelled from the spec: the conversion `v.f = value->flonum` of a `double` to a
`float`, on bit patterns, by IEEE 754 with rounding to nearest, ties to even: the
pattern of a `double` (1 sign bit, 11 exponent bits, 52 fraction bits) is mapped to the
pattern of the nearest `float` (1 sign bit, 8 exponent bits, 23 fraction bits). A value
beyond the range of `float` becomes infinity, one below it a subnormal or zero, and a NaN
a quiet NaN with the upper bits of its payload. -/
def narrow_double_bits (bits : Nat) : Nat :=
  let sign := bits / 2 ^ 63 % 2
  let exp := bits / 2 ^ 52 % 2048
  let man := bits % 2 ^ 52
  let magnitude :=
    if exp = 2047 then
      if man = 0 then 0x7f800000
      else if man / 2 ^ 51 = 1 then 0x7f800000 + man / 2 ^ 29
      else 0x7fc00000 + man / 2 ^ 29
    else if exp = 0 then 0
    else
      let significand := 2 ^ 52 + man
      let shift := if exp ≥ 897 then 29 else 29 + (897 - exp)
      let quotient := significand / 2 ^ shift
      let remainder := significand % 2 ^ shift
      let half := 2 ^ (shift - 1)
      let rounded :=
        if remainder > half ∨ (remainder = half ∧ quotient % 2 = 1) then quotient + 1
        else quotient
      let biased := if exp ≥ 897 then (exp - 897) * 2 ^ 23 + rounded else rounded
      if biased ≥ 0x7f800000 then 0x7f800000 else biased
  sign * 2 ^ 31 + magnitude

/-- Modelled from the spec: a SysV LP64 target, used for the concrete examples. Mangling
is the identity on SysV. -/
def sysv_lp64 : Target where
  type_size := lp64_type_size
  align_size := lp64_align_size
  MANGLE := fun label => label
  escape_string := fun bytes => String.join (bytes.map escape_byte)
  double_to_float_bits := narrow_double_bits
  apple := false
  RET_VAR_NAME := ".ret"

/-- The number of bytes that a data directive occupies in the object file, for the
directives that `construct_initial_value` writes; `ascii_size` gives the number of bytes
that the assembler reads from a quoted `.ascii` operand. -/
def directive_size (ascii_size : String → Nat) (op : String) (operands : List String) : Nat :=
  if op = ".byte" then 1
  else if op = ".word" then 2
  else if op = ".long" then 4
  else if op = ".quad" then 8
  else if op = ".ascii" then (operands.map ascii_size).sum
  else 0

/-- The position of the location counter after one output line, starting at `pos`: a
data directive advances it by its size, an alignment request rounds it up to the next
multiple of the alignment. -/
def advance (ascii_size : String → Nat) (pos : Nat) : Asm → Nat
  | .EMIT_ASM op operands => pos + directive_size ascii_size op operands
  | .EMIT_ALIGN align => ALIGN pos align
  | .EMIT_LABEL _ => pos
  | .emit_comment _ => pos

/-- The position of the location counter after a sequence of output lines. -/
def layout (ascii_size : String → Nat) (pos : Nat) (out : List Asm) : Nat :=
  out.foldl (advance ascii_size) pos

/-- Run the emissions of a list one after the other, stopping at the first that fails. -/
def Run.sequence : List (Run Unit) → Run Unit
  | [] => pure ()
  | x :: rest => do
    x
    Run.sequence rest

/-- The entries of an array initializer occupy strictly increasing positions below `n`:
`index` is the running position, a designator `[next] = value` may move it forward to
`next`, a positional entry takes the running position, and every position used is below
`n`. Entries are non-null and a designator index is an integer constant. -/
def array_entries_ok (n : Int) : List (Option Initializer) → Int → Bool
  | [], _ => true
  | none :: _, _ => false
  | some (.IK_ARR idx _) :: rest, index =>
    match idx with
    | .EX_FIXNUM _ next =>
      decide (index ≤ next) && decide (next < n) && array_entries_ok n rest (next + 1)
    | _ => false
  | some _ :: rest, index => decide (index < n) && array_entries_ok n rest (index + 1)

/-- The initializer assigned to position `p` of an array (null when no entry is assigned
to it): a designator moves the running position `index` to its index, a positional entry
takes the running position, and the next entry continues one position further. -/
def entry_at : List (Option Initializer) → Int → Int → Option Initializer
  | [], _, _ => none
  | none :: rest, index, p => if p = index then none else entry_at rest (index + 1) p
  | some (.IK_ARR idx value) :: rest, index, p =>
    match idx with
    | .EX_FIXNUM _ next => if p = next then value else entry_at rest (next + 1) p
    | _ => if p = index then some (.IK_ARR idx value) else entry_at rest (index + 1) p
  | some init_elem :: rest, index, p =>
    if p = index then some init_elem else entry_at rest (index + 1) p

/-- The recorded offsets follow the natural layout rule from the end `prev_end` of the
previous member on: each member has a positive alignment and is recorded at `prev_end`
rounded up to that alignment. -/
def natural_offsets (tg : Target) : List MemberInfo → Nat → Bool
  | [], _ => true
  | m :: rest, prev_end =>
    decide (0 < tg.align_size m.type)
      && decide (m.offset = ALIGN prev_end (tg.align_size m.type))
      && natural_offsets tg rest (m.offset + tg.type_size m.type)

/-- The end of the last member: recorded offset plus size (`prev_end` when there is no
member). -/
def members_end (tg : Target) : List MemberInfo → Nat → Nat
  | [], prev_end => prev_end
  | m :: rest, _ => members_end tg rest (m.offset + tg.type_size m.type)

/-- The natural layout rule for a struct: natural member offsets from 0, and a total
size that is the end of the last member rounded up to the alignment of the struct. -/
def natural_layout (tg : Target) (sinfo : StructInfo) : Bool :=
  natural_offsets tg sinfo.members 0
    && decide (0 < tg.align_size (.TY_STRUCT sinfo))
    && decide (tg.type_size (.TY_STRUCT sinfo)
        = ALIGN (members_end tg sinfo.members 0) (tg.align_size (.TY_STRUCT sinfo)))

/-- The output `out`, read from location `pos` on, holds the data of the members in
order, the data of each member starting exactly at `base` plus its recorded offset, with
one alignment request before it when there is a gap to fill and nothing otherwise. -/
def members_placed (tg : Target) (ascii_size : String → Nat) (base : Nat) :
    List MemberInfo → List (Option Initializer) → Nat → List Asm → Prop
  | [], _, _, out => out = []
  | _ :: _, [], _, _ => False
  | m :: rest, init :: inits, pos, out =>
    ∃ rest_out,
      out = (if pos = base + m.offset then [] else [Asm.EMIT_ALIGN (tg.align_size m.type)])
            ++ (construct_initial_value tg m.type init).out ++ rest_out
      ∧ layout ascii_size pos
          (if pos = base + m.offset then [] else [Asm.EMIT_ALIGN (tg.align_size m.type)])
          = base + m.offset
      ∧ members_placed tg ascii_size base rest inits
          (layout ascii_size (base + m.offset) (construct_initial_value tg m.type init).out)
          rest_out

/-- A data directive that holds zero. -/
def is_zero_directive (a : Asm) : Bool :=
  a = .EMIT_ASM ".byte" ["0"] || a = .EMIT_ASM ".word" ["0"]
    || a = .EMIT_ASM ".long" ["0"] || a = .EMIT_ASM ".quad" ["0"]


/-- The directive that holds an object of an integer or pointer type: `.byte` for char,
`.word` for short, `.long` for int and enum, `.quad` for long, long long and pointers. -/
def scalar_directive : EmitType → Option String
  | .TY_FIXNUM .FX_CHAR => some ".byte"
  | .TY_FIXNUM .FX_SHORT => some ".word"
  | .TY_FIXNUM .FX_INT => some ".long"
  | .TY_FIXNUM .FX_ENUM => some ".long"
  | .TY_FIXNUM .FX_LONG => some ".quad"
  | .TY_FIXNUM .FX_LLONG => some ".quad"
  | .TY_PTR _ => some ".quad"
  | _ => none

/-- The first member whose initializer entry is non-null, with that entry. -/
def first_non_null : List MemberInfo → List (Option Initializer) →
    Option (MemberInfo × Initializer)
  | m :: _, some init :: _ => some (m, init)
  | _ :: rest, none :: inits => first_non_null rest inits
  | _, _ => none

/-- The member of a union that an initializer selects, with the initializer used for
it: the first member whose entry is non-null, or member 0 with the null initializer when
the initializer is null or has no non-null entry. -/
def union_choice (members : List MemberInfo) (init : Option Initializer) :
    Option (MemberInfo × Option Initializer) :=
  match init with
  | none => members.head?.map (fun m => (m, none))
  | some (.IK_MULTI multi) =>
    match first_non_null members multi with
    | some (m, mem_init) => some (m, some mem_init)
    | none => members.head?.map (fun m => (m, none))
  | some _ => none

/-- The initializer is null, or a positional `IK_MULTI` with one entry per member of
which at most one is non-null. -/
def union_init_ok (members : List MemberInfo) (init : Option Initializer) : Bool :=
  match init with
  | none => true
  | some (.IK_MULTI multi) =>
    decide (multi.length = members.length)
      && decide ((multi.filter Option.isSome).length ≤ 1)
  | some _ => false

/-! ## Part 3: `emit_code.c`, variables and functions -/

def _GLOBL (x : String) : Run Unit := emit (.EMIT_ASM ".globl" [x])
def _COMM (x y : String) : Run Unit := emit (.EMIT_ASM ".comm" [x, y])
def _SECTION (x : String) : Run Unit := emit (.EMIT_ASM ".section" [x])
def _TEXT : Run Unit := emit (.EMIT_ASM ".text" [])
def _DATA : Run Unit := emit (.EMIT_ASM ".data" [])
def EMIT_LABEL (label : String) : Run Unit := emit (.EMIT_LABEL label)

/-- `_RODATA()`: the read-only data section of the platform. -/
def _RODATA (tg : Target) : Run Unit :=
  if tg.apple then _SECTION "__DATA,__const" else _SECTION ".rodata"

/-- `emit_varinfo(varinfo, init)`: the definition of a global variable. -/
def emit_varinfo (tg : Target) (varinfo : VarInfo) (init : Option Initializer) : Run Unit := do
  let name := varinfo.name
  if init.isSome then
    (if varinfo.qualifier.contains .TQ_CONST then _RODATA tg else _DATA)
  else pure ()
  let label ←
    (if !varinfo.storage.contains .VS_STATIC then do
      _GLOBL (tg.MANGLE (fmt_name name))
      pure (tg.MANGLE (fmt_name name))
    else pure (fmt_name name))
  match init with
  | some i => do
    EMIT_ALIGN (tg.align_size varinfo.type)
    EMIT_LABEL label
    construct_initial_value tg varinfo.type (some i)
  | none =>
    let size := if tg.type_size varinfo.type < 1 then 1 else tg.type_size varinfo.type
    let align := tg.align_size varinfo.type
    if align ≤ 1 then _COMM label (NUM size)
    else _COMM label (toString size ++ "," ++ toString align)

/-- The label under which `emit_varinfo` defines a variable: its name, mangled when the
variable is not static. -/
def varinfo_label (tg : Target) (varinfo : VarInfo) : String :=
  if !varinfo.storage.contains .VS_STATIC then tg.MANGLE (fmt_name varinfo.name)
  else fmt_name varinfo.name

/-- A line that holds data: one of the data directives, or an alignment request. -/
def is_data_line : Asm → Bool
  | .EMIT_ASM op _ => op = ".byte" || op = ".word" || op = ".long" || op = ".quad" || op = ".ascii"
  | .EMIT_ALIGN _ => true
  | _ => false

/-- The section directive of an initialized variable: the read-only data section of the
platform when the type is const-qualified, `.data` otherwise. -/
def section_line (tg : Target) (varinfo : VarInfo) : Asm :=
  if varinfo.qualifier.contains .TQ_CONST then
    .EMIT_ASM ".section" [if tg.apple then "__DATA,__const" else ".rodata"]
  else .EMIT_ASM ".data" []

/-- The `.globl` line of a variable: one line with the mangled name when the variable
is not static, nothing when it is. -/
def globl_lines (tg : Target) (varinfo : VarInfo) : List Asm :=
  if varinfo.storage.contains .VS_STATIC then []
  else [.EMIT_ASM ".globl" [tg.MANGLE (fmt_name varinfo.name)]]

/-- The text of a reference to a symbol in an initializer: the bare label when the
offset is 0, `label + offset` otherwise. -/
def symbol_ref (label : String) (offset : Int) : String :=
  if offset = 0 then label else label ++ " + " ++ toString offset

/-- Modelled from the spec: a Darwin LP64 target, which prepends `_` to every externally
visible name. -/
def darwin_lp64 : Target where
  type_size := lp64_type_size
  align_size := lp64_align_size
  MANGLE := fun label => "_" ++ label
  escape_string := fun bytes => String.join (bytes.map escape_byte)
  double_to_float_bits := narrow_double_bits
  apple := true
  RET_VAR_NAME := ".ret"

/-! ### Registers, instructions and operands

Modelled from the spec: the register, instruction and operand helpers below stand for
the macros of `x64.h` and `emit.h`, which are not among the sources. -/

/-- Modelled from the spec: the 8-bit argument register names of `x64.h`. -/
def DIL : String := "%dil"
def SIL : String := "%sil"
def DL : String := "%dl"
def CL : String := "%cl"
def R8B : String := "%r8b"
def R9B : String := "%r9b"
/-- Modelled from the spec: the 16-bit argument register names of `x64.h`. -/
def DI : String := "%di"
def SI : String := "%si"
def DX : String := "%dx"
def CX : String := "%cx"
def R8W : String := "%r8w"
def R9W : String := "%r9w"
/-- Modelled from the spec: the 32-bit argument register names of `x64.h`. -/
def EDI : String := "%edi"
def ESI : String := "%esi"
def EDX : String := "%edx"
def ECX : String := "%ecx"
def R8D : String := "%r8d"
def R9D : String := "%r9d"
/-- Modelled from the spec: the 64-bit register names of `x64.h`. -/
def RDI : String := "%rdi"
def RSI : String := "%rsi"
def RDX : String := "%rdx"
def RCX : String := "%rcx"
def R8 : String := "%r8"
def R9 : String := "%r9"
def RBP : String := "%rbp"
def RSP : String := "%rsp"
/-- Modelled from the spec: the floating-point argument register names of `x64.h`. -/
def XMM0 : String := "%xmm0"
def XMM1 : String := "%xmm1"
def XMM2 : String := "%xmm2"
def XMM3 : String := "%xmm3"
def XMM4 : String := "%xmm4"
def XMM5 : String := "%xmm5"
def XMM6 : String := "%xmm6"
def XMM7 : String := "%xmm7"

/-- Modelled from the spec: the first six integer arguments are passed in registers. -/
def MAX_REG_ARGS : Nat := 6
/-- Modelled from the spec: the first eight floating-point arguments are passed in
registers. -/
def MAX_FREG_ARGS : Nat := 8
/-- Modelled from the spec: the machine word of x86-64 has 8 bytes. -/
def WORD_SIZE : Nat := 8

/-- Modelled from the spec: `IM(x)`, an immediate operand. -/
def IM (x : Int) : String := "$" ++ toString x

/-- Modelled from the spec: `OFFSET_INDIRECT(offset, base, NULL, 1)`, the memory operand
at `offset` bytes from the base register. -/
def OFFSET_INDIRECT (offset : Int) (base : String) : String :=
  toString offset ++ "(" ++ base ++ ")"

def MOV (o1 o2 : String) : Run Unit := emit (.EMIT_ASM "mov" [o1, o2])
def MOVSS (o1 o2 : String) : Run Unit := emit (.EMIT_ASM "movss" [o1, o2])
def MOVSD (o1 o2 : String) : Run Unit := emit (.EMIT_ASM "movsd" [o1, o2])
def PUSH (o1 : String) : Run Unit := emit (.EMIT_ASM "push" [o1])
def POP (o1 : String) : Run Unit := emit (.EMIT_ASM "pop" [o1])
def SUB (o1 o2 : String) : Run Unit := emit (.EMIT_ASM "sub" [o1, o2])
def RET : Run Unit := emit (.EMIT_ASM "ret" [])

/-- Modelled from the spec: `is_stack_param`, the aggregates that are passed on the
stack. -/
def is_stack_param : EmitType → Bool
  | .TY_STRUCT _ => true
  | _ => false

/-- The `func` fields of a function type: return type, parameter vector (may be null)
and the variadic flag. -/
structure FuncType where
  ret : EmitType
  params : Option (List VarInfo)
  vaargs : Bool

/-- The result of register allocation that the emitter reads. -/
structure RegAlloc where
  frame_size : Int
  used_reg_bits : Nat

/-- A statement, as far as `emit_code.c` looks at it: an `ST_ASM` statement or a
statement of any other kind. -/
inductive Stmt
  | ST_ASM (str : String)
  | ST_OTHER
  deriving DecidableEq, Repr

/-- The basic-block container of a function, handed to `emit_bb_irs` unread. -/
structure BBContainer where
  bbs : List String

/-- A `Function`: name, function type, scopes (null for a prototype), statements (may
be null, entries may be null), register allocation and basic blocks. -/
structure Function where
  name : String
  type : FuncType
  scopes : Option (List Scope)
  stmts : Option (List (Option Stmt))
  ra : RegAlloc
  bbcon : BBContainer

def kReg8s : List String := [DIL, SIL, DL, CL, R8B, R9B]
def kReg16s : List String := [DI, SI, DX, CX, R8W, R9W]
def kReg32s : List String := [EDI, ESI, EDX, ECX, R8D, R9D]
def kReg64s : List String := [RDI, RSI, RDX, RCX, R8, R9]
def kFReg64s : List String := [XMM0, XMM1, XMM2, XMM3, XMM4, XMM5, XMM6, XMM7]

/-- `kRegTable[size]`, null where the table holds `NULL` and for a size beyond it. -/
def kRegTable (size : Nat) : Option (List String) :=
  if size = 1 then some kReg8s
  else if size = 2 then some kReg16s
  else if size = 4 then some kReg32s
  else if size = 8 then some kReg64s
  else none

/-- The statement `MOV(kRegTable[size][index], OFFSET_INDIRECT(offset, RBP, NULL, 1))`
with the assertion on `size` in front of it. -/
def store_reg_arg (size : Nat) (index : Nat) (offset : Int) : Run Unit :=
  match kRegTable size with
  | none => fatal (.assert "size < sizeof(kRegTable) / sizeof(*kRegTable) && kRegTable[size] != NULL")
  | some regs =>
    match regs.get? index with
    | some reg => MOV reg (OFFSET_INDIRECT offset RBP)
    | none => fatal (.undefined "kRegTable[size][index]")

/-- The `switch (type->flonum.kind)` that stores a floating-point register:
`MOVSS` for `FL_FLOAT`, `MOVSD` for `FL_DOUBLE`. -/
def store_freg_arg (type : EmitType) (index : Nat) (offset : Int) : Run Unit :=
  match kFReg64s.get? index with
  | none => fatal (.undefined "kFReg64s[index]")
  | some reg =>
    match type with
    | .TY_FLONUM .FL_FLOAT => MOVSS reg (OFFSET_INDIRECT offset RBP)
    | .TY_FLONUM .FL_DOUBLE => MOVSD reg (OFFSET_INDIRECT offset RBP)
    | _ => fatal (.assert "false")

/-- `find_ret_var(scope)`. -/
def find_ret_var (tg : Target) (scope : Scope) : Option VarInfo :=
  (scope_find scope tg.RET_VAR_NAME).map Prod.fst

/-- The parameter loop of a function that is not variadic, from the running `arg_index`
and `farg_index`. -/
def put_params_loop (tg : Target) : List VarInfo → Nat → Nat → Run Unit
  | [], _, _ => pure ()
  | varinfo :: rest, arg_index, farg_index =>
    if is_stack_param varinfo.type then put_params_loop tg rest arg_index farg_index
    else if is_flonum varinfo.type then
      if farg_index < MAX_FREG_ARGS then do
        store_freg_arg varinfo.type farg_index varinfo.local_offset
        put_params_loop tg rest arg_index (farg_index + 1)
      else put_params_loop tg rest arg_index farg_index
    else
      match varinfo.type with
      | .TY_FIXNUM _ | .TY_PTR _ =>
        if arg_index < MAX_REG_ARGS then do
          store_reg_arg (tg.type_size varinfo.type) arg_index varinfo.local_offset
          put_params_loop tg rest (arg_index + 1) farg_index
        else put_params_loop tg rest arg_index farg_index
      | _ => fatal (.assert "false")

/-- The inner `while (ip < len)` scan of the variadic case: the next parameter from `ip`
on whose type satisfies the test (null when there is none), and the parameters after
the new `ip`. -/
def next_param (test : EmitType → Bool) : List VarInfo → Option VarInfo × List VarInfo
  | [] => (none, [])
  | p :: rest => if test p.type then (some p, rest) else next_param test rest

/-- The frame offset at which the variadic case saves integer register `i` when no
named parameter is bound to it. -/
def reg_save_offset (i : Nat) : Int :=
  ((i : Int) - (MAX_REG_ARGS : Int) - (MAX_FREG_ARGS : Int)) * (WORD_SIZE : Int)

/-- The frame offset at which the variadic case saves floating-point register `i` when
no named parameter is bound to it. -/
def freg_save_offset (i : Nat) : Int :=
  ((i : Int) - (MAX_FREG_ARGS : Int)) * (WORD_SIZE : Int)

/-- The integer register loop of the variadic case: `n` registers from register `i`
on, with the parameters from `ip` on. -/
def vaargs_reg_loop (tg : Target) : Nat → Nat → List VarInfo → Run Unit
  | 0, _, _ => pure ()
  | n + 1, i, params =>
    match next_param (fun type => !is_stack_param type && !is_flonum type) params with
    | (some varinfo, rest) =>
      match varinfo.type with
      | .TY_FIXNUM _ | .TY_PTR _ => do
        store_reg_arg (tg.type_size varinfo.type) i varinfo.local_offset
        vaargs_reg_loop tg n (i + 1) rest
      | _ => fatal (.assert "type->kind == TY_FIXNUM || type->kind == TY_PTR")
    | (none, rest) => do
      store_reg_arg (tg.type_size (.TY_PTR .TY_VOID)) i (reg_save_offset i)
      vaargs_reg_loop tg n (i + 1) rest

/-- The floating-point register loop of the variadic case: `n` registers from register
`i` on, with the parameters from `ip` on. -/
def vaargs_freg_loop : Nat → Nat → List VarInfo → Run Unit
  | 0, _, _ => pure ()
  | n + 1, i, params =>
    match next_param (fun type => !is_stack_param type && is_flonum type) params with
    | (some varinfo, rest) => do
      store_freg_arg varinfo.type i varinfo.local_offset
      vaargs_freg_loop n (i + 1) rest
    | (none, rest) => do
      (match kFReg64s.get? i with
       | some reg => MOVSD reg (OFFSET_INDIRECT (freg_save_offset i) RBP)
       | none => fatal (.undefined "kFReg64s[i]"))
      vaargs_freg_loop n (i + 1) rest

/-- The part of `put_args_to_stack` after the hidden return pointer: the stores of the
parameters, with `arg_index` as left by the first part. -/
def put_params (tg : Target) (type : FuncType) (arg_index : Nat) : Run Unit :=
  match type.params with
  | none => pure ()
  | some params =>
    if !type.vaargs then put_params_loop tg params arg_index 0
    else do
      vaargs_reg_loop tg (MAX_REG_ARGS - arg_index) arg_index params
      vaargs_freg_loop MAX_FREG_ARGS 0 params

/-- `put_args_to_stack(func)`. -/
def put_args_to_stack (tg : Target) (func : Function) : Run Unit := do
  let arg_index ←
    (if is_stack_param func.type.ret then
      match func.scopes with
      | some (top_scope :: _) =>
        match find_ret_var tg top_scope with
        | none => fatal (.assert "varinfo != NULL")
        | some varinfo => do
          store_reg_arg (tg.type_size varinfo.type) 0 varinfo.local_offset
          pure 1
      | _ => fatal (.undefined "func->scopes->data[0]")
    else pure 0)
  put_params tg func.type arg_index

/-! ### `emit_defun` -/

/-- The functions that `emit_defun` calls and that are defined outside `emit_code.c`.
Each of them may move the tracked stack position `stackpos`, a global of the emitter, so
each takes the position before the call and returns the position after it. -/
structure Backend where
  push_callee_save_regs : Nat → Int → Run Int
  pop_callee_save_regs : Nat → Int → Run Int
  emit_bb_irs : BBContainer → Int → Run Int

/-- `is_asm(stmt)`. -/
def is_asm : Stmt → Bool
  | .ST_ASM _ => true
  | .ST_OTHER => false

/-- The loop of `emit_defun` that computes `no_stmt` over the statement vector: null
entries are skipped, and the first statement that is not `asm` makes it false. -/
def no_stmt_loop : List (Option Stmt) → Bool
  | [] => true
  | none :: rest => no_stmt_loop rest
  | some stmt :: rest => if !is_asm stmt then false else no_stmt_loop rest

/-- The value of `no_stmt` in `emit_defun`. -/
def no_stmt (stmts : Option (List (Option Stmt))) : Bool :=
  match stmts with
  | none => true
  | some stmts => no_stmt_loop stmts

/-- The label part of `emit_defun`: `.globl` and the mangled label for a function that is
not static, a comment and the plain label for a static one. -/
def emit_defun_label (tg : Target) (global_scope : Scope) (func : Function) : Run Unit :=
  let global :=
    match scope_find global_scope func.name with
    | some (varinfo, _) => !varinfo.storage.contains .VS_STATIC
    | none => true
  let label := fmt_name func.name
  if global then do
    _GLOBL (tg.MANGLE label)
    EMIT_LABEL (tg.MANGLE label)
  else do
    emit (.emit_comment (some (func.name ++ ": static func")))
    EMIT_LABEL label

/-- The prologue of `emit_defun`, run when `no_stmt` is false. Modelled from the spec:
`PUSH_STACK_POS()` adds 8 to `stackpos`. -/
def emit_prologue (tg : Target) (be : Backend) (func : Function) (stackpos : Int) :
    Run Int := do
  PUSH RBP
  let stackpos := stackpos + 8
  MOV RSP RBP
  let stackpos ←
    (if func.ra.frame_size > 0 then do
      SUB (IM func.ra.frame_size) RSP
      pure (stackpos + func.ra.frame_size)
    else pure stackpos)
  put_args_to_stack tg func
  be.push_callee_save_regs func.ra.used_reg_bits stackpos

/-- The epilogue of `emit_defun`, run when `no_stmt` is false. Modelled from the spec:
`POP_STACK_POS()` subtracts 8 from `stackpos`. -/
def emit_epilogue (be : Backend) (func : Function) (stackpos : Int) : Run Int := do
  let stackpos ← be.pop_callee_save_regs func.ra.used_reg_bits stackpos
  MOV RBP RSP
  let stackpos := stackpos - func.ra.frame_size
  POP RBP
  pure (stackpos - 8)

/-- The inner loop of `emit_defun` over the variables of one scope: each variable with
static storage has its synthesized global emitted. -/
def static_vars_loop (tg : Target) : List VarInfo → Run Unit
  | [] => pure ()
  | varinfo :: rest =>
    if !varinfo.storage.contains .VS_STATIC then static_vars_loop tg rest
    else
      match varinfo.static_gvar with
      | none => fatal (.assert "gvarinfo != NULL")
      | some gvarinfo => do
        emit_varinfo tg gvarinfo gvarinfo.global_init
        static_vars_loop tg rest

/-- The outer loop of `emit_defun` over the scopes of the function; a scope without a
variable vector is skipped. -/
def static_scopes_loop (tg : Target) : List Scope → Run Unit
  | [] => pure ()
  | scope :: rest =>
    match scope.vars with
    | none => static_scopes_loop tg rest
    | some vars => do
      static_vars_loop tg vars
      static_scopes_loop tg rest

/-- `emit_defun(func)`, from the value of `stackpos` before the call to its value after
it. -/
def emit_defun (tg : Target) (be : Backend) (global_scope : Scope) (func : Function)
    (stackpos : Int) : Run Int :=
  match func.scopes with
  | none => pure stackpos
  | some scopes => do
    if stackpos = 8 then pure () else fatal (.assert "stackpos == 8")
    emit (.emit_comment none)
    _TEXT
    emit_defun_label tg global_scope func
    let stackpos ←
      (if !no_stmt func.stmts then emit_prologue tg be func stackpos else pure stackpos)
    let stackpos ← be.emit_bb_irs func.bbcon stackpos
    let stackpos ←
      (if !no_stmt func.stmts then emit_epilogue be func stackpos else pure stackpos)
    RET
    static_scopes_loop tg scopes
    if stackpos = 8 then pure stackpos else fatal (.assert "stackpos == 8")

/-! ### Reference notions for argument passing -/

/-- A parameter of the integer class: neither a stack-passed aggregate nor
floating-point. -/
def int_class (v : VarInfo) : Bool := !is_stack_param v.type && !is_flonum v.type

/-- A parameter of the floating-point class. -/
def float_class (v : VarInfo) : Bool := !is_stack_param v.type && is_flonum v.type

/-- An integer or pointer type. -/
def is_fixnum_or_ptr : EmitType → Bool
  | .TY_FIXNUM _ => true
  | .TY_PTR _ => true
  | _ => false

/-- Modelled from the spec: the name, in the x86-64 instruction set, of the part of
`size` bytes of integer argument register `k` of the System V calling convention (0 for
RDI, 1 for RSI, 2 for RDX, 3 for RCX, 4 for R8, 5 for R9). Written out here and not read
from the tables of `put_args_to_stack`. -/
def arg_reg (size k : Nat) : Option String :=
  if size = 8 then ["%rdi", "%rsi", "%rdx", "%rcx", "%r8", "%r9"][k]?
  else if size = 4 then ["%edi", "%esi", "%edx", "%ecx", "%r8d", "%r9d"][k]?
  else if size = 2 then ["%di", "%si", "%dx", "%cx", "%r8w", "%r9w"][k]?
  else if size = 1 then ["%dil", "%sil", "%dl", "%cl", "%r8b", "%r9b"][k]?
  else none

/-- Modelled from the spec: the name of floating-point argument register `j`, `%xmm0`
to `%xmm7`. Written out here and not read from the table of `put_args_to_stack`. -/
def xmm_reg (j : Nat) : Option String :=
  if j < 8 then some ("%xmm" ++ toString j) else none

/-- The store of integer argument register `k`, under its name for `size` bytes, to the
frame slot at `offset`. -/
def int_store (size k : Nat) (offset : Int) : List Asm :=
  match arg_reg size k with
  | some reg => [.EMIT_ASM "mov" [reg, OFFSET_INDIRECT offset RBP]]
  | none => []

/-- The store of `XMM j` to the frame slot at `offset`: `movss` for `float`, `movsd` for
`double`. -/
def float_store (type : EmitType) (j : Nat) (offset : Int) : List Asm :=
  match type, xmm_reg j with
  | .TY_FLONUM .FL_FLOAT, some reg =>
    [.EMIT_ASM "movss" [reg, OFFSET_INDIRECT offset RBP]]
  | .TY_FLONUM .FL_DOUBLE, some reg =>
    [.EMIT_ASM "movsd" [reg, OFFSET_INDIRECT offset RBP]]
  | _, _ => []

/-- The store expected for parameter `v`, given the parameters `earlier` declared
before it and the number `first` of integer registers taken before the first
parameter: the `k`-th parameter of the integer class comes from integer register
`first + k`, under the name for its size, when that index is below 6; the `j`-th
floating-point parameter comes from `XMM j` when `j < 8`; another parameter has no
store. -/
def param_store (tg : Target) (first : Nat) (earlier : List VarInfo) (v : VarInfo) :
    List Asm :=
  if is_stack_param v.type then []
  else if is_flonum v.type then
    if earlier.countP float_class < 8 then
      float_store v.type (earlier.countP float_class) v.local_offset
    else []
  else
    if first + earlier.countP int_class < 6 then
      int_store (tg.type_size v.type) (first + earlier.countP int_class) v.local_offset
    else []

/-- The expected stores of the parameters `rest`, in declaration order, that follow the
parameters `earlier`. -/
def param_stores_from (tg : Target) (first : Nat) : List VarInfo → List VarInfo → List Asm
  | _, [] => []
  | earlier, v :: rest =>
    param_store tg first earlier v ++ param_stores_from tg first (earlier ++ [v]) rest

/-- The expected stores of a function that is not variadic: for each parameter in
declaration order its store, given the parameters declared before it. -/
def param_stores (tg : Target) (first : Nat) (params : List VarInfo) : List Asm :=
  (List.range params.length).flatMap (fun i =>
    match params[i]? with
    | some v => param_store tg first (params.take i) v
    | none => [])

/-- The expected integer register stores of a variadic function, for the registers from
`first` on: register `first + r` goes to the frame slot of the `r`-th parameter of the
integer class when there is one, and to its slot of the register save area
otherwise. -/
def vaargs_reg_stores (tg : Target) (first : Nat) (params : List VarInfo) : List Asm :=
  (List.range (6 - first)).flatMap (fun r =>
    match (params.filter int_class)[r]? with
    | some v => int_store (tg.type_size v.type) (first + r) v.local_offset
    | none => int_store 8 (first + r) (reg_save_offset (first + r)))

/-- The expected floating-point register stores of a variadic function: `XMM j` goes to
the frame slot of the `j`-th floating-point parameter when there is one, and by `movsd`
to its slot of the register save area otherwise. -/
def vaargs_freg_stores (params : List VarInfo) : List Asm :=
  (List.range 8).flatMap (fun j =>
    match (params.filter float_class)[j]? with
    | some v => float_store v.type j v.local_offset
    | none => float_store (.TY_FLONUM .FL_DOUBLE) j (freg_save_offset j))

/-- The hypothesis on the parameters of the integer class: each has an integer or pointer
type of 1, 2, 4 or 8 bytes. -/
def int_params_ok (tg : Target) (params : List VarInfo) : Prop :=
  ∀ v ∈ params, int_class v = true →
    is_fixnum_or_ptr v.type = true ∧
      (tg.type_size v.type = 1 ∨ tg.type_size v.type = 2 ∨ tg.type_size v.type = 4 ∨
        tg.type_size v.type = 8)

/-- Modelled from the spec: the number of bytes that a store instruction writes to
memory, by the x86-64 instruction set: `movsd` writes a `double` of 8 bytes, `movss` a
`float` of 4 bytes, and `mov` as many bytes as its source register is wide. -/
def store_width (op reg : String) : Nat :=
  if op = "movsd" then 8
  else if op = "movss" then 4
  else if (List.range 6).any (fun k => arg_reg 8 k = some reg) then 8
  else if (List.range 6).any (fun k => arg_reg 4 k = some reg) then 4
  else if (List.range 6).any (fun k => arg_reg 2 k = some reg) then 2
  else if (List.range 6).any (fun k => arg_reg 1 k = some reg) then 1
  else 0

/-! ### Concrete programs used as examples -/

/-- The global `int v;` of the example `int v; int *p = &v;`. -/
def example_global_v : VarInfo :=
  .mk "v" (.TY_FIXNUM .FX_INT) [] none none 0 []

/-- The global scope that holds `example_global_v`. -/
def example_global_scope : Scope := .mk none (some [example_global_v])

/-- The initializer expression `&v`. -/
def example_ref_v : Expr :=
  .EX_REF (.TY_PTR (.TY_FIXNUM .FX_INT))
    (.EX_VAR (.TY_FIXNUM .FX_INT) "v" example_global_scope)

/-- The parameters of `void f(int a, double d, char c, struct S s, long *p, float x)`. -/
def example_params : List VarInfo :=
  [.mk "a" (.TY_FIXNUM .FX_INT) [.VS_PARAM] none none (-4) [],
   .mk "d" (.TY_FLONUM .FL_DOUBLE) [.VS_PARAM] none none (-16) [],
   .mk "c" (.TY_FIXNUM .FX_CHAR) [.VS_PARAM] none none (-17) [],
   .mk "s" (.TY_STRUCT (.mk [] 0 1 false)) [.VS_PARAM] none none 16 [],
   .mk "p" (.TY_PTR (.TY_FIXNUM .FX_LONG)) [.VS_PARAM] none none (-32) [],
   .mk "x" (.TY_FLONUM .FL_FLOAT) [.VS_PARAM] none none (-36) []]

/-- The function `void f(int a, double d, char c, struct S s, long *p, float x)`. -/
def example_func : Function where
  name := "f"
  type := ⟨.TY_VOID, some example_params, false⟩
  scopes := some [.mk none (some example_params)]
  stmts := some [some .ST_OTHER]
  ra := ⟨48, 0⟩
  bbcon := ⟨[]⟩

/-- The reserved return-value variable of `struct S g(int a)`: a pointer at frame
offset -8. -/
def example_ret_var : VarInfo :=
  .mk ".ret" (.TY_PTR (.TY_STRUCT (.mk [] 0 1 false))) [.VS_PARAM] none none (-8) []

/-- The parameter `a` of `struct S g(int a)`. -/
def example_param_a : VarInfo :=
  .mk "a" (.TY_FIXNUM .FX_INT) [.VS_PARAM] none none (-12) []

/-- The function `struct S g(int a)`, and with `vaargs` set `struct S g(int a, ...)`. -/
def example_struct_func (vaargs : Bool) : Function where
  name := "g"
  type := ⟨.TY_STRUCT (.mk [] 0 1 false), some [example_param_a], vaargs⟩
  scopes := some [.mk none (some [example_ret_var, example_param_a])]
  stmts := some [some .ST_OTHER]
  ra := ⟨16, 0⟩
  bbcon := ⟨[]⟩

/-- The parameter `fmt` of `int h(char *fmt, ...)`. -/
def example_param_fmt : VarInfo :=
  .mk "fmt" (.TY_PTR (.TY_FIXNUM .FX_CHAR)) [.VS_PARAM] none none (-112) []

/-- The function `int h(char *fmt, ...)`. -/
def example_vaargs_func : Function where
  name := "h"
  type := ⟨.TY_FIXNUM .FX_INT, some [example_param_fmt], true⟩
  scopes := some [.mk none (some [example_param_fmt])]
  stmts := some [some .ST_OTHER]
  ra := ⟨112, 0⟩
  bbcon := ⟨[]⟩

/-- A backend for the examples: one callee-saved register `%rbx` is pushed and popped,
and the body is `mov $0, %eax`. -/
def example_backend : Backend where
  push_callee_save_regs := fun _ stackpos => ⟨[.EMIT_ASM "push" ["%rbx"]], .ok (stackpos + 8)⟩
  pop_callee_save_regs := fun _ stackpos => ⟨[.EMIT_ASM "pop" ["%rbx"]], .ok (stackpos - 8)⟩
  emit_bb_irs := fun _ stackpos => ⟨[.EMIT_ASM "mov" ["$0", "%eax"]], .ok stackpos⟩

/-- The synthesized global of the static local `n` of the example `main`. -/
def example_static_gvar : VarInfo :=
  .mk "n.0" (.TY_FIXNUM .FX_INT) [.VS_STATIC] none none 0 []

/-- The function `int main(void) { static int n; int x; return 0; }` with a frame of
`frame_size` bytes. -/
def example_main (frame_size : Int) : Function where
  name := "main"
  type := ⟨.TY_FIXNUM .FX_INT, some [], false⟩
  scopes := some [.mk none (some
    [.mk "n" (.TY_FIXNUM .FX_INT) [.VS_STATIC] none (some example_static_gvar) 0 [],
     .mk "x" (.TY_FIXNUM .FX_INT) [] none none (-4) []])]
  stmts := some [none, some (.ST_ASM "nop"), some .ST_OTHER]
  ra := ⟨frame_size, 1⟩
  bbcon := ⟨[]⟩

/-- The static local `static int n;` of a function, with its synthesized global. -/
def example_static_local : VarInfo :=
  .mk "n" (.TY_FIXNUM .FX_INT) [.VS_STATIC] none (some example_static_gvar) 0 []

/-- A function scope, below the global scope, that holds `example_static_local`. -/
def example_local_scope : Scope :=
  .mk (some example_global_scope) (some [example_static_local])

/-- The initializer expression `&n` of `static int *q = &n;` in that function. -/
def example_ref_n : Expr :=
  .EX_REF (.TY_PTR (.TY_FIXNUM .FX_INT))
    (.EX_VAR (.TY_FIXNUM .FX_INT) "n" example_local_scope)

/-! ### Reference notions for the static locals of a function -/

/-- The statements of `emit_defun` for a function with scopes, up to and excluding
`RET()`: entry assertion, header, label, prologue, body and epilogue. Returns the value
of `stackpos` before `RET()`. -/
def emit_defun_head (tg : Target) (be : Backend) (global_scope : Scope) (func : Function)
    (stackpos : Int) : Run Int := do
  if stackpos = 8 then pure () else fatal (.assert "stackpos == 8")
  emit (.emit_comment none)
  _TEXT
  emit_defun_label tg global_scope func
  let stackpos ←
    (if !no_stmt func.stmts then emit_prologue tg be func stackpos else pure stackpos)
  let stackpos ← be.emit_bb_irs func.bbcon stackpos
  if !no_stmt func.stmts then emit_epilogue be func stackpos else pure stackpos

/-- The variables with static storage of the scopes of a function, in scope order and
then in declaration order. -/
def static_vars (scopes : List Scope) : List VarInfo :=
  scopes.flatMap (fun scope =>
    (scope.vars.getD []).filter (fun varinfo => varinfo.storage.contains .VS_STATIC))

/-- The definition written for one static local: `emit_varinfo` of its synthesized global
with the initializer recorded in it. -/
def static_definition (tg : Target) (varinfo : VarInfo) : Run Unit :=
  match varinfo.static_gvar with
  | some gvarinfo => emit_varinfo tg gvarinfo gvarinfo.global_init
  | none => fatal (.assert "gvarinfo != NULL")

/-! ### `array_to_ptr` of `type.c` -/

/-- `*p` as `unsigned char`: the first byte, NUL at the end of the list. -/
def deref (p : List Nat) : Nat := p.headD 0

/-- `strcmp(p, q)`. The first alternative is the loop test at the terminating NUL of
`p`; `q.tail` is `++q`. -/
def strcmp : List Nat → List Nat → Int
  | [], q => ((0 : Nat) : Int) - (deref q : Int)
  | c :: p, q =>
    if c ≠ 0 ∧ c = deref q then strcmp p q.tail
    else (c : Int) - (deref q : Int)

/-- `tolower(c)`. -/
def tolower (c : Int) : Int :=
  if 65 ≤ c ∧ c ≤ 90 then c + (97 - 65) else c

/-- `strcasecmp(p, q)`. -/
def strcasecmp : List Nat → List Nat → Int
  | [], q =>
    let d : Int := ((0 : Nat) : Int) - (deref q : Int)
    if d ≠ 0 then d else 0
  | c1 :: p, q =>
    let d : Int := (c1 : Int) - (deref q : Int)
    if d ≠ 0 then d
    else if c1 = 0 then 0
    else strcasecmp p q.tail

/-- `strncasecmp(p, q, n)`. -/
def strncasecmp : List Nat → List Nat → Nat → Int
  | _, _, 0 => 0
  | p, q, n + 1 =>
    let c1 := tolower (deref p)
    let c2 := tolower (deref q)
    let d := c1 - c2
    if d ≠ 0 then d
    else if c1 = 0 then 0
    else strncasecmp p.tail q.tail n

/-- The memory: the byte stored at each address. -/
abbrev Mem := Nat → Nat

/-- The memory after the store `*addr = value`. -/
def Mem.store (mem : Mem) (addr value : Nat) : Mem :=
  fun a => if a = addr then value else mem a

/-- The loop of `memcmp` with `n` iterations left; `d` is the local `int d`, `none`
while it has not been assigned. -/
def memcmp_loop (mem : Mem) : Nat → Nat → Nat → Option Int → Option Int
  | _, _, 0, d => d
  | p, q, n + 1, _ =>
    let d : Int := (mem p : Int) - (mem q : Int)
    if d ≠ 0 then some d
    else memcmp_loop mem (p + 1) (q + 1) n (some d)

/-- `memcmp(buf1, buf2, n)`. The result is `none` when the function returns the local
`d` without having assigned it. -/
def memcmp (mem : Mem) (buf1 buf2 n : Nat) : Option Int :=
  memcmp_loop mem buf1 buf2 n none

/-- The loop of `strncpy`: `for (; n > 0 && (*s++ = *t++) != 0; --n)`. Returns the
memory after the loop. -/
def strncpy_loop : Mem → Nat → Nat → Nat → Mem
  | mem, _, _, 0 => mem
  | mem, s, t, n + 1 =>
    if mem t ≠ 0 then strncpy_loop (mem.store s (mem t)) (s + 1) (t + 1) n
    else mem.store s (mem t)

/-- `strncpy(s, t, n)`: the memory after the call and the returned pointer. -/
def strncpy (mem : Mem) (s t n : Nat) : Mem × Nat :=
  (strncpy_loop mem s t n, s)

/-- The loop `while (n-- > 0) *d++ = *s++;`. -/
def copy_forward : Mem → Nat → Nat → Nat → Mem
  | mem, _, _, 0 => mem
  | mem, d, s, n + 1 => copy_forward (mem.store d (mem s)) (d + 1) (s + 1) n

/-- The loop `while (n-- > 0) *--d = *--s;`. -/
def copy_backward : Mem → Nat → Nat → Nat → Mem
  | mem, _, _, 0 => mem
  | mem, d, s, n + 1 => copy_backward (mem.store (d - 1) (mem (s - 1))) (d - 1) (s - 1) n

/-- `memmove(dst, src, n)`: the memory after the call and the returned pointer. -/
def memmove (mem : Mem) (dst src n : Nat) : Mem × Nat :=
  if src < dst ∧ src + n > dst then (copy_backward mem (dst + n) (src + n) n, dst)
  else (copy_forward mem dst src n, dst)

/-- The value of a byte read through `char *`: `char` is signed. -/
def to_char (x : Int) : Int := (x + 128) % 256 - 128

/-- Modelled from the spec: the value kept by a `long`, 64 bits wide, arithmetic
wrapping modulo `2^64`. -/
def to_long (x : Int) : Int := (x + 2 ^ 63) % 2 ^ 64 - 2 ^ 63

/-- `parse_sign(pp)`: whether the sign is `-`, and by how much `*pp` is advanced. -/
def parse_sign (p : List Nat) : Bool × Nat :=
  let c := to_char (deref p)
  let negative := decide (c = 45)
  if c = 43 ∨ c = 45 then (negative, 1) else (negative, 0)

/-- The digit loop of `strtol`, with the running `result` and the number `k` of
characters read since `op`. At the end of the list `*p` is NUL, which is below `'0'` and
below `'a'`, so the loop breaks. -/
def strtol_loop (base digimax hexmax : Int) : List Nat → Int → Nat → Int × Nat
  | [], result, k => (result, k)
  | b :: p, result, k =>
    let c := to_char b
    if 48 ≤ c ∧ c < digimax then
      strtol_loop base digimax hexmax p (to_long (result * base + (c - 48))) (k + 1)
    else
      let c := to_char (tolower c)
      if 97 ≤ c ∧ c < hexmax then
        strtol_loop base digimax hexmax p (to_long (result * base + (c - 97 + 10))) (k + 1)
      else (result, k)

/-- `strtol(p, pp, base)`: the returned value and the offset from the start of the
string of the pointer stored to `*pp` (when `pp` is not null). -/
def strtol (p : List Nat) (base : Int) : Int × Nat :=
  let sign := parse_sign p
  let digimax := to_char (48 + (if base ≤ 10 then base else 10))
  let hexmax := to_char (97 - 10 + base)
  let loop := strtol_loop base digimax hexmax (p.drop sign.2) 0 0
  let offset := if loop.2 = 0 then 0 else sign.2 + loop.2
  let result := if sign.1 then to_long (-loop.1) else loop.1
  (result, offset)

/-! ### Concrete memories and strings used as examples -/

/-- A memory that holds the string `"a"` at address 0 (`'a'`, NUL) and the byte `'x'`
at every other address. -/
def example_mem : Mem := fun a => if a = 0 then 97 else if a = 1 then 0 else 120

/-- A memory that holds the byte `a + 10` at address `a`. -/
def example_mem_count : Mem := fun a => a + 10

/-! ### Reference notions for `strtol` -/

/-- The value of the character `c` as a digit of base `b`, when it is one: a decimal
digit below `b`, or a letter of either case whose rank plus 10 is below `b`. -/
def digit_value (b : Nat) (c : Nat) : Option Nat :=
  if 48 ≤ c ∧ c ≤ 57 ∧ c - 48 < b then some (c - 48)
  else if 97 ≤ c ∧ c ≤ 122 ∧ c - 97 + 10 < b then some (c - 97 + 10)
  else if 65 ≤ c ∧ c ≤ 90 ∧ c - 65 + 10 < b then some (c - 65 + 10)
  else none

/-- The value of a digit string in base `b`, most significant digit first, continuing
from the value `acc` of the digits before it. -/
def digits_value_from (b : Nat) (acc : Nat) (ds : List Nat) : Nat :=
  ds.foldl (fun acc c => acc * b + (digit_value b c).getD 0) acc

/-- The value of a digit string in base `b`, most significant digit first. -/
def digits_value (b : Nat) (ds : List Nat) : Nat := digits_value_from b 0 ds

/-! ### Reference notions for references in initializers -/

/-- The member chain `v.m1...mk` on a variable `v`: the variable node and the recorded
offsets of the members `m1` to `mk`, in that order. Every target of a member access has
a struct type and the member index is within that struct. -/
def member_chain : Expr → Option (Expr × List Int)
  | .EX_VAR type name scope => some (.EX_VAR type name scope, [])
  | .EX_MEMBER _ target index =>
    match member_chain target, target.type with
    | some (v, offsets), .TY_STRUCT info =>
      match info.members.get? index with
      | some member => some (v, offsets ++ [(member.offset : Int)])
      | none => none
    | _, _ => none
  | _ => none

/-- An expression built from integer constants, casts, `+` and `-`: the constants with
their signs, a constant under the right operand of a `-` changing sign. -/
def const_terms : Expr → Option (List Int)
  | .EX_FIXNUM _ fixnum => some [fixnum]
  | .EX_CAST _ sub => const_terms sub
  | .EX_ADD _ lhs rhs =>
    match const_terms lhs, const_terms rhs with
    | some l, some r => some (l ++ r)
    | _, _ => none
  | .EX_SUB _ lhs rhs =>
    match const_terms lhs, const_terms rhs with
    | some l, some r => some (l ++ r.map (fun k => -k))
    | _, _ => none
  | _ => none

/-- An expression built from one reference to a variable (`v`, `&v`, `&*e` with `e` such
an expression, or `&v.m1...mk`), casts, and constant expressions added to it on either
side or subtracted from it: the variable node, and the member offsets and signed
constants. -/
def ref_terms : Expr → Option (Expr × List Int)
  | .EX_VAR type name scope => some (.EX_VAR type name scope, [])
  | .EX_CAST _ sub => ref_terms sub
  | .EX_REF _ (.EX_VAR type name scope) => some (.EX_VAR type name scope, [])
  | .EX_REF _ (.EX_DEREF _ sub) => ref_terms sub
  | .EX_REF _ (.EX_MEMBER type target index) => member_chain (.EX_MEMBER type target index)
  | .EX_ADD _ lhs rhs =>
    match ref_terms lhs, const_terms rhs with
    | some (v, l), some r => some (v, l ++ r)
    | _, _ =>
      match const_terms lhs, ref_terms rhs with
      | some l, some (v, r) => some (v, l ++ r)
      | _, _ => none
  | .EX_SUB _ lhs rhs =>
    match ref_terms lhs, const_terms rhs with
    | some (v, l), some r => some (v, l ++ r.map (fun k => -k))
    | _, _ => none
  | _ => none

/-- The global `struct { char a; int b; } v;` of the initializer examples, with `b` at
offset 4. -/
def example_struct_v : VarInfo :=
  .mk "v" (.TY_STRUCT (.mk [.mk "a" (.TY_FIXNUM .FX_CHAR) 0, .mk "b" (.TY_FIXNUM .FX_INT) 4]
    8 4 false)) [] none none 0 []

/-- The global scope that holds `example_struct_v`. -/
def example_struct_scope : Scope := .mk none (some [example_struct_v])

/-- The variable node `v` of the initializer examples. -/
def example_var_v : Expr := .EX_VAR example_struct_v.type "v" example_struct_scope

/-- The initializer expression `(char*)&v.b + 3 - 1`. -/
def example_member_ref : Expr :=
  .EX_SUB (.TY_PTR (.TY_FIXNUM .FX_CHAR))
    (.EX_ADD (.TY_PTR (.TY_FIXNUM .FX_CHAR))
      (.EX_CAST (.TY_PTR (.TY_FIXNUM .FX_CHAR))
        (.EX_REF (.TY_PTR (.TY_FIXNUM .FX_INT))
          (.EX_MEMBER (.TY_FIXNUM .FX_INT) example_var_v 1)))
      (.EX_FIXNUM (.TY_FIXNUM .FX_LONG) 3))
    (.EX_FIXNUM (.TY_FIXNUM .FX_LONG) 1)

/-! ### Reference notions for a function without statements -/

/-- A comment line or blank line of the output, which the assembler skips. -/
def is_comment_line : Asm → Bool
  | .emit_comment _ => true
  | _ => false

/-- Whether the function is declared static: its name is found in the global scope with
static storage. -/
def is_static_func (global_scope : Scope) (func : Function) : Bool :=
  match scope_find global_scope func.name with
  | some (varinfo, _) => varinfo.storage.contains .VS_STATIC
  | none => false

/-- The lines that define the label of a function: `.globl` and the mangled label for a
function that is not static; for a static one a comment and the plain label. -/
def defun_label_lines (tg : Target) (global_scope : Scope) (func : Function) : List Asm :=
  if is_static_func global_scope func then
    [.emit_comment (some (func.name ++ ": static func")), .EMIT_LABEL func.name]
  else
    [.EMIT_ASM ".globl" [tg.MANGLE func.name], .EMIT_LABEL (tg.MANGLE func.name)]

/-- The function `void nop(void) { __asm("nop"); }`: its statements are a null entry
and an `asm` statement. -/
def example_asm_func : Function where
  name := "nop"
  type := ⟨.TY_VOID, some [], false⟩
  scopes := some [.mk none (some [])]
  stmts := some [none, some (.ST_ASM "nop")]
  ra := ⟨0, 0⟩
  bbcon := ⟨[]⟩
/-! ## Theorems: `type.c` -/

mutual
/-- On a well-formed type, `same_type` of the type with itself returns true. -/
theorem same_type_self (m : Map) : ∀ T : CType, well_formed T = true →
    same_type m T T = some true
  | .TY_VOID, _ => by simp [same_type]
  | .TY_NUM _, _ => by simp [same_type]
  | .TY_PTR t, h => by
    simp only [same_type]
    exact same_type_self m t (by simpa [well_formed] using h)
  | .TY_ARRAY t _, h => by
    simp only [same_type]
    exact same_type_self m t (by simpa [well_formed] using h)
  | .TY_FUNC r (some ps) _, h => by
    simp only [well_formed, Bool.and_eq_true] at h
    simp [same_type, same_type_self m r h.1, same_type_params_self m ps h.2]
  | .TY_FUNC _ none _, h => by simp [well_formed] at h
  | .TY_STRUCT (some _) _, _ => by simp [same_type, StructInfoPtr.same]
  | .TY_STRUCT none _, _ => by simp [same_type]
/-- The parameter loop on a well-formed vector compared with itself returns true. -/
theorem same_type_params_self (m : Map) : ∀ ps : List CType, well_formed_list ps = true →
    same_type_params m ps ps = some true
  | [], _ => by simp [same_type_params]
  | t :: rest, h => by
    simp only [well_formed_list, Bool.and_eq_true] at h
    simp [same_type_params, same_type_self m t h.1, same_type_params_self m rest h.2]
end

/-- Types of different top-level kinds are never the same type. -/
theorem same_type_of_type_ne (m : Map) (a b : CType) (h : a.type ≠ b.type) :
    same_type m a b = some false := by
  cases a <;> cases b <;> first
    | (exfalso; exact h rfl)
    | simp [same_type]

mutual
/-- On well-formed types `same_type` returns: it never reads a null parameter vector. -/
theorem same_type_returns (m : Map) : ∀ a b : CType, well_formed a = true →
    well_formed b = true → ∃ r, same_type m a b = some r
  | .TY_VOID, b, _, _ => by cases b <;> simp [same_type]
  | .TY_NUM _, b, _, _ => by cases b <;> simp [same_type]
  | .TY_PTR t, b, ha, hb => by
    cases b <;> simp only [same_type] <;> try exact ⟨_, rfl⟩
    exact same_type_returns m t _ (by simpa [well_formed] using ha)
      (by simpa [well_formed] using hb)
  | .TY_ARRAY t _, b, ha, hb => by
    cases b <;> simp only [same_type] <;> try exact ⟨_, rfl⟩
    exact same_type_returns m t _ (by simpa [well_formed] using ha)
      (by simpa [well_formed] using hb)
  | .TY_FUNC r (some ps) _, b, ha, hb => by
    cases b with
    | TY_FUNC r2 p2 v2 =>
      cases p2 with
      | none => simp [well_formed] at hb
      | some qs =>
        simp only [well_formed, Bool.and_eq_true] at ha hb
        obtain ⟨x, hx⟩ := same_type_returns m r r2 ha.1 hb.1
        obtain ⟨y, hy⟩ := same_type_params_returns m ps qs ha.2 hb.2
        simp only [same_type, hx]
        cases x
        · exact ⟨_, rfl⟩
        · by_cases hl : ps.length = qs.length
          · simp [hl, hy]
          · simp [hl]
    | _ => simp [same_type]
  | .TY_FUNC _ none _, _, ha, _ => by simp [well_formed] at ha
  | .TY_STRUCT i1 n1, b, _, _ => by
    cases b with
    | TY_STRUCT i2 n2 =>
      cases i1 <;> cases i2 <;> simp only [same_type] <;>
        first
          | exact ⟨_, rfl⟩
          | (split <;> exact ⟨_, rfl⟩)
    | _ => simp [same_type]
/-- The parameter loop returns on well-formed vectors. -/
theorem same_type_params_returns (m : Map) : ∀ ps qs : List CType,
    well_formed_list ps = true → well_formed_list qs = true →
    ∃ r, same_type_params m ps qs = some r
  | [], _, _, _ => by simp [same_type_params]
  | _ :: _, [], _, _ => by simp [same_type_params]
  | p :: ps, q :: qs, ha, hb => by
    simp only [well_formed_list, Bool.and_eq_true] at ha hb
    obtain ⟨x, hx⟩ := same_type_returns m p q ha.1 hb.1
    obtain ⟨y, hy⟩ := same_type_params_returns m ps qs ha.2 hb.2
    simp only [same_type_params, hx]
    cases x
    · exact ⟨_, rfl⟩
    · simp [hy]
end

/-- The parameter loop returns true exactly when every pair of corresponding types is
the same type. -/
theorem same_type_params_true_iff (m : Map) : ∀ ps qs : List CType,
    (same_type_params m ps qs = some true ↔
      ∀ p ∈ List.zip ps qs, same_type m p.1 p.2 = some true)
  | [], _ => by simp [same_type_params]
  | _ :: _, [] => by simp [same_type_params]
  | p :: ps, q :: qs => by
    have ih := same_type_params_true_iff m ps qs
    simp only [same_type_params, List.zip_cons_cons, List.mem_cons, forall_eq_or_imp]
    rw [← ih]
    cases hx : same_type m p q with
    | none => simp
    | some x => cases x <;> simp

/-- C2: `same_type` is reflexive. For every well-formed type `T` (every function type
inside carries a non-null parameter vector) and every state of `struct_map`,
`same_type(T, T)` returns true, and so do `same_type(ptrof(T), ptrof(T))` and
`same_type(arrayof(T, n), arrayof(T, n))` for every `n`, each call of `ptrof` and
`arrayof` building a new type object. -/
theorem same_type_reflexive (struct_map : Map) (T : CType) (h : well_formed T = true) :
    same_type struct_map T T = some true
    ∧ same_type struct_map (ptrof T) (ptrof T) = some true
    ∧ ∀ n : Nat, same_type struct_map (arrayof T n) (arrayof T n) = some true := by
  refine ⟨same_type_self struct_map T h, ?_, ?_⟩
  · simp only [ptrof, same_type]
    exact same_type_self struct_map T h
  · intro n
    simp only [arrayof, same_type]
    exact same_type_self struct_map T h

/-- Witness for C2: a function type returning `int` that takes a pointer to `char` and a
forward-declared struct. -/
theorem same_type_reflexive_witness :
    well_formed (new_func_type tyInt (some [ptrof tyChar, .TY_STRUCT none "S"]) true) = true
    ∧ (same_type [] (new_func_type tyInt (some [ptrof tyChar, .TY_STRUCT none "S"]) true)
          (new_func_type tyInt (some [ptrof tyChar, .TY_STRUCT none "S"]) true) = some true
      ∧ same_type [] (ptrof (new_func_type tyInt (some [ptrof tyChar, .TY_STRUCT none "S"]) true))
          (ptrof (new_func_type tyInt (some [ptrof tyChar, .TY_STRUCT none "S"]) true))
          = some true
      ∧ ∀ n : Nat,
          same_type [] (arrayof (new_func_type tyInt (some [ptrof tyChar, .TY_STRUCT none "S"]) true) n)
            (arrayof (new_func_type tyInt (some [ptrof tyChar, .TY_STRUCT none "S"]) true) n)
            = some true) :=
  ⟨by decide, same_type_reflexive [] _ (by decide)⟩

/-- C3: an array type and a pointer type are never the same type, in either argument
order and whatever the element type and length; more generally `same_type` returns false
whenever its two arguments have different top-level kinds. -/
theorem same_type_different_kinds (struct_map : Map) (T : CType) (n : Nat) (a b : CType)
    (h : a.type ≠ b.type) :
    same_type struct_map (arrayof T n) (ptrof T) = some false
    ∧ same_type struct_map (ptrof T) (arrayof T n) = some false
    ∧ same_type struct_map a b = some false := by
  refine ⟨?_, ?_, same_type_of_type_ne struct_map a b h⟩ <;> simp [arrayof, ptrof, same_type]

/-- Witness for C3: `int` against a struct type, and `int[3]` against `int*`. -/
theorem same_type_different_kinds_witness :
    tyInt.type ≠ (CType.TY_STRUCT none "S").type
    ∧ (same_type [] (arrayof tyInt 3) (ptrof tyInt) = some false
      ∧ same_type [] (ptrof tyInt) (arrayof tyInt 3) = some false
      ∧ same_type [] tyInt (CType.TY_STRUCT none "S") = some false) :=
  ⟨by decide, same_type_different_kinds [] tyInt 3 tyInt (.TY_STRUCT none "S") (by decide)⟩

/-- C4 as stated fails: `int[3]` and `int[4]` are the same type for `same_type`, although
the lengths differ. -/
theorem same_type_array_length_counterexample :
    ¬ (same_type [] (arrayof tyInt 3) (arrayof tyInt 4) = some true
        ↔ (same_type [] tyInt tyInt = some true ∧ (3 : Nat) = 4)) := by
  decide

/-- C4, amended: on array types `same_type` compares the element types only. For all
element types `T`, `U` and lengths `n`, `k`, `same_type(arrayof(T, n), arrayof(U, k))` is
`same_type(T, U)`; the lengths take no part in the comparison. -/
theorem same_type_array_elements (struct_map : Map) (T U : CType) (n k : Nat) :
    same_type struct_map (arrayof T n) (arrayof U k) = same_type struct_map T U := by
  simp [arrayof, same_type]

/-- C5: two struct types whose `StructInfo` pointers are both non-null are the same type
exactly when the two pointers are identical (hold the same address), whatever the names
of the two types, the contents of `struct_map`, and the member lists and other fields of
the objects the pointers lead to. -/
theorem same_type_struct_identity (struct_map : Map) (name1 name2 : String)
    (addr1 addr2 : Nat) (members1 members2 : List StructMember) (is_union1 is_union2 : Bool)
    (size1 size2 align1 align2 : Nat) :
    same_type struct_map
        (.TY_STRUCT (some (.mk addr1 members1 is_union1 size1 align1)) name1)
        (.TY_STRUCT (some (.mk addr2 members2 is_union2 size2 align2)) name2)
      = some (decide (addr1 = addr2)) := by
  simp [same_type, StructInfoPtr.same, StructInfoPtr.addr]

/-- C6: a forward-declared struct type (null `info`, name `N`) and a struct type with
non-null `info` `X` are the same type, in either argument order, exactly when
`struct_map` maps `N` to `X`. So they are the same type after `define_struct(N, X)`, and
they are not while `struct_map` has no struct named `N`. -/
theorem same_type_forward_declared (struct_map : Map) (N : String) (X : StructInfoPtr)
    (name_b : String) :
    same_type struct_map (.TY_STRUCT none N) (.TY_STRUCT (some X) name_b)
      = some (maps_to struct_map N X)
    ∧ same_type struct_map (.TY_STRUCT (some X) name_b) (.TY_STRUCT none N)
      = some (maps_to struct_map N X)
    ∧ same_type (define_struct struct_map N (some X)) (.TY_STRUCT none N)
        (.TY_STRUCT (some X) name_b) = some true
    ∧ same_type (define_struct struct_map N (some X)) (.TY_STRUCT (some X) name_b)
        (.TY_STRUCT none N) = some true
    ∧ (find_struct struct_map N = none →
        same_type struct_map (.TY_STRUCT none N) (.TY_STRUCT (some X) name_b) = some false
        ∧ same_type struct_map (.TY_STRUCT (some X) name_b) (.TY_STRUCT none N) = some false) := by
  refine ⟨?_, ?_, ?_, ?_, ?_⟩
  · simp only [same_type, maps_to]
    cases find_struct struct_map N <;> rfl
  · simp only [same_type, maps_to]
    cases find_struct struct_map N <;> rfl
  · simp [same_type, find_struct, define_struct, map_put, map_get, StructInfoPtr.same]
  · simp [same_type, find_struct, define_struct, map_put, map_get, StructInfoPtr.same]
  · intro h
    simp [same_type, h]

/-- Witness for C6: with an empty `struct_map` no struct named `S` is defined. -/
theorem same_type_forward_declared_witness :
    find_struct [] "S" = none
    ∧ same_type [] (.TY_STRUCT none "S")
        (.TY_STRUCT (some (.mk 7 [.mk "x" tyInt 0] false 4 4)) "T") = some false
    ∧ same_type [] (.TY_STRUCT (some (.mk 7 [.mk "x" tyInt 0] false 4 4)) "T")
        (.TY_STRUCT none "S") = some false :=
  ⟨rfl, (same_type_forward_declared [] "S" (.mk 7 [.mk "x" tyInt 0] false 4 4) "T").2.2.2.2 rfl⟩

/-- C7: two function types with non-null parameter vectors are the same type exactly
when the return types are the same type, the parameter counts are equal and every pair
of corresponding parameter types is the same type; the `vaargs` flags take no part. On
well-formed function types the comparison returns. -/
theorem same_type_func (struct_map : Map) (ret1 ret2 : CType) (ps1 ps2 : List CType)
    (vaargs1 vaargs2 : Bool) :
    (same_type struct_map (new_func_type ret1 (some ps1) vaargs1)
        (new_func_type ret2 (some ps2) vaargs2) = some true
      ↔ (same_type struct_map ret1 ret2 = some true
          ∧ ps1.length = ps2.length
          ∧ ∀ p ∈ List.zip ps1 ps2, same_type struct_map p.1 p.2 = some true))
    ∧ (well_formed (new_func_type ret1 (some ps1) vaargs1) = true →
        well_formed (new_func_type ret2 (some ps2) vaargs2) = true →
        ∃ r, same_type struct_map (new_func_type ret1 (some ps1) vaargs1)
          (new_func_type ret2 (some ps2) vaargs2) = some r) := by
  refine ⟨?_, fun h1 h2 => same_type_returns struct_map _ _ h1 h2⟩
  simp only [new_func_type, same_type]
  rw [← same_type_params_true_iff]
  cases hr : same_type struct_map ret1 ret2 with
  | none => simp
  | some x =>
    cases x
    · simp
    · by_cases hl : ps1.length = ps2.length <;> simp [hl]

/-- Witness for C7: `int f(char*, long, ...)` against `int g(char*, long)`. -/
theorem same_type_func_witness :
    same_type [] (new_func_type tyInt (some [ptrof tyChar, tyLong]) true)
      (new_func_type tyInt (some [ptrof tyChar, tyLong]) false) = some true
    ∧ ∃ r, same_type [] (new_func_type tyInt (some [ptrof tyChar, tyLong]) true)
      (new_func_type tyInt (some [tyLong]) false) = some r :=
  ⟨(same_type_func [] tyInt tyInt [ptrof tyChar, tyLong] [ptrof tyChar, tyLong] true false).1.mpr
      ⟨by decide, by decide, by decide⟩,
   (same_type_func [] tyInt tyInt [ptrof tyChar, tyLong] [tyLong] true false).2
      (by decide) (by decide)⟩

/-- C8, the code at the failing input: comparing `void f(void)` (empty parameter vector)
with `void g()` (null parameter vector) reads `len` through the null pointer, in either
argument order; and so does every comparison of a function type with a null parameter
vector against one whose return type is the same type. -/
theorem same_type_null_params :
    same_type [] (new_func_type tyVoid (some []) false) (new_func_type tyVoid none false) = none
    ∧ same_type [] (new_func_type tyVoid none false) (new_func_type tyVoid (some []) false) = none
    ∧ ∀ (struct_map : Map) (ret1 ret2 : CType) (ps : Option (List CType)) (vaargs1 vaargs2 : Bool),
        same_type struct_map ret1 ret2 = some true →
        same_type struct_map (new_func_type ret1 ps vaargs1) (new_func_type ret2 none vaargs2)
          = none := by
  refine ⟨by decide, by decide, ?_⟩
  intro struct_map ret1 ret2 ps vaargs1 vaargs2 h
  cases ps <;> simp [new_func_type, same_type, h]

/-! ## Theorems: `emit_code.c` -/

theorem run_pure_eq {α : Type} (a : α) : Run.pure a = (pure a : Run α) := rfl

theorem run_pure_bind {α β : Type} (a : α) (f : α → Run β) :
    (pure a : Run α) >>= f = f a := by
  show Run.bind (Run.pure a) f = f a
  simp [Run.bind, Run.pure]

theorem run_bind_assoc {α β γ : Type} (x : Run α) (f : α → Run β) (g : β → Run γ) :
    x >>= f >>= g = x >>= fun a => f a >>= g := by
  show Run.bind (Run.bind x f) g = Run.bind x (fun a => Run.bind (f a) g)
  rcases x with ⟨xo, xr⟩
  cases xr with
  | error e => simp [Run.bind]
  | ok a =>
    simp only [Run.bind]
    cases h : (f a).res <;> simp [h]

theorem run_bind_pure (x : Run Unit) : (x >>= fun _ => (pure () : Run Unit)) = x := by
  show Run.bind x (fun _ => Run.pure ()) = x
  rcases x with ⟨xo, xr⟩
  cases xr <;> simp [Run.bind, Run.pure]

theorem run_sequence_append (l1 l2 : List (Run Unit)) :
    Run.sequence (l1 ++ l2) = (Run.sequence l1 >>= fun _ => Run.sequence l2) := by
  induction l1 with
  | nil => simp [Run.sequence, run_pure_eq, run_pure_bind]
  | cons x rest ih => simp [Run.sequence, ih, run_bind_assoc]

theorem run_times_eq_sequence (x : Run Unit) (n : Nat) :
    Run.times x n = Run.sequence (List.replicate n x) := by
  induction n with
  | zero => simp [Run.times, Run.sequence]
  | succ k ih => simp [Run.times, Run.sequence, List.replicate_succ, ih]

theorem entry_at_before (n : Int) : ∀ (entries : List (Option Initializer)) (index p : Int),
    p < index → array_entries_ok n entries index = true → entry_at entries index p = none
  | [], _, _, _, _ => by simp [entry_at]
  | none :: _, _, _, _, h => by simp [array_entries_ok] at h
  | some (.IK_SINGLE e) :: rest, index, p, hp, h => by
    simp only [array_entries_ok, Bool.and_eq_true, decide_eq_true_eq] at h
    have := entry_at_before n rest (index + 1) p (by omega) h.2
    simp [entry_at, this, ne_of_lt hp]
  | some (.IK_MULTI e) :: rest, index, p, hp, h => by
    simp only [array_entries_ok, Bool.and_eq_true, decide_eq_true_eq] at h
    have := entry_at_before n rest (index + 1) p (by omega) h.2
    simp [entry_at, this, ne_of_lt hp]
  | some (.IK_DOT _ _) :: rest, index, p, hp, h => by
    simp only [array_entries_ok, Bool.and_eq_true, decide_eq_true_eq] at h
    have := entry_at_before n rest (index + 1) p (by omega) h.2
    simp [entry_at, this, ne_of_lt hp]
  | some (.IK_ARR idx value) :: rest, index, p, hp, h => by
    cases idx with
    | EX_FIXNUM t next =>
      simp only [array_entries_ok, Bool.and_eq_true, decide_eq_true_eq] at h
      have := entry_at_before n rest (next + 1) p (by omega) h.2
      have hne : p ≠ next := by omega
      simp [entry_at, this, hne]
    | _ => simp [array_entries_ok] at h

theorem run_sequence_cons (x : Run Unit) (rest : List (Run Unit)) :
    Run.sequence (x :: rest) = (x >>= fun _ => Run.sequence rest) := rfl

/-- Splitting the positions `0 .. a + 1 + b` into the first `a`, position `a`, and the
remaining `b`. -/
theorem map_range_split {β : Type} (g : Nat → β) (a b : Nat) :
    (List.range (a + (1 + b))).map g
      = (List.range a).map g ++ g a :: (List.range b).map (fun j => g (a + 1 + j)) := by
  rw [List.range_add, List.map_append, List.map_map]
  congr 1
  rw [Nat.add_comm 1 b, List.range_succ_eq_map, List.map_cons, List.map_map]
  simp only [Function.comp, Nat.add_zero, Nat.succ_eq_add_one]
  congr 1
  apply List.map_congr_left
  intro j _
  simp only [Function.comp, Nat.succ_eq_add_one, Nat.add_assoc, Nat.add_comm 1 j]

theorem array_loop_sequence (f : Option Initializer → Run Unit) (n : Int) :
    ∀ (entries : List (Option Initializer)) (index : Int),
    array_entries_ok n entries index = true →
    (array_init_loop f entries index >>= fun idx => Run.times (f none) (n - idx).toNat)
      = Run.sequence ((List.range (n - index).toNat).map
          (fun j : Nat => f (entry_at entries index (index + j))))
  | [], index, _ => by
    simp only [array_init_loop, run_times_eq_sequence, entry_at]
    rw [run_pure_bind]
    congr 1
    simp [List.map_const']
  | none :: _, _, h => by simp [array_entries_ok] at h
  | some (.IK_ARR idx value) :: rest, index, h => by
    cases idx with
    | EX_FIXNUM t next =>
      simp only [array_entries_ok, Bool.and_eq_true, decide_eq_true_eq] at h
      obtain ⟨⟨h1, h2⟩, h3⟩ := h
      have ih := array_loop_sequence f n rest (next + 1) h3
      simp only [array_init_loop, run_bind_assoc, ih]
      have hsplit : (n - index).toNat = (next - index).toNat + (1 + (n - (next + 1)).toNat) := by
        omega
      rw [hsplit, map_range_split, run_sequence_append, run_sequence_cons,
        run_times_eq_sequence]
      have e1 : (List.range (next - index).toNat).map
          (fun j : Nat => f (entry_at (some (.IK_ARR (.EX_FIXNUM t next) value) :: rest) index
            (index + j))) = List.replicate (next - index).toNat (f none) := by
        rw [List.eq_replicate_iff]
        refine ⟨by simp, ?_⟩
        intro b hb
        obtain ⟨j, hj, rfl⟩ := List.mem_map.1 hb
        have hj2 : j < (next - index).toNat := List.mem_range.1 hj
        have hne : index + (j : Int) ≠ next := by omega
        have := entry_at_before n rest (next + 1) (index + j) (by omega) h3
        simp [entry_at, hne, this]
      have e2 : index + ((next - index).toNat : Int) = next := by omega
      have e3 : (List.range (n - (next + 1)).toNat).map
          (fun j : Nat => f (entry_at (some (.IK_ARR (.EX_FIXNUM t next) value) :: rest) index
            (index + ((next - index).toNat + 1 + j : Nat))))
          = (List.range (n - (next + 1)).toNat).map
              (fun j : Nat => f (entry_at rest (next + 1) (next + 1 + j))) := by
        apply List.map_congr_left
        intro j _
        have hne : index + (((next - index).toNat + 1 + j : Nat) : Int) ≠ next := by omega
        have heq : index + (((next - index).toNat + 1 + j : Nat) : Int) = next + 1 + j := by omega
        simp only [entry_at, hne, if_false]
        rw [heq]
      rw [e1, e3, e2]
      simp [entry_at]
    | _ => simp [array_entries_ok] at h
  | some (.IK_SINGLE e) :: rest, index, h => by
    simp only [array_entries_ok, Bool.and_eq_true, decide_eq_true_eq] at h
    obtain ⟨h1, h3⟩ := h
    have ih := array_loop_sequence f n rest (index + 1) h3
    simp only [array_init_loop, run_bind_assoc, ih]
    have hsplit : (n - index).toNat = 0 + (1 + (n - (index + 1)).toNat) := by omega
    rw [hsplit, map_range_split, List.range_zero, List.map_nil, List.nil_append,
      run_sequence_cons]
    have e3 : (List.range (n - (index + 1)).toNat).map
        (fun j : Nat => f (entry_at (some (.IK_SINGLE e) :: rest) index
          (index + ((0 + 1 + j : Nat) : Int))))
        = (List.range (n - (index + 1)).toNat).map
            (fun j : Nat => f (entry_at rest (index + 1) (index + 1 + j))) := by
      apply List.map_congr_left
      intro j _
      have hne : index + ((0 + 1 + j : Nat) : Int) ≠ index := by omega
      have heq : index + ((0 + 1 + j : Nat) : Int) = index + 1 + j := by omega
      simp only [entry_at, hne, if_false]
      rw [heq]
    rw [e3]
    simp [entry_at]
  | some (.IK_MULTI e) :: rest, index, h => by
    simp only [array_entries_ok, Bool.and_eq_true, decide_eq_true_eq] at h
    obtain ⟨h1, h3⟩ := h
    have ih := array_loop_sequence f n rest (index + 1) h3
    simp only [array_init_loop, run_bind_assoc, ih]
    have hsplit : (n - index).toNat = 0 + (1 + (n - (index + 1)).toNat) := by omega
    rw [hsplit, map_range_split, List.range_zero, List.map_nil, List.nil_append,
      run_sequence_cons]
    have e3 : (List.range (n - (index + 1)).toNat).map
        (fun j : Nat => f (entry_at (some (.IK_MULTI e) :: rest) index
          (index + ((0 + 1 + j : Nat) : Int))))
        = (List.range (n - (index + 1)).toNat).map
            (fun j : Nat => f (entry_at rest (index + 1) (index + 1 + j))) := by
      apply List.map_congr_left
      intro j _
      have hne : index + ((0 + 1 + j : Nat) : Int) ≠ index := by omega
      have heq : index + ((0 + 1 + j : Nat) : Int) = index + 1 + j := by omega
      simp only [entry_at, hne, if_false]
      rw [heq]
    rw [e3]
    simp [entry_at]
  | some (.IK_DOT d e) :: rest, index, h => by
    simp only [array_entries_ok, Bool.and_eq_true, decide_eq_true_eq] at h
    obtain ⟨h1, h3⟩ := h
    have ih := array_loop_sequence f n rest (index + 1) h3
    simp only [array_init_loop, run_bind_assoc, ih]
    have hsplit : (n - index).toNat = 0 + (1 + (n - (index + 1)).toNat) := by omega
    rw [hsplit, map_range_split, List.range_zero, List.map_nil, List.nil_append,
      run_sequence_cons]
    have e3 : (List.range (n - (index + 1)).toNat).map
        (fun j : Nat => f (entry_at (some (.IK_DOT d e) :: rest) index
          (index + ((0 + 1 + j : Nat) : Int))))
        = (List.range (n - (index + 1)).toNat).map
            (fun j : Nat => f (entry_at rest (index + 1) (index + 1 + j))) := by
      apply List.map_congr_left
      intro j _
      have hne : index + ((0 + 1 + j : Nat) : Int) ≠ index := by omega
      have heq : index + ((0 + 1 + j : Nat) : Int) = index + 1 + j := by omega
      simp only [entry_at, hne, if_false]
      rw [heq]
    rw [e3]
    simp [entry_at]

/-- C9: for an array type with element type `E` and length `n` and an `IK_MULTI`
initializer whose entries (positional or `IK_ARR`-designated) occupy strictly increasing
positions below `n`, `construct_initial_value` runs exactly `n` element emissions in
position order, the one at position `p` with the initializer of the entry assigned to
`p` and with the null initializer (a zero-initialized `E`) where no entry is assigned;
with a null initializer it runs `n` zero-initialized element emissions. -/
theorem construct_initial_value_array (tg : Target) (E : EmitType) (n : Nat)
    (entries : List (Option Initializer)) (h : array_entries_ok n entries 0 = true) :
    construct_initial_value tg (.TY_ARRAY E n) (some (.IK_MULTI entries))
      = Run.sequence ((List.range n).map
          (fun p : Nat => construct_initial_value tg E (entry_at entries 0 p)))
    ∧ construct_initial_value tg (.TY_ARRAY E n) none
      = Run.sequence ((List.range n).map (fun _ => construct_initial_value tg E none))
    ∧ ((List.range n).map
          (fun p : Nat => construct_initial_value tg E (entry_at entries 0 p))).length = n := by
  refine ⟨?_, ?_, by simp⟩
  · have := array_loop_sequence (fun init_elem => construct_initial_value tg E init_elem)
      (n : Int) entries 0 h
    simp only [Int.sub_zero, Int.toNat_ofNat, Int.zero_add] at this
    rw [← this]
    rw [construct_initial_value]
  · rw [construct_initial_value]
    simp [run_times_eq_sequence, List.map_const']

/-- Witness for C9: `int a[5] = {7, [3] = 9}` on the SysV LP64 target: the five element
emissions are those of 7, zero, zero, 9 and zero. -/
theorem construct_initial_value_array_witness :
    array_entries_ok 5
        [some (.IK_SINGLE (.EX_FIXNUM (.TY_FIXNUM .FX_INT) 7)),
          some (.IK_ARR (.EX_FIXNUM (.TY_FIXNUM .FX_INT) 3)
            (some (.IK_SINGLE (.EX_FIXNUM (.TY_FIXNUM .FX_INT) 9))))] 0 = true
    ∧ construct_initial_value sysv_lp64 (.TY_ARRAY (.TY_FIXNUM .FX_INT) (5 : Nat))
        (some (.IK_MULTI
          [some (.IK_SINGLE (.EX_FIXNUM (.TY_FIXNUM .FX_INT) 7)),
            some (.IK_ARR (.EX_FIXNUM (.TY_FIXNUM .FX_INT) 3)
              (some (.IK_SINGLE (.EX_FIXNUM (.TY_FIXNUM .FX_INT) 9))))]))
      = Run.sequence ((List.range 5).map (fun p : Nat =>
          construct_initial_value sysv_lp64 (.TY_FIXNUM .FX_INT)
            (entry_at
              [some (.IK_SINGLE (.EX_FIXNUM (.TY_FIXNUM .FX_INT) 7)),
                some (.IK_ARR (.EX_FIXNUM (.TY_FIXNUM .FX_INT) 3)
                  (some (.IK_SINGLE (.EX_FIXNUM (.TY_FIXNUM .FX_INT) 9))))] 0 p)))
    ∧ (Run.sequence ((List.range 5).map (fun p : Nat =>
          construct_initial_value sysv_lp64 (.TY_FIXNUM .FX_INT)
            (entry_at
              [some (.IK_SINGLE (.EX_FIXNUM (.TY_FIXNUM .FX_INT) 7)),
                some (.IK_ARR (.EX_FIXNUM (.TY_FIXNUM .FX_INT) 3)
                  (some (.IK_SINGLE (.EX_FIXNUM (.TY_FIXNUM .FX_INT) 9))))] 0 p)))).out
      = [.EMIT_ASM ".long" ["7"], .EMIT_ASM ".long" ["0"], .EMIT_ASM ".long" ["0"],
          .EMIT_ASM ".long" ["9"], .EMIT_ASM ".long" ["0"]] :=
  ⟨by decide,
   (construct_initial_value_array sysv_lp64 (.TY_FIXNUM .FX_INT) 5 _ (by decide)).1,
   by decide⟩

/-- C10: for a char array type whose initializer is an `IK_SINGLE` holding, under its
casts, a string literal of `src_size` bytes, `construct_initial_value` writes exactly one
`.ascii` directive and returns. With `size = type_size(type)` the declared size, the
quoted text is the escape of the first `min(src_size, size)` bytes of the literal
followed by `size - src_size` (zero when the literal is longer) copies of the escape
`\0`; the escaped bytes and the NUL escapes together count `size` bytes. -/
theorem construct_initial_value_string (tg : Target) (length : Int) (single : Expr)
    (t : EmitType) (buf : List Nat) (h : strip_cast single = .EX_STR t buf) :
    construct_initial_value tg (.TY_ARRAY (.TY_FIXNUM .FX_CHAR) length)
        (some (.IK_SINGLE single))
      = ⟨[.EMIT_ASM ".ascii"
            ["\"" ++ tg.escape_string
                (buf.take (min buf.length (tg.type_size (.TY_ARRAY (.TY_FIXNUM .FX_CHAR) length))))
              ++ String.join (List.replicate
                  (tg.type_size (.TY_ARRAY (.TY_FIXNUM .FX_CHAR) length) - buf.length) "\\0")
              ++ "\""]], .ok ()⟩
    ∧ (buf.take (min buf.length (tg.type_size (.TY_ARRAY (.TY_FIXNUM .FX_CHAR) length)))).length
        + (List.replicate
            (tg.type_size (.TY_ARRAY (.TY_FIXNUM .FX_CHAR) length) - buf.length) "\\0").length
      = tg.type_size (.TY_ARRAY (.TY_FIXNUM .FX_CHAR) length) := by
  constructor
  · rw [construct_initial_value]
    simp only [is_char_type, if_true, h, _ASCII, emit]
    by_cases hgt : buf.length > tg.type_size (.TY_ARRAY (.TY_FIXNUM .FX_CHAR) length)
    · have hmin : min buf.length (tg.type_size (.TY_ARRAY (.TY_FIXNUM .FX_CHAR) length))
          = tg.type_size (.TY_ARRAY (.TY_FIXNUM .FX_CHAR) length) := by omega
      have hz : tg.type_size (.TY_ARRAY (.TY_FIXNUM .FX_CHAR) length) - buf.length = 0 := by
        omega
      simp only [hgt, if_true, hmin, hz, Nat.sub_self]
    · have hmin : min buf.length (tg.type_size (.TY_ARRAY (.TY_FIXNUM .FX_CHAR) length))
          = buf.length := by omega
      simp only [hgt, if_false, hmin]
  · simp only [List.length_take, List.length_replicate]
    omega

/-- Witness for C10: `char s[5] = "hi"` (the literal has 3 bytes with its NUL) on the
SysV LP64 target gives `.ascii "hi\0\0\0"`; `char s[2] = "hi"` gives `.ascii "hi"`. -/
theorem construct_initial_value_string_witness :
    strip_cast (.EX_CAST (.TY_PTR (.TY_FIXNUM .FX_CHAR))
        (.EX_STR (.TY_ARRAY (.TY_FIXNUM .FX_CHAR) 3) [104, 105, 0]))
      = .EX_STR (.TY_ARRAY (.TY_FIXNUM .FX_CHAR) 3) [104, 105, 0]
    ∧ construct_initial_value sysv_lp64 (.TY_ARRAY (.TY_FIXNUM .FX_CHAR) 5)
        (some (.IK_SINGLE (.EX_CAST (.TY_PTR (.TY_FIXNUM .FX_CHAR))
          (.EX_STR (.TY_ARRAY (.TY_FIXNUM .FX_CHAR) 3) [104, 105, 0]))))
      = ⟨[.EMIT_ASM ".ascii" ["\"hi\\0\\0\\0\""]], .ok ()⟩
    ∧ construct_initial_value sysv_lp64 (.TY_ARRAY (.TY_FIXNUM .FX_CHAR) 2)
        (some (.IK_SINGLE (.EX_CAST (.TY_PTR (.TY_FIXNUM .FX_CHAR))
          (.EX_STR (.TY_ARRAY (.TY_FIXNUM .FX_CHAR) 3) [104, 105, 0]))))
      = ⟨[.EMIT_ASM ".ascii" ["\"hi\""]], .ok ()⟩ :=
  ⟨rfl,
   (construct_initial_value_string sysv_lp64 5
      (.EX_CAST (.TY_PTR (.TY_FIXNUM .FX_CHAR))
        (.EX_STR (.TY_ARRAY (.TY_FIXNUM .FX_CHAR) 3) [104, 105, 0]))
      (.TY_ARRAY (.TY_FIXNUM .FX_CHAR) 3) [104, 105, 0] rfl).1.trans
      (congrArg (fun o => (⟨o, .ok ()⟩ : Run Unit)) (by decide)),
   (construct_initial_value_string sysv_lp64 2
      (.EX_CAST (.TY_PTR (.TY_FIXNUM .FX_CHAR))
        (.EX_STR (.TY_ARRAY (.TY_FIXNUM .FX_CHAR) 3) [104, 105, 0]))
      (.TY_ARRAY (.TY_FIXNUM .FX_CHAR) 3) [104, 105, 0] rfl).1.trans
      (congrArg (fun o => (⟨o, .ok ()⟩ : Run Unit)) (by decide))⟩

theorem ALIGN_of_mod_eq_zero (x a : Nat) (h : x % a = 0) : ALIGN x a = x := by
  rcases Nat.eq_zero_or_pos a with rfl | ha
  · simp only [Nat.mod_zero] at h
    simp [ALIGN, h]
  · obtain ⟨k, rfl⟩ := Nat.dvd_of_mod_eq_zero h
    unfold ALIGN
    have : (a * k + a - 1) / a = k := by
      rw [Nat.add_sub_assoc ha, Nat.mul_add_div ha, Nat.div_eq_of_lt (by omega), Nat.add_zero]
    rw [this, Nat.mul_comm]

theorem ALIGN_mod (x a : Nat) : ALIGN x a % a = 0 := by
  unfold ALIGN
  exact Nat.mul_mod_left _ _

theorem ALIGN_idem (x a : Nat) : ALIGN (ALIGN x a) a = ALIGN x a :=
  ALIGN_of_mod_eq_zero _ _ (ALIGN_mod x a)

theorem le_ALIGN (x a : Nat) (ha : 0 < a) : x ≤ ALIGN x a := by
  unfold ALIGN
  have h1 := Nat.div_add_mod (x + a - 1) a
  have h2 := Nat.mod_lt (x + a - 1) ha
  have h3 : a * ((x + a - 1) / a) = (x + a - 1) / a * a := Nat.mul_comm _ _
  omega

theorem ALIGN_add_of_dvd (b x a : Nat) (ha : 0 < a) (h : a ∣ b) :
    ALIGN (b + x) a = b + ALIGN x a := by
  obtain ⟨k, rfl⟩ := h
  unfold ALIGN
  have : a * k + x + a - 1 = (x + a - 1) + a * k := by omega
  rw [this, Nat.add_mul_div_left _ _ ha, Nat.add_mul, Nat.mul_comm k a, Nat.add_comm]

theorem layout_append (asz : String → Nat) (pos : Nat) (a b : List Asm) :
    layout asz pos (a ++ b) = layout asz (layout asz pos a) b := by
  simp [layout, List.foldl_append]

theorem run_bind_ok {α β : Type} (x : Run α) (a : α) (f : α → Run β) (h : x.res = .ok a) :
    x >>= f = ⟨x.out ++ (f a).out, (f a).res⟩ := by
  show Run.bind x f = _
  simp [Run.bind, h]

theorem run_times_out (x : Run Unit) (hx : x.res = .ok ()) : ∀ n : Nat,
    Run.times x n = ⟨(List.replicate n x.out).flatten, .ok ()⟩
  | 0 => by simp [Run.times, Run.pure]
  | n + 1 => by
    simp only [Run.times]
    rw [run_bind_ok x () _ hx, run_times_out x hx n]
    simp [List.replicate_succ]

theorem NUM_zero : NUM 0 = "0" := by decide

theorem struct_padding_spec (asz : String → Nat) (pos : Nat) (d : Nat) :
    (struct_padding (d : Int)).res = .ok ()
    ∧ (∀ a ∈ (struct_padding (d : Int)).out, is_zero_directive a = true)
    ∧ layout asz pos (struct_padding (d : Int)).out = pos + d := by
  unfold struct_padding
  by_cases h1 : (d : Int) = 1
  · have : d = 1 := by omega
    subst this
    simp [_BYTE, emit, NUM_zero, is_zero_directive, layout, advance, directive_size]
  by_cases h2 : (d : Int) = 2
  · have : d = 2 := by omega
    subst this
    simp [_WORD, emit, NUM_zero, is_zero_directive, layout, advance, directive_size]
  by_cases h4 : (d : Int) = 4
  · have : d = 4 := by omega
    subst this
    simp [_LONG, emit, NUM_zero, is_zero_directive, layout, advance, directive_size]
  by_cases h8 : (d : Int) = 8
  · have : d = 8 := by omega
    subst this
    simp [_QUAD, emit, NUM_zero, is_zero_directive, layout, advance, directive_size]
  simp only [h1, h2, h4, h8, if_false, Int.toNat_ofNat]
  rw [run_times_out _ (by simp [_BYTE, emit])]
  refine ⟨rfl, ?_, ?_⟩
  · intro a ha
    simp only [_BYTE, emit, NUM_zero, List.mem_flatten, List.mem_replicate] at ha
    obtain ⟨l, ⟨_, rfl⟩, hl⟩ := ha
    simp only [List.mem_singleton] at hl
    subst hl
    decide
  · clear h1 h2 h4 h8
    induction d generalizing pos with
    | zero => simp [layout]
    | succ k ih =>
      simp only [List.replicate_succ, List.flatten_cons, layout_append, ih]
      simp [_BYTE, emit, layout, advance, directive_size]
      omega

/-- The member loop of a non-union struct with natural offsets: it returns, and it
places the data of every remaining member at its recorded offset. -/
theorem struct_loop_placed (tg : Target) (asz : String → Nat) (base : Nat)
    (inits : List (Option Initializer)) :
    ∀ (ms : List MemberInfo) (i count offset : Nat),
    natural_offsets tg ms offset = true →
    (∀ m ∈ ms, tg.align_size m.type ∣ base) →
    (∀ (j : Nat) (m : MemberInfo), ms.get? j = some m →
      ∃ init, inits.get? (i + j) = some init
        ∧ (construct_initial_value tg m.type init).res = .ok ()
        ∧ layout asz (base + m.offset) (construct_initial_value tg m.type init).out
            = base + m.offset + tg.type_size m.type) →
    ∃ out, struct_member_loop tg false (some inits) ms i count offset
        = ⟨out, .ok (count + ms.length, members_end tg ms offset)⟩
      ∧ members_placed tg asz base ms (inits.drop i) (base + offset) out
      ∧ layout asz (base + offset) out = base + members_end tg ms offset
  | [], i, count, offset, _, _, _ => by
    refine ⟨[], ?_, ?_, ?_⟩
    · simp [struct_member_loop, pure, Run.pure, members_end]
    · simp [members_placed]
    · simp [layout, members_end]
  | .mk name mtype moff :: rest, i, count, offset, hn, hd, hm => by
    simp only [natural_offsets, MemberInfo.type, MemberInfo.offset, Bool.and_eq_true,
      decide_eq_true_eq] at hn
    obtain ⟨⟨ha, ho⟩, hrest⟩ := hn
    obtain ⟨init, hi, hok, hlay⟩ := hm 0 (.mk name mtype moff) (by simp)
    simp only [MemberInfo.type, MemberInfo.offset, Nat.add_zero] at hi hok hlay
    obtain ⟨out_rest, hloop, hplaced, hlayout⟩ :=
      struct_loop_placed tg asz base inits rest (i + 1) (count + 1)
        (moff + tg.type_size mtype) hrest
        (fun m hmem => hd m (List.mem_cons_of_mem _ hmem))
        (fun j m hj => by
          have := hm (j + 1) m (by simpa using hj)
          rwa [show i + (j + 1) = i + 1 + j by omega] at this)
    have hdvd : tg.align_size mtype ∣ base := hd (.mk name mtype moff) (List.mem_cons_self _ _)
    have hdrop : inits.drop i = init :: inits.drop (i + 1) := by
      have hlt : i < inits.length := by
        rcases Nat.lt_or_ge i inits.length with h | h
        · exact h
        · rw [List.get?_eq_none.2 h] at hi
          cases hi
      rw [List.drop_eq_getElem_cons hlt]
      congr 1
      rw [List.get?_eq_getElem?, List.getElem?_eq_getElem hlt] at hi
      exact Option.some.inj hi
    have hsome : (init.isSome || !false) = true := by simp
    have hnz : ¬ tg.align_size mtype = 0 := by omega
    rw [← Nat.add_assoc] at hplaced hlayout
    rw [hdrop]
    by_cases hmod : offset % tg.align_size mtype = 0
    · have hal : ALIGN offset (tg.align_size mtype) = offset := ALIGN_of_mod_eq_zero _ _ hmod
      have hmo : moff = offset := by rw [ho, hal]
      subst hmo
      refine ⟨(construct_initial_value tg mtype init).out ++ out_rest, ?_, ?_, ?_⟩
      · simp only [struct_member_loop, hi, hsome, if_true, hnz, if_false, hmod, ne_eq, not_true_eq_false,
          if_false, run_pure_bind, hal]
        rw [run_bind_ok _ () _ hok, hloop]
        simp [members_end, MemberInfo.offset, MemberInfo.type, Nat.add_assoc, Nat.add_comm 1]
      · simp only [members_placed, MemberInfo.offset, MemberInfo.type, if_true]
        refine ⟨out_rest, by simp, by simp [layout], ?_⟩
        rw [hlay]
        exact hplaced
      · rw [layout_append, hlay, hlayout]
        simp [members_end, MemberInfo.offset, MemberInfo.type]
    · have hne : base + offset ≠ base + moff := by
        intro h
        have h2 : offset = moff := by omega
        rw [← h2] at ho
        exact hmod (by rw [ho]; exact ALIGN_mod _ _)
      have hgap : layout asz (base + offset) [Asm.EMIT_ALIGN (tg.align_size mtype)]
          = base + moff := by
        simp only [layout, List.foldl_cons, List.foldl_nil, advance]
        rw [ALIGN_add_of_dvd _ _ _ ha hdvd, ho]
      refine ⟨Asm.EMIT_ALIGN (tg.align_size mtype)
          :: ((construct_initial_value tg mtype init).out ++ out_rest), ?_, ?_, ?_⟩
      · have hal2 : ALIGN moff (tg.align_size mtype) = moff := by
          rw [ho]
          exact ALIGN_idem _ _
        simp only [struct_member_loop, hi, hsome, if_true, hnz, if_false, hmod, ne_eq, not_false_eq_true,
          run_bind_assoc, run_pure_bind, ← ho, hal2]
        rw [run_bind_ok (EMIT_ALIGN (tg.align_size mtype)) () _ (by simp [EMIT_ALIGN, emit]),
          run_bind_ok _ () _ hok, hloop]
        simp [members_end, MemberInfo.offset, MemberInfo.type, Nat.add_assoc, Nat.add_comm 1,
          EMIT_ALIGN, emit]
      · simp only [members_placed, MemberInfo.offset, MemberInfo.type, hne, if_false]
        refine ⟨out_rest, by simp, hgap, ?_⟩
        rw [hlay]
        exact hplaced
      · rw [show Asm.EMIT_ALIGN (tg.align_size mtype)
            :: ((construct_initial_value tg mtype init).out ++ out_rest)
            = [Asm.EMIT_ALIGN (tg.align_size mtype)]
              ++ ((construct_initial_value tg mtype init).out ++ out_rest) from rfl,
          layout_append, hgap, layout_append, hlay, hlayout]
        simp [members_end, MemberInfo.offset, MemberInfo.type]

/-- C1: for a non-union struct whose recorded member offsets and size follow the natural
layout rule, and a positional `IK_MULTI` initializer with one (possibly null) entry per
member, `construct_initial_value` returns, and what it writes is a body followed by a
pad. In the body the data of each member starts at the byte position equal to the
recorded offset of the member (counted from the position `base` of the struct, at which
every member is aligned), with one alignment request before it exactly when there is a
gap to fill. The pad consists of zero directives and occupies the bytes from the end of
the last member to the size of the struct, so the whole output occupies
`type_size(struct)` bytes. The data of each member is taken to occupy `type_size` of the
member type. -/
theorem construct_initial_value_struct (tg : Target) (ascii_size : String → Nat) (base : Nat)
    (sinfo : StructInfo) (inits : List (Option Initializer))
    (hunion : sinfo.is_union = false)
    (hnat : natural_layout tg sinfo = true)
    (hlen : inits.length = sinfo.members.length)
    (hbase : ∀ m ∈ sinfo.members, tg.align_size m.type ∣ base)
    (hmem : ∀ (j : Nat) (m : MemberInfo) (init : Option Initializer),
        sinfo.members.get? j = some m → inits.get? j = some init →
        (construct_initial_value tg m.type init).res = .ok ()
        ∧ layout ascii_size (base + m.offset) (construct_initial_value tg m.type init).out
            = base + m.offset + tg.type_size m.type) :
    ∃ body pad,
      construct_initial_value tg (.TY_STRUCT sinfo) (some (.IK_MULTI inits))
        = ⟨body ++ pad, .ok ()⟩
      ∧ members_placed tg ascii_size base sinfo.members inits base body
      ∧ layout ascii_size base body = base + members_end tg sinfo.members 0
      ∧ (∀ a ∈ pad, is_zero_directive a = true)
      ∧ members_end tg sinfo.members 0 ≤ tg.type_size (.TY_STRUCT sinfo)
      ∧ layout ascii_size (base + members_end tg sinfo.members 0) pad
          = base + members_end tg sinfo.members 0
            + (tg.type_size (.TY_STRUCT sinfo) - members_end tg sinfo.members 0)
      ∧ layout ascii_size base (body ++ pad) = base + tg.type_size (.TY_STRUCT sinfo) := by
  obtain ⟨members, ssize, salign, is_union⟩ := sinfo
  simp only [StructInfo.is_union] at hunion
  subst hunion
  simp only [StructInfo.members] at hlen hbase hmem ⊢
  simp only [natural_layout, StructInfo.members, Bool.and_eq_true, decide_eq_true_eq] at hnat
  obtain ⟨⟨hoff, hpos⟩, hsize⟩ := hnat
  obtain ⟨body, hloop, hplaced, hlayout⟩ :=
    struct_loop_placed tg ascii_size base inits members 0 0 0 hoff hbase
      (fun j m hj => by
        have hlt : j < inits.length := by
          rw [hlen]
          rcases Nat.lt_or_ge j members.length with h | h
          · exact h
          · rw [List.get?_eq_none.2 h] at hj
            cases hj
        refine ⟨inits[j], ?_, ?_⟩
        · rw [Nat.zero_add, List.get?_eq_getElem?, List.getElem?_eq_getElem hlt]
        · exact hmem j m inits[j] hj
            (by rw [List.get?_eq_getElem?, List.getElem?_eq_getElem hlt]))
  simp only [Nat.add_zero, List.drop_zero, Nat.zero_add] at hloop hplaced hlayout
  have hle : members_end tg members 0
      ≤ tg.type_size (.TY_STRUCT (.mk members ssize salign false)) := by
    rw [hsize]
    exact le_ALIGN _ _ hpos
  rw [construct_initial_value]
  simp only [hloop]
  rw [run_bind_ok _ (members.length, members_end tg members 0) _ rfl]
  simp only [Bool.false_and, Bool.false_eq_true, if_false, run_pure_bind]
  generalize tg.type_size (.TY_STRUCT (.mk members ssize salign false)) = size at hle ⊢
  by_cases hd : size = members_end tg members 0
  · subst hd
    refine ⟨body, [], ?_, hplaced, hlayout, by simp, le_refl _, by simp [layout], ?_⟩
    · simp [pure, Run.pure]
    · simpa using hlayout
  · have hcast : (size : Int) - (members_end tg members 0 : Int)
        = ((size - members_end tg members 0 : Nat) : Int) := by omega
    obtain ⟨hres, hzero, hpad⟩ := struct_padding_spec ascii_size
      (base + members_end tg members 0) (size - members_end tg members 0)
    refine ⟨body, (struct_padding ((size - members_end tg members 0 : Nat) : Int)).out, ?_,
      hplaced, hlayout, hzero, hle, hpad, ?_⟩
    · simp only [ne_eq, hd, not_false_eq_true, if_true, hcast, hres]
    · rw [layout_append, hlayout, hpad]
      omega

/-- Witness for C1: `struct { char a; int b; } s = {1, 2}` on the SysV LP64 target. The
output is `.byte 1`, an alignment request to 4 (the 3-byte pad), `.long 2`, and it
occupies 8 bytes, here from position 0 and from position 16. -/
theorem construct_initial_value_struct_witness :
    natural_layout sysv_lp64
        (.mk [.mk "a" (.TY_FIXNUM .FX_CHAR) 0, .mk "b" (.TY_FIXNUM .FX_INT) 4] 8 4 false) = true
    ∧ (construct_initial_value sysv_lp64
        (.TY_STRUCT (.mk [.mk "a" (.TY_FIXNUM .FX_CHAR) 0, .mk "b" (.TY_FIXNUM .FX_INT) 4] 8 4 false))
        (some (.IK_MULTI [some (.IK_SINGLE (.EX_FIXNUM (.TY_FIXNUM .FX_CHAR) 1)),
          some (.IK_SINGLE (.EX_FIXNUM (.TY_FIXNUM .FX_INT) 2))]))).out
      = [.EMIT_ASM ".byte" ["1"], .EMIT_ALIGN 4, .EMIT_ASM ".long" ["2"]]
    ∧ layout (fun _ => 0) 0 [.EMIT_ASM ".byte" ["1"], .EMIT_ALIGN 4, .EMIT_ASM ".long" ["2"]] = 8
    ∧ ∃ body pad,
      construct_initial_value sysv_lp64
        (.TY_STRUCT (.mk [.mk "a" (.TY_FIXNUM .FX_CHAR) 0, .mk "b" (.TY_FIXNUM .FX_INT) 4] 8 4 false))
        (some (.IK_MULTI [some (.IK_SINGLE (.EX_FIXNUM (.TY_FIXNUM .FX_CHAR) 1)),
          some (.IK_SINGLE (.EX_FIXNUM (.TY_FIXNUM .FX_INT) 2))]))
        = ⟨body ++ pad, .ok ()⟩
      ∧ layout (fun _ => 0) 16 (body ++ pad) = 16 + 8 := by
  refine ⟨by decide, by decide, by decide, ?_⟩
  obtain ⟨body, pad, h1, _, _, _, _, _, h7⟩ :=
    construct_initial_value_struct sysv_lp64 (fun _ => 0) 16
      (.mk [.mk "a" (.TY_FIXNUM .FX_CHAR) 0, .mk "b" (.TY_FIXNUM .FX_INT) 4] 8 4 false)
      [some (.IK_SINGLE (.EX_FIXNUM (.TY_FIXNUM .FX_CHAR) 1)),
        some (.IK_SINGLE (.EX_FIXNUM (.TY_FIXNUM .FX_INT) 2))]
      (by decide) (by decide) (by decide) (by decide)
      (by
        intro j m init hm hi
        rcases j with _ | _ | j
        · simp only [StructInfo.members, List.get?_cons_zero, Option.some.injEq] at hm hi
          subst hm hi
          exact ⟨rfl, by decide⟩
        · simp only [StructInfo.members, List.get?_cons_succ, List.get?_cons_zero,
            Option.some.injEq] at hm hi
          subst hm hi
          exact ⟨rfl, by decide⟩
        · simp [StructInfo.members] at hm)
  exact ⟨body, pad, h1, h7⟩

/-- C12: for an integer or pointer type and an `IK_SINGLE` initializer that evaluates
to an integer constant `k` with no variable reference, `construct_initial_value` writes
exactly one directive and returns; its operand is the decimal literal of `k` and the
directive is `.byte` for char, `.word` for short, `.long` for int and enum, `.quad` for
long, long long and pointers. With a null initializer it writes the same directive with
the literal `0`. -/
theorem construct_initial_value_scalar (tg : Target) (type : EmitType) (directive : String)
    (single : Expr) (k : Int)
    (hdir : scalar_directive type = some directive)
    (hk : eval_initial_value single none 0 = .ok (none, k)) :
    construct_initial_value tg type (some (.IK_SINGLE single))
      = ⟨[.EMIT_ASM directive [NUM k]], .ok ()⟩
    ∧ construct_initial_value tg type none = ⟨[.EMIT_ASM directive ["0"]], .ok ()⟩ := by
  have h1 : scalar_output tg (some (.IK_SINGLE single)) = .ok (NUM k) := by
    simp [scalar_output, hk]
  have h0 : scalar_output tg none = .ok "0" := by
    simp [scalar_output, NUM_zero]
  cases type with
  | TY_PTR p =>
    simp only [scalar_directive, Option.some.injEq] at hdir
    subst hdir
    constructor <;> rw [construct_initial_value] <;>
      simp [h1, h0, Run.lift, _QUAD, emit, bind, Run.bind]
  | TY_FIXNUM kind =>
    cases kind <;> simp only [scalar_directive, Option.some.injEq] at hdir <;> subst hdir <;>
      constructor <;> rw [construct_initial_value] <;>
      simp [h1, h0, Run.lift, _BYTE, _WORD, _LONG, _QUAD, emit, bind, Run.bind]
  | _ => simp [scalar_directive] at hdir

/-- Witness for C12: `int g = (int)42` gives `.long 42`, and `int g` without an
initializer gives `.long 0`. -/
theorem construct_initial_value_scalar_witness :
    scalar_directive (.TY_FIXNUM .FX_INT) = some ".long"
    ∧ eval_initial_value (.EX_CAST (.TY_FIXNUM .FX_INT) (.EX_FIXNUM (.TY_FIXNUM .FX_LONG) 42))
        none 0 = .ok (none, 42)
    ∧ construct_initial_value sysv_lp64 (.TY_FIXNUM .FX_INT)
        (some (.IK_SINGLE (.EX_CAST (.TY_FIXNUM .FX_INT) (.EX_FIXNUM (.TY_FIXNUM .FX_LONG) 42))))
      = ⟨[.EMIT_ASM ".long" ["42"]], .ok ()⟩
    ∧ construct_initial_value sysv_lp64 (.TY_FIXNUM .FX_INT) none
      = ⟨[.EMIT_ASM ".long" ["0"]], .ok ()⟩ :=
  ⟨rfl, rfl,
   (construct_initial_value_scalar sysv_lp64 (.TY_FIXNUM .FX_INT) ".long"
      (.EX_CAST (.TY_FIXNUM .FX_INT) (.EX_FIXNUM (.TY_FIXNUM .FX_LONG) 42)) 42 rfl rfl).1,
   (construct_initial_value_scalar sysv_lp64 (.TY_FIXNUM .FX_INT) ".long"
      (.EX_CAST (.TY_FIXNUM .FX_INT) (.EX_FIXNUM (.TY_FIXNUM .FX_LONG) 42)) 42 rfl rfl).2⟩

theorem drop_cons_get {α : Type} (l : List α) (i : Nat) (a : α) (rest : List α)
    (h : l.drop i = a :: rest) : l.get? i = some a ∧ l.drop (i + 1) = rest := by
  induction l generalizing i with
  | nil => simp at h
  | cons x xs ih =>
    cases i with
    | zero =>
      simp only [List.drop_zero, List.cons.injEq] at h
      simp [h.1, h.2]
    | succ j =>
      simp only [List.drop_succ_cons] at h
      simpa using ih j h

/-- The member loop of a union with a null initializer skips every member. -/
theorem union_loop_null (tg : Target) : ∀ (ms : List MemberInfo) (i count offset : Nat),
    struct_member_loop tg true none ms i count offset = ⟨[], .ok (count, offset)⟩
  | [], _, _, _ => by simp [struct_member_loop, pure, Run.pure]
  | .mk _ _ _ :: rest, i, count, offset => by
    simp only [struct_member_loop, if_true]
    exact union_loop_null tg rest (i + 1) count offset

/-- The member loop of a union skips members whose entries are all null. -/
theorem union_loop_all_null (tg : Target) (multi : List (Option Initializer)) :
    ∀ (ms : List MemberInfo) (i count offset : Nat),
    multi.drop i = List.replicate ms.length none →
    struct_member_loop tg true (some multi) ms i count offset = ⟨[], .ok (count, offset)⟩
  | [], _, _, _, _ => by simp [struct_member_loop, pure, Run.pure]
  | .mk _ _ _ :: rest, i, count, offset, h => by
    simp only [List.length_cons, List.replicate_succ] at h
    obtain ⟨hget, hdrop⟩ := drop_cons_get multi i none _ h
    simp only [struct_member_loop, hget, Option.isSome_none, Bool.not_true, Bool.or_self,
      Bool.false_eq_true, if_false]
    exact union_loop_all_null tg multi rest (i + 1) count offset hdrop

theorem first_non_null_none_iff : ∀ (ms : List MemberInfo) (sfx : List (Option Initializer)),
    sfx.length = ms.length → first_non_null ms sfx = none →
    sfx = List.replicate ms.length none
  | [], [], _, _ => by simp
  | [], _ :: _, h, _ => by simp at h
  | _ :: _, [], h, _ => by simp at h
  | m :: ms, some init :: sfx, _, h => by simp [first_non_null] at h
  | m :: ms, none :: sfx, hl, h => by
    simp only [first_non_null] at h
    simp only [List.length_cons, Nat.add_right_cancel_iff] at hl
    simp [List.replicate_succ, first_non_null_none_iff ms sfx hl h]

theorem filter_isSome_nil : ∀ (sfx : List (Option Initializer)),
    (sfx.filter Option.isSome).length = 0 → sfx = List.replicate sfx.length none
  | [], _ => by simp
  | none :: sfx, h => by
    simp only [List.filter_cons, Option.isSome_none, Bool.false_eq_true, if_false] at h
    simp [List.replicate_succ, ← filter_isSome_nil sfx h]
  | some _ :: sfx, h => by simp at h

/-- The member loop of a union whose entries from `i` on hold exactly one non-null
entry: it writes the data of the member of that entry and nothing else. -/
theorem union_loop_one (tg : Target) (multi : List (Option Initializer)) :
    ∀ (ms : List MemberInfo) (i : Nat) (m : MemberInfo) (init : Initializer),
    (multi.drop i).length = ms.length →
    first_non_null ms (multi.drop i) = some (m, init) →
    ((multi.drop i).filter Option.isSome).length ≤ 1 →
    tg.align_size m.type ≠ 0 →
    (construct_initial_value tg m.type (some init)).res = .ok () →
    struct_member_loop tg true (some multi) ms i 0 0
      = ⟨(construct_initial_value tg m.type (some init)).out, .ok (1, tg.type_size m.type)⟩
  | [], i, _, _, _, h, _, _, _ => by
    cases hd : multi.drop i <;> simp [hd, first_non_null] at h
  | .mk name mtype moff :: rest, i, m, init, hl, hf, hone, ha, hok => by
    cases hd : multi.drop i with
    | nil => simp [hd] at hl
    | cons e sfx =>
      rw [hd] at hl hf hone
      obtain ⟨hget, hdrop⟩ := drop_cons_get multi i e sfx hd
      simp only [List.length_cons, Nat.add_right_cancel_iff] at hl
      cases e with
      | none =>
        simp only [first_non_null] at hf
        simp only [List.filter_cons, Option.isSome_none, Bool.false_eq_true, if_false] at hone
        simp only [struct_member_loop, hget, Option.isSome_none, Bool.not_true, Bool.or_self,
          Bool.false_eq_true, if_false]
        exact union_loop_one tg multi rest (i + 1) m init (by rw [hdrop]; exact hl)
          (by rw [hdrop]; exact hf) (by rw [hdrop]; exact hone) ha hok
      | some e0 =>
        simp only [first_non_null, Option.some.injEq, Prod.mk.injEq] at hf
        obtain ⟨rfl, rfl⟩ := hf
        simp only [List.filter_cons, Option.isSome_some, if_true, List.length_cons] at hone
        have hrest : sfx = List.replicate rest.length none := by
          have := filter_isSome_nil sfx (by omega)
          rw [hl] at this
          exact this
        have hloop := union_loop_all_null tg multi rest (i + 1) 1
          (ALIGN 0 (tg.align_size mtype) + tg.type_size mtype) (by rw [hdrop]; exact hrest)
        simp only [MemberInfo.type] at ha hok ⊢
        have hz : ALIGN 0 (tg.align_size mtype) = 0 := ALIGN_of_mod_eq_zero _ _ (Nat.zero_mod _)
        simp only [struct_member_loop, hget, Option.isSome_some, Bool.true_or, if_true, ha,
          if_false, Nat.zero_mod, ne_eq, not_true_eq_false, run_pure_bind]
        rw [run_bind_ok _ () _ hok, hloop]
        simp [hz]

/-- The last step of the struct case: the pad from `offset` up to `size`. -/
theorem struct_pad_step (asz : String → Nat) (pos size offset : Nat) (h : offset ≤ size) :
    ∃ pad, (if size ≠ offset then struct_padding ((size : Int) - (offset : Int))
            else (pure () : Run Unit)) = ⟨pad, .ok ()⟩
      ∧ (∀ a ∈ pad, is_zero_directive a = true)
      ∧ layout asz pos pad = pos + (size - offset) := by
  by_cases hd : size = offset
  · subst hd
    exact ⟨[], by simp [pure, Run.pure], by simp, by simp [layout]⟩
  · have hcast : (size : Int) - (offset : Int) = ((size - offset : Nat) : Int) := by omega
    obtain ⟨hres, hzero, hpad⟩ := struct_padding_spec asz pos (size - offset)
    refine ⟨(struct_padding ((size - offset : Nat) : Int)).out, ?_, hzero, hpad⟩
    simp only [ne_eq, hd, not_false_eq_true, if_true, hcast]
    rw [← hres]

/-- C11, amended: for a union type and an initializer that is null or a positional
`IK_MULTI` with one entry per member of which at most one is non-null,
`construct_initial_value` returns and writes the data of exactly one member, the member
whose entry is non-null (member 0, zero-initialized, when the initializer is null or has
no non-null entry), followed by zero directives that pad the output to
`type_size(union)`. The data of the selected member is taken to occupy `type_size` of
its type, which is at most the size of the union. -/
theorem construct_initial_value_union (tg : Target) (ascii_size : String → Nat) (base : Nat)
    (sinfo : StructInfo) (init : Option Initializer) (m : MemberInfo)
    (mem_init : Option Initializer)
    (hunion : sinfo.is_union = true)
    (hinit : union_init_ok sinfo.members init = true)
    (hchoice : union_choice sinfo.members init = some (m, mem_init))
    (halign : tg.align_size m.type ≠ 0)
    (hok : (construct_initial_value tg m.type mem_init).res = .ok ())
    (hlay : layout ascii_size base (construct_initial_value tg m.type mem_init).out
        = base + tg.type_size m.type)
    (hsize : tg.type_size m.type ≤ tg.type_size (.TY_STRUCT sinfo)) :
    ∃ pad,
      construct_initial_value tg (.TY_STRUCT sinfo) init
        = ⟨(construct_initial_value tg m.type mem_init).out ++ pad, .ok ()⟩
      ∧ (∀ a ∈ pad, is_zero_directive a = true)
      ∧ layout ascii_size base ((construct_initial_value tg m.type mem_init).out ++ pad)
          = base + tg.type_size (.TY_STRUCT sinfo) := by
  obtain ⟨members, ssize, salign, is_union⟩ := sinfo
  simp only [StructInfo.is_union] at hunion
  subst hunion
  simp only [StructInfo.members] at hinit hchoice
  obtain ⟨pad, hpad, hzero, hpl⟩ := struct_pad_step ascii_size
    (base + tg.type_size m.type) (tg.type_size (.TY_STRUCT (.mk members ssize salign true)))
    (tg.type_size m.type) hsize
  have hdefault : ∀ (multi : Option (List (Option Initializer))),
      struct_member_loop tg true multi members 0 0 0 = ⟨[], .ok (0, 0)⟩ →
      members.head?.map (fun m => (m, (none : Option Initializer))) = some (m, mem_init) →
      (do
        let (count, offset) ← struct_member_loop tg true multi members 0 0 0
        let offset1 ←
          (if true && count = 0 then
            match members with
            | .mk _ mtype _ :: _ => do
              construct_initial_value tg mtype none
              pure (offset + tg.type_size mtype)
            | [] => fatal (.undefined "sinfo->members->data[0]")
          else pure offset)
        let size := tg.type_size (.TY_STRUCT (.mk members ssize salign true))
        if size ≠ offset1 then struct_padding ((size : Int) - (offset1 : Int))
        else pure ())
      = ⟨(construct_initial_value tg m.type mem_init).out ++ pad, .ok ()⟩ := by
    intro multi hloop hhead
    cases members with
    | nil => simp at hhead
    | cons m0 rest =>
      obtain ⟨n0, t0, o0⟩ := m0
      simp only [List.head?_cons, Option.map_some', Option.some.injEq, Prod.mk.injEq] at hhead
      obtain ⟨rfl, rfl⟩ := hhead
      simp only [MemberInfo.type] at hok hpad ⊢
      rw [hloop, run_bind_ok _ (0, 0) _ rfl]
      simp only [Bool.true_and, decide_True, if_true, run_bind_assoc, run_pure_bind,
        Nat.zero_add, List.nil_append]
      rw [run_bind_ok _ () _ hok, hpad]
  refine ⟨pad, ?_, hzero, ?_⟩
  · cases init with
    | none =>
      rw [construct_initial_value]
      exact hdefault none (union_loop_null tg members 0 0 0) (by simpa [union_choice] using hchoice)
    | some i0 =>
      cases i0 with
      | IK_MULTI multi =>
        simp only [union_init_ok, Bool.and_eq_true, decide_eq_true_eq] at hinit
        obtain ⟨hlen, hone⟩ := hinit
        rw [construct_initial_value]
        cases hf : first_non_null members multi with
        | none =>
          simp only [union_choice, hf] at hchoice
          refine hdefault (some multi) ?_ hchoice
          apply union_loop_all_null
          rw [List.drop_zero]
          exact first_non_null_none_iff members multi hlen hf
        | some p =>
          obtain ⟨m1, i1⟩ := p
          simp only [union_choice, hf, Option.some.injEq, Prod.mk.injEq] at hchoice
          obtain ⟨rfl, rfl⟩ := hchoice
          have hloop := union_loop_one tg multi members 0 m1 i1 (by simpa using hlen)
            (by simpa using hf) (by simpa using hone) halign hok
          simp only []
          rw [hloop, run_bind_ok _ (1, tg.type_size m1.type) _ rfl]
          simp only [Nat.one_ne_zero, decide_False, Bool.and_false, Bool.false_eq_true, if_false,
            run_pure_bind, hpad]
      | IK_SINGLE _ => simp [union_init_ok] at hinit
      | IK_DOT _ _ => simp [union_init_ok] at hinit
      | IK_ARR _ _ => simp [union_init_ok] at hinit
  · rw [layout_append, hlay, hpl]
    omega

/-- C11 as stated fails: for `union { char c; int i; }` and an initializer whose two
entries are both non-null, the data of both members is written (8 bytes for a union of
size 4), not the data of the first member followed by zero padding. -/
theorem construct_initial_value_union_counterexample :
    (construct_initial_value sysv_lp64
        (.TY_STRUCT (.mk [.mk "c" (.TY_FIXNUM .FX_CHAR) 0, .mk "i" (.TY_FIXNUM .FX_INT) 0] 4 4 true))
        (some (.IK_MULTI [some (.IK_SINGLE (.EX_FIXNUM (.TY_FIXNUM .FX_CHAR) 1)),
          some (.IK_SINGLE (.EX_FIXNUM (.TY_FIXNUM .FX_INT) 2))]))).out
      = [.EMIT_ASM ".byte" ["1"], .EMIT_ALIGN 4, .EMIT_ASM ".long" ["2"]]
    ∧ ¬ (∃ pad,
          (construct_initial_value sysv_lp64
            (.TY_STRUCT (.mk [.mk "c" (.TY_FIXNUM .FX_CHAR) 0, .mk "i" (.TY_FIXNUM .FX_INT) 0] 4 4 true))
            (some (.IK_MULTI [some (.IK_SINGLE (.EX_FIXNUM (.TY_FIXNUM .FX_CHAR) 1)),
              some (.IK_SINGLE (.EX_FIXNUM (.TY_FIXNUM .FX_INT) 2))]))).out
            = (construct_initial_value sysv_lp64 (.TY_FIXNUM .FX_CHAR)
                (some (.IK_SINGLE (.EX_FIXNUM (.TY_FIXNUM .FX_CHAR) 1)))).out ++ pad
          ∧ (∀ a ∈ pad, is_zero_directive a = true))
    ∧ layout (fun _ => 0) 0
        (construct_initial_value sysv_lp64
          (.TY_STRUCT (.mk [.mk "c" (.TY_FIXNUM .FX_CHAR) 0, .mk "i" (.TY_FIXNUM .FX_INT) 0] 4 4 true))
          (some (.IK_MULTI [some (.IK_SINGLE (.EX_FIXNUM (.TY_FIXNUM .FX_CHAR) 1)),
            some (.IK_SINGLE (.EX_FIXNUM (.TY_FIXNUM .FX_INT) 2))]))).out
      ≠ sysv_lp64.type_size
          (.TY_STRUCT (.mk [.mk "c" (.TY_FIXNUM .FX_CHAR) 0, .mk "i" (.TY_FIXNUM .FX_INT) 0] 4 4 true)) := by
  have hout : (construct_initial_value sysv_lp64
        (.TY_STRUCT (.mk [.mk "c" (.TY_FIXNUM .FX_CHAR) 0, .mk "i" (.TY_FIXNUM .FX_INT) 0] 4 4 true))
        (some (.IK_MULTI [some (.IK_SINGLE (.EX_FIXNUM (.TY_FIXNUM .FX_CHAR) 1)),
          some (.IK_SINGLE (.EX_FIXNUM (.TY_FIXNUM .FX_INT) 2))]))).out
      = [.EMIT_ASM ".byte" ["1"], .EMIT_ALIGN 4, .EMIT_ASM ".long" ["2"]] := by decide
  refine ⟨hout, ?_, ?_⟩
  · rintro ⟨pad, h1, h2⟩
    rw [hout] at h1
    have hc : (construct_initial_value sysv_lp64 (.TY_FIXNUM .FX_CHAR)
        (some (.IK_SINGLE (.EX_FIXNUM (.TY_FIXNUM .FX_CHAR) 1)))).out
        = [.EMIT_ASM ".byte" ["1"]] := by decide
    rw [hc] at h1
    simp only [List.singleton_append, List.cons.injEq, true_and] at h1
    have := h2 (.EMIT_ALIGN 4) (by rw [← h1]; simp)
    simp [is_zero_directive] at this
  · rw [hout]
    decide

/-- Witness for C11: `union { char c; int i; } u = { .c = 1 }` on the SysV LP64 target:
the data of `c`, then three zero bytes, 4 bytes in all. -/
theorem construct_initial_value_union_witness :
    union_init_ok [.mk "c" (.TY_FIXNUM .FX_CHAR) 0, .mk "i" (.TY_FIXNUM .FX_INT) 0]
        (some (.IK_MULTI [some (.IK_SINGLE (.EX_FIXNUM (.TY_FIXNUM .FX_CHAR) 1)), none])) = true
    ∧ (construct_initial_value sysv_lp64
        (.TY_STRUCT (.mk [.mk "c" (.TY_FIXNUM .FX_CHAR) 0, .mk "i" (.TY_FIXNUM .FX_INT) 0] 4 4 true))
        (some (.IK_MULTI [some (.IK_SINGLE (.EX_FIXNUM (.TY_FIXNUM .FX_CHAR) 1)), none]))).out
      = [.EMIT_ASM ".byte" ["1"], .EMIT_ASM ".byte" ["0"], .EMIT_ASM ".byte" ["0"],
          .EMIT_ASM ".byte" ["0"]]
    ∧ ∃ pad,
      construct_initial_value sysv_lp64
        (.TY_STRUCT (.mk [.mk "c" (.TY_FIXNUM .FX_CHAR) 0, .mk "i" (.TY_FIXNUM .FX_INT) 0] 4 4 true))
        (some (.IK_MULTI [some (.IK_SINGLE (.EX_FIXNUM (.TY_FIXNUM .FX_CHAR) 1)), none]))
        = ⟨(construct_initial_value sysv_lp64 (.TY_FIXNUM .FX_CHAR)
              (some (.IK_SINGLE (.EX_FIXNUM (.TY_FIXNUM .FX_CHAR) 1)))).out ++ pad, .ok ()⟩
      ∧ (∀ a ∈ pad, is_zero_directive a = true)
      ∧ layout (fun _ => 0) 16
          ((construct_initial_value sysv_lp64 (.TY_FIXNUM .FX_CHAR)
              (some (.IK_SINGLE (.EX_FIXNUM (.TY_FIXNUM .FX_CHAR) 1)))).out ++ pad)
        = 16 + 4 :=
  ⟨by decide, by decide,
   construct_initial_value_union sysv_lp64 (fun _ => 0) 16
     (.mk [.mk "c" (.TY_FIXNUM .FX_CHAR) 0, .mk "i" (.TY_FIXNUM .FX_INT) 0] 4 4 true)
     (some (.IK_MULTI [some (.IK_SINGLE (.EX_FIXNUM (.TY_FIXNUM .FX_CHAR) 1)), none]))
     (.mk "c" (.TY_FIXNUM .FX_CHAR) 0)
     (some (.IK_SINGLE (.EX_FIXNUM (.TY_FIXNUM .FX_CHAR) 1)))
     rfl (by decide) rfl (by decide) rfl (by decide) (by decide)⟩

theorem run_bind_out {α β : Type} (x : Run α) (f : α → Run β) (a : Asm)
    (h : a ∈ (x >>= f).out) : a ∈ x.out ∨ ∃ v, a ∈ (f v).out := by
  change a ∈ (Run.bind x f).out at h
  unfold Run.bind at h
  cases hx : x.res with
  | error e =>
    simp only [hx] at h
    exact Or.inl h
  | ok v =>
    simp only [hx, List.mem_append] at h
    rcases h with h | h
    · exact Or.inl h
    · exact Or.inr ⟨v, h⟩

theorem run_times_data (x : Run Unit) (hx : ∀ a ∈ x.out, is_data_line a = true) :
    ∀ n : Nat, ∀ a ∈ (Run.times x n).out, is_data_line a = true
  | 0 => by simp [Run.times, Run.pure]
  | n + 1 => by
    intro a ha
    simp only [Run.times] at ha
    rcases run_bind_out _ _ a ha with h | ⟨_, h⟩
    · exact hx a h
    · exact run_times_data x hx n a h

theorem array_init_loop_data (f : Option Initializer → Run Unit)
    (hf : ∀ init, ∀ a ∈ (f init).out, is_data_line a = true) :
    ∀ (entries : List (Option Initializer)) (index : Int),
    ∀ a ∈ (array_init_loop f entries index).out, is_data_line a = true
  | [], _ => by simp [array_init_loop, pure, Run.pure]
  | none :: _, _ => by simp [array_init_loop, fatal]
  | some (.IK_ARR idx value) :: rest, index => by
    intro a ha
    cases idx with
    | EX_FIXNUM t next =>
      simp only [array_init_loop] at ha
      rcases run_bind_out _ _ a ha with h | ⟨_, h⟩
      · exact run_times_data _ (hf none) _ a h
      · rcases run_bind_out _ _ a h with h | ⟨_, h⟩
        · exact hf _ a h
        · exact array_init_loop_data f hf rest _ a h
    | _ => simp [array_init_loop, fatal] at ha
  | some (.IK_SINGLE e) :: rest, index => by
    intro a ha
    simp only [array_init_loop] at ha
    rcases run_bind_out _ _ a ha with h | ⟨_, h⟩
    · exact hf _ a h
    · exact array_init_loop_data f hf rest _ a h
  | some (.IK_MULTI e) :: rest, index => by
    intro a ha
    simp only [array_init_loop] at ha
    rcases run_bind_out _ _ a ha with h | ⟨_, h⟩
    · exact hf _ a h
    · exact array_init_loop_data f hf rest _ a h
  | some (.IK_DOT d e) :: rest, index => by
    intro a ha
    simp only [array_init_loop] at ha
    rcases run_bind_out _ _ a ha with h | ⟨_, h⟩
    · exact hf _ a h
    · exact array_init_loop_data f hf rest _ a h

theorem struct_padding_data (d : Int) : ∀ a ∈ (struct_padding d).out, is_data_line a = true := by
  unfold struct_padding
  intro a ha
  split at ha
  · simp only [_BYTE, emit, List.mem_singleton] at ha; subst ha; rfl
  split at ha
  · simp only [_WORD, emit, List.mem_singleton] at ha; subst ha; rfl
  split at ha
  · simp only [_LONG, emit, List.mem_singleton] at ha; subst ha; rfl
  split at ha
  · simp only [_QUAD, emit, List.mem_singleton] at ha; subst ha; rfl
  · refine run_times_data _ ?_ _ a ha
    intro b hb
    simp only [_BYTE, emit, List.mem_singleton] at hb; subst hb; rfl

theorem fatal_out {α : Type} (e : Fatal) : (fatal e : Run α).out = [] := rfl

theorem lift_out {α : Type} (x : Except Fatal α) : (Run.lift x).out = [] := rfl

theorem byte_data (x : String) : ∀ a ∈ (_BYTE x).out, is_data_line a = true := by
  intro a h
  simp only [_BYTE, emit, List.mem_singleton] at h
  subst h
  rfl

theorem word_data (x : String) : ∀ a ∈ (_WORD x).out, is_data_line a = true := by
  intro a h
  simp only [_WORD, emit, List.mem_singleton] at h
  subst h
  rfl

theorem long_data (x : String) : ∀ a ∈ (_LONG x).out, is_data_line a = true := by
  intro a h
  simp only [_LONG, emit, List.mem_singleton] at h
  subst h
  rfl

theorem quad_data (x : String) : ∀ a ∈ (_QUAD x).out, is_data_line a = true := by
  intro a h
  simp only [_QUAD, emit, List.mem_singleton] at h
  subst h
  rfl

theorem ascii_data (x : String) : ∀ a ∈ (_ASCII x).out, is_data_line a = true := by
  intro a h
  simp only [_ASCII, emit, List.mem_singleton] at h
  subst h
  rfl

mutual
/-- Every line that `construct_initial_value` writes is a data directive or an alignment
request. -/
theorem construct_initial_value_data (tg : Target) : ∀ (type : EmitType)
    (init : Option Initializer),
    ∀ a ∈ (construct_initial_value tg type init).out, is_data_line a = true
  | .TY_VOID, init => by
    intro a ha
    rcases init with _ | (_ | _ | _ | _) <;> simp only [construct_initial_value] at ha <;>
      simp [fatal_out] at ha
  | .TY_FUNC, init => by
    intro a ha
    rcases init with _ | (_ | _ | _ | _) <;> simp only [construct_initial_value] at ha <;>
      simp [fatal_out] at ha
  | .TY_FLONUM k, init => by
    intro a ha
    rcases init with _ | (_ | _ | _ | _) <;> cases k <;> simp only [construct_initial_value] at ha
    all_goals first
      | (simp [fatal_out] at ha; done)
      | (first | exact long_data _ a ha | exact quad_data _ a ha)
      | (split at ha
         · simp [fatal_out] at ha
         · split at ha
           · (first | exact long_data _ a ha | exact quad_data _ a ha)
           · simp [fatal_out] at ha)
  | .TY_PTR p, init => by
    intro a ha
    rcases init with _ | (_ | _ | _ | _) <;> simp only [construct_initial_value] at ha
    all_goals first
      | simp [fatal_out] at ha
      | (rcases run_bind_out _ _ a ha with h | ⟨_, h⟩
         · simp [lift_out] at h
         · exact quad_data _ a h)
  | .TY_FIXNUM k, init => by
    intro a ha
    rcases init with _ | (_ | _ | _ | _) <;> simp only [construct_initial_value] at ha
    all_goals first
      | simp [fatal_out] at ha
      | (rcases run_bind_out _ _ a ha with h | ⟨_, h⟩
         · simp [lift_out] at h
         · cases k <;> (first | exact byte_data _ a h | exact word_data _ a h | exact long_data _ a h | exact quad_data _ a h))
  | .TY_ARRAY elem n, init => by
    intro a ha
    have ih := construct_initial_value_data tg elem
    rcases init with _ | (_ | _ | _ | _) <;> simp only [construct_initial_value] at ha
    · exact run_times_data _ (ih none) _ a ha
    · split at ha
      · split at ha
        · exact ascii_data _ a ha
        · simp [fatal_out] at ha
      · simp [fatal_out] at ha
    · rcases run_bind_out _ _ a ha with h | ⟨_, h⟩
      · exact array_init_loop_data _ ih _ _ a h
      · exact run_times_data _ (ih none) _ a h
    · simp [fatal_out] at ha
    · simp [fatal_out] at ha
  | .TY_STRUCT (.mk members ssize salign is_union), init => by
    intro a ha
    have tail : ∀ (multi : Option (List (Option Initializer))),
        a ∈ (do
          let (count, offset) ← struct_member_loop tg is_union multi members 0 0 0
          let offset1 ←
            (if is_union && count = 0 then
              match members with
              | .mk _ mtype _ :: _ => do
                construct_initial_value tg mtype none
                pure (offset + tg.type_size mtype)
              | [] => fatal (.undefined "sinfo->members->data[0]")
            else (pure offset : Run Nat))
          let size := tg.type_size (.TY_STRUCT (.mk members ssize salign is_union))
          if size ≠ offset1 then struct_padding ((size : Int) - (offset1 : Int))
          else (pure () : Run Unit)).out → is_data_line a = true := by
      intro multi ha
      rcases run_bind_out _ _ a ha with h | ⟨v, h⟩
      · exact struct_member_loop_data tg is_union _ members 0 0 0 a h
      · rcases run_bind_out _ _ a h with h | ⟨w, h⟩
        · split at h
          · cases members with
            | nil => simp [fatal_out] at h
            | cons m0 rest =>
              obtain ⟨n0, t0, o0⟩ := m0
              simp only [] at h
              rcases run_bind_out _ _ a h with h | ⟨_, h⟩
              · exact construct_initial_value_data tg t0 none a h
              · simp [pure, Run.pure] at h
          · simp [pure, Run.pure] at h
        · simp only [] at h
          split at h
          · exact struct_padding_data _ a h
          · simp [pure, Run.pure] at h
    rcases init with _ | (_ | _ | _ | _) <;> simp only [construct_initial_value] at ha
    · exact tail none ha
    · simp [fatal_out] at ha
    · exact tail _ ha
    · simp [fatal_out] at ha
    · simp [fatal_out] at ha
/-- Every line that the member loop writes is a data directive or an alignment
request. -/
theorem struct_member_loop_data (tg : Target) (is_union : Bool)
    (multi : Option (List (Option Initializer))) :
    ∀ (ms : List MemberInfo) (i count offset : Nat),
    ∀ a ∈ (struct_member_loop tg is_union multi ms i count offset).out, is_data_line a = true
  | [], _, _, _ => by simp [struct_member_loop, pure, Run.pure]
  | .mk _ mtype _ :: rest, i, count, offset => by
    intro a ha
    simp only [struct_member_loop] at ha
    split at ha
    · exact struct_member_loop_data tg is_union multi rest _ _ _ a ha
    · simp [fatal_out] at ha
    · split at ha
      · split at ha
        · simp [fatal_out] at ha
        · rcases run_bind_out _ _ a ha with h | ⟨_, h⟩
          · split at h
            · rcases run_bind_out _ _ a h with h | ⟨_, h⟩
              · simp only [EMIT_ALIGN, emit, List.mem_singleton] at h
                subst h
                rfl
              · simp [pure, Run.pure] at h
            · simp [pure, Run.pure] at h
          · rcases run_bind_out _ _ a h with h | ⟨_, h⟩
            · exact construct_initial_value_data tg mtype _ a h
            · exact struct_member_loop_data tg is_union multi rest _ _ _ a h
      · exact struct_member_loop_data tg is_union multi rest _ _ _ a ha
end

theorem emit_varinfo_some_eq (tg : Target) (varinfo : VarInfo) (init : Initializer) :
    emit_varinfo tg varinfo (some init)
      = ⟨section_line tg varinfo :: (globl_lines tg varinfo
          ++ (.EMIT_ALIGN (tg.align_size varinfo.type) :: .EMIT_LABEL (varinfo_label tg varinfo)
            :: (construct_initial_value tg varinfo.type (some init)).out)),
         (construct_initial_value tg varinfo.type (some init)).res⟩ := by
  unfold emit_varinfo section_line globl_lines varinfo_label
  by_cases hc : TypeQualifier.TQ_CONST ∈ varinfo.qualifier <;>
    by_cases hs : StorageBit.VS_STATIC ∈ varinfo.storage <;>
    by_cases ha : tg.apple = true <;>
    simp [hc, hs, ha, bind, Run.bind, pure, Run.pure, _RODATA, _DATA, _SECTION, _GLOBL,
      EMIT_ALIGN, EMIT_LABEL, emit]

theorem emit_varinfo_none_eq (tg : Target) (varinfo : VarInfo) :
    emit_varinfo tg varinfo none
      = ⟨globl_lines tg varinfo ++ [.EMIT_ASM ".comm" [varinfo_label tg varinfo,
          if tg.align_size varinfo.type ≤ 1 then NUM ((max (tg.type_size varinfo.type) 1 : Nat) : Int)
          else toString (max (tg.type_size varinfo.type) 1) ++ ","
            ++ toString (tg.align_size varinfo.type)]], .ok ()⟩ := by
  have hmax : (if tg.type_size varinfo.type < 1 then 1 else tg.type_size varinfo.type)
      = max (tg.type_size varinfo.type) 1 := by
    split <;> omega
  unfold emit_varinfo globl_lines varinfo_label
  simp only [hmax]
  by_cases hs : StorageBit.VS_STATIC ∈ varinfo.storage <;>
    by_cases ha : tg.align_size varinfo.type ≤ 1 <;>
    simp [hs, ha, bind, Run.bind, pure, Run.pure, _COMM, _GLOBL, emit]

/-- C13: for a global variable with a non-null initializer `emit_varinfo` writes, in this
order, a section directive (the read-only data section when the type of the variable is
const-qualified, `.data` otherwise), `.globl` with the mangled name when the variable is
not static, an alignment request for `align_size(type)`, the label, and the lines of
`construct_initial_value`; no line is a `.comm`. For `int g = 42` the output is `.data`,
`.globl g`, alignment 4, the label `g`, `.long 42`. -/
theorem emit_varinfo_initialized (tg : Target) (varinfo : VarInfo) (init : Initializer) :
    emit_varinfo tg varinfo (some init)
      = ⟨section_line tg varinfo :: (globl_lines tg varinfo
          ++ (.EMIT_ALIGN (tg.align_size varinfo.type) :: .EMIT_LABEL (varinfo_label tg varinfo)
            :: (construct_initial_value tg varinfo.type (some init)).out)),
         (construct_initial_value tg varinfo.type (some init)).res⟩
    ∧ (∀ a ∈ (emit_varinfo tg varinfo (some init)).out,
        ∀ operands, a ≠ .EMIT_ASM ".comm" operands)
    ∧ (emit_varinfo sysv_lp64 (.mk "g" (.TY_FIXNUM .FX_INT) [] none none 0 [])
        (some (.IK_SINGLE (.EX_FIXNUM (.TY_FIXNUM .FX_INT) 42)))).out
      = [.EMIT_ASM ".data" [], .EMIT_ASM ".globl" ["g"], .EMIT_ALIGN 4, .EMIT_LABEL "g",
          .EMIT_ASM ".long" ["42"]] := by
  refine ⟨emit_varinfo_some_eq tg varinfo init, ?_, by decide⟩
  intro a ha operands heq
  rw [emit_varinfo_some_eq] at ha
  subst heq
  simp only [List.mem_cons, List.mem_append] at ha
  rcases ha with h | h | h | h | h
  · unfold section_line at h
    split at h <;> simp at h
  · unfold globl_lines at h
    split at h <;> simp at h
  · simp at h
  · simp at h
  · have := construct_initial_value_data tg varinfo.type (some init) _ h
    simp [is_data_line] at this

/-- C14: for a global variable with a null initializer `emit_varinfo` returns and writes
no section directive, no alignment request, no label and no data: the output is the
`.globl` line of a variable that is not static, followed by exactly one `.comm`
directive that names the label of the variable with the size `max(type_size(type), 1)`,
followed by the alignment `align_size(type)` exactly when that alignment is greater
than 1. -/
theorem emit_varinfo_uninitialized (tg : Target) (varinfo : VarInfo) :
    emit_varinfo tg varinfo none
      = ⟨globl_lines tg varinfo ++ [.EMIT_ASM ".comm" [varinfo_label tg varinfo,
          if tg.align_size varinfo.type ≤ 1 then NUM ((max (tg.type_size varinfo.type) 1 : Nat) : Int)
          else toString (max (tg.type_size varinfo.type) 1) ++ ","
            ++ toString (tg.align_size varinfo.type)]], .ok ()⟩
    ∧ (emit_varinfo sysv_lp64 (.mk "g" (.TY_FIXNUM .FX_INT) [] none none 0 []) none).out
      = [.EMIT_ASM ".globl" ["g"], .EMIT_ASM ".comm" ["g", "4,4"]]
    ∧ (emit_varinfo sysv_lp64 (.mk "c" (.TY_FIXNUM .FX_CHAR) [.VS_STATIC] none none 0 []) none).out
      = [.EMIT_ASM ".comm" ["c", "1"]] :=
  ⟨emit_varinfo_none_eq tg varinfo, by decide, by decide⟩

/-- No line that `emit_varinfo` writes is a `.local` directive. -/
theorem emit_varinfo_no_local (tg : Target) (varinfo : VarInfo) (init : Option Initializer) :
    ∀ a ∈ (emit_varinfo tg varinfo init).out, ∀ operands, a ≠ .EMIT_ASM ".local" operands := by
  intro a ha operands heq
  subst heq
  cases init with
  | none =>
    rw [emit_varinfo_none_eq] at ha
    simp only [List.mem_append, List.mem_singleton] at ha
    rcases ha with h | h
    · unfold globl_lines at h
      split at h <;> simp at h
    · simp at h
  | some init =>
    rw [emit_varinfo_some_eq] at ha
    simp only [List.mem_cons, List.mem_append] at ha
    rcases ha with h | h | h | h | h
    · unfold section_line at h
      split at h <;> simp at h
    · unfold globl_lines at h
      split at h <;> simp at h
    · simp at h
    · simp at h
    · have := construct_initial_value_data tg varinfo.type (some init) _ h
      simp [is_data_line] at this

/-- C15, the code at the failing inputs: for `static int c = 1;` and for `static int c;`
on the SysV target `emit_varinfo` writes no `.local` line (and no `.globl` line), the
second being a bare `.comm`; for `int c;` it writes `.globl c`. -/
theorem emit_varinfo_static_no_local :
    (emit_varinfo sysv_lp64 (.mk "c" (.TY_FIXNUM .FX_INT) [.VS_STATIC] none none 0 [])
        (some (.IK_SINGLE (.EX_FIXNUM (.TY_FIXNUM .FX_INT) 1)))).out
      = [.EMIT_ASM ".data" [], .EMIT_ALIGN 4, .EMIT_LABEL "c", .EMIT_ASM ".long" ["1"]]
    ∧ (emit_varinfo sysv_lp64 (.mk "c" (.TY_FIXNUM .FX_INT) [.VS_STATIC] none none 0 []) none).out
      = [.EMIT_ASM ".comm" ["c", "4,4"]]
    ∧ (emit_varinfo sysv_lp64 (.mk "c" (.TY_FIXNUM .FX_INT) [] none none 0 []) none).out
      = [.EMIT_ASM ".globl" ["c"], .EMIT_ASM ".comm" ["c", "4,4"]]
    ∧ sysv_lp64.apple = false
    ∧ ∀ (tg : Target) (varinfo : VarInfo) (init : Option Initializer),
        ∀ a ∈ (emit_varinfo tg varinfo init).out, ∀ operands,
          a ≠ .EMIT_ASM ".local" operands :=
  ⟨by decide, by decide, by decide, rfl, emit_varinfo_no_local⟩

theorem var_find_name (vars : List VarInfo) (name : String) (v : VarInfo)
    (h : var_find vars name = some v) : v.name = name := by
  unfold var_find at h
  have := List.find?_some h
  simpa using this

set_option smartUnfolding false in
theorem scope_find_eq (parent : Option Scope) (vars : Option (List VarInfo)) (name : String) :
    scope_find (.mk parent vars) name
      = (match (match vars with
                | some vs => var_find vs name
                | none => none) with
         | some varinfo => some (varinfo, .mk parent vars)
         | none =>
           match parent with
           | some p => scope_find p name
           | none => none) := by
  cases vars <;> cases parent <;> rfl

theorem scope_find_name : ∀ (scope : Scope) (name : String) (v : VarInfo) (sc : Scope),
    scope_find scope name = some (v, sc) → v.name = name
  | .mk parent vars, name, v, sc, h => by
    rw [scope_find_eq] at h
    split at h
    · next varinfo hv =>
      simp only [Option.some.injEq, Prod.mk.injEq] at h
      obtain ⟨rfl, _⟩ := h
      split at hv
      · exact var_find_name _ _ _ hv
      · cases hv
    · split at h
      · next p => exact scope_find_name p name v sc h
      · cases h

theorem construct_initial_value_of_output (tg : Target) (type : EmitType)
    (directive : String) (single : Expr) (text : String)
    (hdir : scalar_directive type = some directive)
    (hout : scalar_output tg (some (.IK_SINGLE single)) = .ok text) :
    construct_initial_value tg type (some (.IK_SINGLE single))
      = ⟨[.EMIT_ASM directive [text]], .ok ()⟩ := by
  cases type with
  | TY_PTR p =>
    simp only [scalar_directive, Option.some.injEq] at hdir
    subst hdir
    simp only [construct_initial_value]
    simp [hout, Run.lift, _QUAD, emit, bind, Run.bind]
  | TY_FIXNUM kind =>
    cases kind <;> simp only [scalar_directive, Option.some.injEq] at hdir <;> subst hdir <;>
      simp only [construct_initial_value] <;>
      simp [hout, Run.lift, _BYTE, _WORD, _LONG, _QUAD, emit, bind, Run.bind]
  | _ => simp [scalar_directive] at hdir

/-- C16: the symbol that `construct_initial_value` writes for a reference to a variable
is the label under which `emit_varinfo` defines that variable. For a scalar type with data
directive `directive`, when the initializer expression evaluates to a reference to the
variable named `name` looked up from `scope` and the lookup finds `v`: if `v` is found in
the global scope, `construct_initial_value` writes the one line `directive` with the label
of `v` as operand, and if `v` is a static variable of a function scope with synthesized
global `g` it writes the one line `directive` with the label of `g` as operand (the label
followed by ` + offset` when the offset is not 0). The label of a variable is the only
label line that `emit_varinfo` writes for it when it is initialized and the first operand
of `.comm` when it is not; it is the name, mangled exactly when the variable is not
static. -/
theorem reference_symbol_is_label (tg : Target) (type : EmitType) (directive : String)
    (single : Expr) (t : EmitType) (name : String) (scope : Scope) (offset : Int)
    (v : VarInfo) (sc : Scope)
    (hdir : scalar_directive type = some directive)
    (heval : eval_initial_value single none 0 = .ok (some (.EX_VAR t name scope), offset))
    (hfind : scope_find scope name = some (v, sc)) :
    (is_global_scope sc = true →
      construct_initial_value tg type (some (.IK_SINGLE single))
        = ⟨[.EMIT_ASM directive [symbol_ref (varinfo_label tg v) offset]], .ok ()⟩)
    ∧ (∀ g, is_global_scope sc = false → v.storage.contains .VS_STATIC = true →
        v.static_gvar = some g →
        construct_initial_value tg type (some (.IK_SINGLE single))
          = ⟨[.EMIT_ASM directive [symbol_ref (varinfo_label tg g) offset]], .ok ()⟩)
    ∧ (∀ (w : VarInfo) (init : Initializer),
        (∀ label, Asm.EMIT_LABEL label ∈ (emit_varinfo tg w (some init)).out
            ↔ label = varinfo_label tg w)
        ∧ ∃ operand, (emit_varinfo tg w none).out
            = globl_lines tg w ++ [.EMIT_ASM ".comm" [varinfo_label tg w, operand]])
    ∧ (∀ w : VarInfo, varinfo_label tg w
        = if w.storage.contains .VS_STATIC then w.name else tg.MANGLE w.name) := by
  have hname : v.name = name := scope_find_name scope name v sc hfind
  refine ⟨?_, ?_, ?_, ?_⟩
  · intro hg
    apply construct_initial_value_of_output tg type directive single _ hdir
    subst hname
    by_cases ho : offset = 0 <;>
      simp [scalar_output, heval, hfind, hg, ho, varinfo_label, symbol_ref, fmt_name]
  · intro g hg hs hgv
    apply construct_initial_value_of_output tg type directive single _ hdir
    have hs : StorageBit.VS_STATIC ∈ v.storage := by simpa using hs
    by_cases ho : offset = 0 <;>
      simp [scalar_output, heval, hfind, hg, hs, hgv, ho, varinfo_label, symbol_ref, fmt_name]
  · intro w init
    constructor
    · intro label
      rw [emit_varinfo_some_eq]
      constructor
      · intro h
        simp only [List.mem_cons, List.mem_append] at h
        rcases h with h | h | h | h | h
        · unfold section_line at h
          split at h <;> cases h
        · unfold globl_lines at h
          split at h
          · cases h
          · simp at h
        · cases h
        · cases h
          rfl
        · have hd := construct_initial_value_data tg w.type (some init) _ h
          simp [is_data_line] at hd
      · intro h
        subst h
        simp
    · rw [emit_varinfo_none_eq]
      exact ⟨_, rfl⟩
  · intro w
    unfold varinfo_label fmt_name
    by_cases h : StorageBit.VS_STATIC ∈ w.storage <;> simp [h]

/-! ### Argument passing -/

theorem kRegTable_get (size k : Nat)
    (hsize : size = 1 ∨ size = 2 ∨ size = 4 ∨ size = 8) (hk : k < 6) :
    ∃ regs reg, kRegTable size = some regs ∧ regs.get? k = some reg := by
  rcases hsize with h | h | h | h <;> subst h <;>
    interval_cases k <;> exact ⟨_, _, rfl, rfl⟩

theorem store_reg_arg_eq (size k : Nat) (offset : Int)
    (hsize : size = 1 ∨ size = 2 ∨ size = 4 ∨ size = 8) (hk : k < 6) :
    store_reg_arg size k offset = ⟨int_store size k offset, .ok ()⟩ := by
  rcases hsize with h | h | h | h <;> subst h <;> interval_cases k <;> rfl

theorem store_freg_arg_eq (type : EmitType) (j : Nat) (offset : Int)
    (hfl : is_flonum type = true) (hj : j < 8) :
    store_freg_arg type j offset = ⟨float_store type j offset, .ok ()⟩ := by
  cases type with
  | TY_FLONUM kind =>
    cases kind <;> interval_cases j <;> rfl
  | _ => simp [is_flonum] at hfl

theorem run_mk_bind (o : List Asm) (y : Run Unit) :
    ((⟨o, .ok ()⟩ : Run Unit) >>= fun _ => y) = ⟨o ++ y.out, y.res⟩ := by
  rfl

theorem emit_bind_eq (a : Asm) (y : Run Unit) :
    (emit a >>= fun _ => y) = ⟨a :: y.out, y.res⟩ := by
  rfl

theorem put_params_loop_eq (tg : Target) (first : Nat) (rest : List VarInfo) :
    ∀ earlier : List VarInfo, int_params_ok tg rest →
      put_params_loop tg rest (min (first + earlier.countP int_class) 6)
          (min (earlier.countP float_class) 8)
        = ⟨param_stores_from tg first earlier rest, .ok ()⟩ := by
  induction rest with
  | nil => intro earlier _; rfl
  | cons v rest ih =>
    intro earlier hok
    have hrest : int_params_ok tg rest := fun w hw => hok w (List.mem_cons_of_mem _ hw)
    have ih2 := ih (earlier ++ [v]) hrest
    simp only [List.countP_append, List.countP_cons, List.countP_nil, Nat.zero_add] at ih2
    simp only [put_params_loop, param_stores_from, param_store]
    by_cases hs : is_stack_param v.type = true
    · have hi : int_class v = false := by simp [int_class, hs]
      have hf : float_class v = false := by simp [float_class, hs]
      simp only [hi, hf] at ih2
      simpa [hs] using ih2
    · have hs2 : is_stack_param v.type = false := by simpa using hs
      by_cases hfl : is_flonum v.type = true
      · have hi : int_class v = false := by simp [int_class, hfl]
        have hf : float_class v = true := by simp [float_class, hs2, hfl]
        simp only [hi, hf, if_true, Bool.false_eq_true, if_false, Nat.add_zero] at ih2
        by_cases hj : List.countP float_class earlier < 8
        · have h1 : min (List.countP float_class earlier) 8
              = List.countP float_class earlier := by omega
          have h2 : min (List.countP float_class earlier + 1) 8
              = List.countP float_class earlier + 1 := by omega
          rw [h2] at ih2
          simp only [hs2, hfl, Bool.false_eq_true, if_false, if_true, MAX_FREG_ARGS, hj, h1,
            store_freg_arg_eq _ _ _ hfl hj, run_mk_bind, ih2]
        · have h1 : min (List.countP float_class earlier) 8 = 8 := by omega
          have h2 : min (List.countP float_class earlier + 1) 8 = 8 := by omega
          rw [h2] at ih2
          rw [h1]
          simp only [hs2, hfl, Bool.false_eq_true, if_false, if_true, MAX_FREG_ARGS, hj,
            List.nil_append, Nat.lt_irrefl]
          exact ih2
      · have hfl2 : is_flonum v.type = false := by simpa using hfl
        have hi : int_class v = true := by simp [int_class, hs2, hfl2]
        have hf : float_class v = false := by simp [float_class, hfl2]
        simp only [hi, hf, if_true, Bool.false_eq_true, if_false, Nat.add_zero] at ih2
        obtain ⟨hkind, hsize⟩ := hok v (List.mem_cons_self _ _) hi
        have hloop : ∀ y : Run Unit,
            (match v.type with
              | .TY_FIXNUM _ => y
              | .TY_PTR _ => y
              | _ => fatal (.assert "false")) = y := by
          intro y
          cases hv : v.type <;> simp [hv, is_fixnum_or_ptr] at hkind ⊢
        by_cases hk : first + List.countP int_class earlier < 6
        · have h1 : min (first + List.countP int_class earlier) 6
              = first + List.countP int_class earlier := by omega
          have h2 : min (first + (List.countP int_class earlier + 1)) 6
              = first + List.countP int_class earlier + 1 := by omega
          rw [h2] at ih2
          rw [h1]
          simp only [hs2, hfl2, Bool.false_eq_true, if_false, MAX_REG_ARGS, hk, if_true]
          rw [hloop]
          simp only [store_reg_arg_eq _ _ _ hsize hk, run_mk_bind, ih2]
        · have h1 : min (first + List.countP int_class earlier) 6 = 6 := by omega
          have h2 : min (first + (List.countP int_class earlier + 1)) 6 = 6 := by omega
          rw [h2] at ih2
          rw [h1]
          simp only [hs2, hfl2, Bool.false_eq_true, if_false, MAX_REG_ARGS, hk,
            List.nil_append, Nat.lt_irrefl]
          rw [hloop]
          exact ih2

theorem param_stores_from_eq (tg : Target) (first : Nat) (rest : List VarInfo) :
    ∀ earlier : List VarInfo,
      param_stores_from tg first earlier rest
        = (List.range rest.length).flatMap (fun i =>
            match rest[i]? with
            | some v => param_store tg first (earlier ++ rest.take i) v
            | none => []) := by
  induction rest with
  | nil => intro earlier; rfl
  | cons v rest ih =>
    intro earlier
    simp only [param_stores_from, ih, List.length_cons, List.range_succ_eq_map,
      List.flatMap_cons, List.flatMap_map, List.getElem?_cons_zero, List.take_zero,
      List.append_nil, Nat.succ_eq_add_one, List.getElem?_cons_succ, List.take_succ_cons,
      List.append_assoc, List.singleton_append]

theorem param_stores_eq (tg : Target) (first : Nat) (params : List VarInfo) :
    param_stores_from tg first [] params = param_stores tg first params := by
  rw [param_stores_from_eq]
  simp only [param_stores, List.nil_append]

theorem next_param_eq (test : EmitType → Bool) (cls : VarInfo → Bool)
    (hcls : ∀ v, test v.type = cls v) (ps : List VarInfo) :
    (next_param test ps).1 = (ps.filter cls).head? ∧
      (next_param test ps).2.filter cls = (ps.filter cls).tail ∧
      ∀ v ∈ (next_param test ps).2, v ∈ ps := by
  induction ps with
  | nil => simp [next_param]
  | cons p rest ih =>
    by_cases h : test p.type = true
    · have h3 : cls p = true := by rw [← hcls]; exact h
      simp [next_param, h, h3]
      intro v hv; exact Or.inr hv
    · have h2 : test p.type = false := by simpa using h
      have h3 : ¬ cls p = true := by rw [← hcls]; exact h
      simp only [next_param, h2, Bool.false_eq_true, if_false, List.filter_cons_of_neg h3]
      refine ⟨ih.1, ih.2.1, fun v hv => List.mem_cons_of_mem _ (ih.2.2 v hv)⟩

theorem fixnum_or_ptr_match (type : EmitType) (y z : Run Unit) :
    is_fixnum_or_ptr type = true →
      (match type with
        | .TY_FIXNUM _ => y
        | .TY_PTR _ => y
        | _ => z) = y := by
  intro h
  cases type <;> simp [is_fixnum_or_ptr] at h ⊢

theorem vaargs_reg_loop_eq (tg : Target) (hptr : tg.type_size (.TY_PTR .TY_VOID) = 8)
    (n : Nat) :
    ∀ (i : Nat) (params : List VarInfo), i + n ≤ 6 → int_params_ok tg params →
      vaargs_reg_loop tg n i params
        = ⟨(List.range n).flatMap (fun r =>
            match (params.filter int_class)[r]? with
            | some v => int_store (tg.type_size v.type) (i + r) v.local_offset
            | none => int_store 8 (i + r) (reg_save_offset (i + r))), .ok ()⟩ := by
  induction n with
  | zero => intro i params _ _; rfl
  | succ n ih =>
    intro i params hi hok
    obtain ⟨h1, h2, h3⟩ :=
      next_param_eq (fun type => !is_stack_param type && !is_flonum type) int_class
        (fun _ => rfl) params
    have hadd : ∀ r, i + 1 + r = i + (r + 1) := by intro r; omega
    simp only [vaargs_reg_loop]
    rcases hnp : next_param (fun type => !is_stack_param type && !is_flonum type) params
      with ⟨o, rest⟩
    rw [hnp] at h1 h2 h3
    simp only at h1 h2 h3
    have hrest : int_params_ok tg rest := fun w hw => hok w (h3 w hw)
    have ih2 := ih (i + 1) rest (by omega) hrest
    rw [h2] at ih2
    simp only [List.getElem?_tail, hadd] at ih2
    simp only [List.range_succ_eq_map, List.flatMap_cons, List.flatMap_map,
      Nat.succ_eq_add_one, Nat.add_zero]
    rw [← List.head?_eq_getElem?, ← h1]
    cases o with
    | none =>
      simp only [hptr, store_reg_arg_eq 8 i _ (by decide) (by omega), run_mk_bind, ih2]
    | some v =>
      have hv : v ∈ params.filter int_class := List.mem_of_mem_head? h1.symm
      obtain ⟨hmem, hcls⟩ := List.mem_filter.1 hv
      obtain ⟨hkind, hsize⟩ := hok v hmem hcls
      simp only []
      rw [fixnum_or_ptr_match _ _ _ hkind]
      simp only [store_reg_arg_eq _ i _ hsize (by omega), run_mk_bind, ih2]

theorem float_class_flonum (v : VarInfo) (h : float_class v = true) :
    is_flonum v.type = true := by
  simp [float_class] at h
  exact h.2

theorem movsd_save_eq (i : Nat) (hi : i < 8) :
    (match kFReg64s.get? i with
      | some reg => MOVSD reg (OFFSET_INDIRECT (freg_save_offset i) RBP)
      | none => fatal (.undefined "kFReg64s[i]"))
      = ⟨float_store (.TY_FLONUM .FL_DOUBLE) i (freg_save_offset i), .ok ()⟩ := by
  interval_cases i <;> rfl

theorem vaargs_freg_loop_eq (n : Nat) :
    ∀ (i : Nat) (params : List VarInfo), i + n ≤ 8 →
      vaargs_freg_loop n i params
        = ⟨(List.range n).flatMap (fun r =>
            match (params.filter float_class)[r]? with
            | some v => float_store v.type (i + r) v.local_offset
            | none => float_store (.TY_FLONUM .FL_DOUBLE) (i + r) (freg_save_offset (i + r))),
            .ok ()⟩ := by
  induction n with
  | zero => intro i params _; rfl
  | succ n ih =>
    intro i params hi
    obtain ⟨h1, h2, _⟩ :=
      next_param_eq (fun type => !is_stack_param type && is_flonum type) float_class
        (fun _ => rfl) params
    have hadd : ∀ r, i + 1 + r = i + (r + 1) := by intro r; omega
    simp only [vaargs_freg_loop]
    rcases hnp : next_param (fun type => !is_stack_param type && is_flonum type) params
      with ⟨o, rest⟩
    rw [hnp] at h1 h2
    simp only at h1 h2
    have ih2 := ih (i + 1) rest (by omega)
    rw [h2] at ih2
    simp only [List.getElem?_tail, hadd] at ih2
    simp only [List.range_succ_eq_map, List.flatMap_cons, List.flatMap_map,
      Nat.succ_eq_add_one, Nat.add_zero]
    rw [← List.head?_eq_getElem?, ← h1]
    cases o with
    | none =>
      simp only [movsd_save_eq i (by omega), run_mk_bind, ih2]
    | some v =>
      have hv : v ∈ params.filter float_class := List.mem_of_mem_head? h1.symm
      have hfl := float_class_flonum v (List.mem_filter.1 hv).2
      simp only [store_freg_arg_eq _ i _ hfl (by omega), run_mk_bind, ih2]

theorem put_params_fixed (tg : Target) (type : FuncType) (first : Nat) (hfirst : first ≤ 6)
    (hva : type.vaargs = false) (hok : int_params_ok tg (type.params.getD [])) :
    put_params tg type first = ⟨param_stores tg first (type.params.getD []), .ok ()⟩ := by
  cases hp : type.params with
  | none => simp only [put_params, hp]; rfl
  | some params =>
    rw [hp] at hok
    have h := put_params_loop_eq tg first params [] hok
    simp only [List.countP_nil, Nat.add_zero, Nat.zero_min, min_eq_left hfirst] at h
    simp only [put_params, hp, hva, Bool.not_false, if_true, Option.getD_some,
      ← param_stores_eq]
    exact h

theorem put_params_vaargs (tg : Target) (type : FuncType) (first : Nat) (hfirst : first ≤ 6)
    (params : List VarInfo) (hparams : type.params = some params)
    (hptr : tg.type_size (.TY_PTR .TY_VOID) = 8)
    (hva : type.vaargs = true) (hok : int_params_ok tg params) :
    put_params tg type first
      = ⟨vaargs_reg_stores tg first params ++ vaargs_freg_stores params, .ok ()⟩ := by
  have h1 := vaargs_reg_loop_eq tg hptr (6 - first) first params (by omega) hok
  have h2 := vaargs_freg_loop_eq 8 0 params (by omega)
  simp only [Nat.zero_add] at h2
  simp only [put_params, hparams, hva, Bool.not_true, Bool.false_eq_true, if_false,
    MAX_REG_ARGS, MAX_FREG_ARGS, h1, h2, run_mk_bind]
  rfl

/-- Witness for C16: in `int v; int *p = &v;` on the Darwin target the data of `p` is
`.quad _v`, and `_v` is the label under which `v` is defined; for a static local `n` with
synthesized global `n.0`, the data of `static int *q = &n;` is `.quad n.0`, and `n.0` is
the label under which the synthesized global is defined. -/
theorem reference_symbol_is_label_witness :
    scalar_directive (.TY_PTR (.TY_FIXNUM .FX_INT)) = some ".quad"
    ∧ eval_initial_value example_ref_v none 0
        = .ok (some (.EX_VAR (.TY_FIXNUM .FX_INT) "v" example_global_scope), 0)
    ∧ scope_find example_global_scope "v" = some (example_global_v, example_global_scope)
    ∧ construct_initial_value darwin_lp64 (.TY_PTR (.TY_FIXNUM .FX_INT))
        (some (.IK_SINGLE example_ref_v)) = ⟨[.EMIT_ASM ".quad" ["_v"]], .ok ()⟩
    ∧ (∀ label, Asm.EMIT_LABEL label
        ∈ (emit_varinfo darwin_lp64 example_global_v
            (some (.IK_SINGLE (.EX_FIXNUM (.TY_FIXNUM .FX_INT) 1)))).out ↔ label = "_v")
    ∧ eval_initial_value example_ref_n none 0
        = .ok (some (.EX_VAR (.TY_FIXNUM .FX_INT) "n" example_local_scope), 0)
    ∧ scope_find example_local_scope "n" = some (example_static_local, example_local_scope)
    ∧ construct_initial_value darwin_lp64 (.TY_PTR (.TY_FIXNUM .FX_INT))
        (some (.IK_SINGLE example_ref_n)) = ⟨[.EMIT_ASM ".quad" ["n.0"]], .ok ()⟩
    ∧ (∀ label, Asm.EMIT_LABEL label
        ∈ (emit_varinfo darwin_lp64 example_static_gvar
            (some (.IK_SINGLE (.EX_FIXNUM (.TY_FIXNUM .FX_INT) 1)))).out ↔ label = "n.0") :=
  ⟨rfl, rfl, rfl,
   (reference_symbol_is_label darwin_lp64 (.TY_PTR (.TY_FIXNUM .FX_INT)) ".quad"
      example_ref_v (.TY_FIXNUM .FX_INT) "v" example_global_scope 0 example_global_v
      example_global_scope rfl rfl rfl).1 rfl,
   ((reference_symbol_is_label darwin_lp64 (.TY_PTR (.TY_FIXNUM .FX_INT)) ".quad"
      example_ref_v (.TY_FIXNUM .FX_INT) "v" example_global_scope 0 example_global_v
      example_global_scope rfl rfl rfl).2.2.1
      example_global_v (.IK_SINGLE (.EX_FIXNUM (.TY_FIXNUM .FX_INT) 1))).1,
   rfl, rfl,
   (reference_symbol_is_label darwin_lp64 (.TY_PTR (.TY_FIXNUM .FX_INT)) ".quad"
      example_ref_n (.TY_FIXNUM .FX_INT) "n" example_local_scope 0 example_static_local
      example_local_scope rfl rfl rfl).2.1 example_static_gvar rfl rfl rfl,
   ((reference_symbol_is_label darwin_lp64 (.TY_PTR (.TY_FIXNUM .FX_INT)) ".quad"
      example_ref_n (.TY_FIXNUM .FX_INT) "n" example_local_scope 0 example_static_local
      example_local_scope rfl rfl rfl).2.2.1
      example_static_gvar (.IK_SINGLE (.EX_FIXNUM (.TY_FIXNUM .FX_INT) 1))).1⟩

theorem put_args_to_stack_no_hidden (tg : Target) (func : Function)
    (hret : is_stack_param func.type.ret = false) :
    put_args_to_stack tg func = put_params tg func.type 0 := by
  simp only [put_args_to_stack, hret, Bool.false_eq_true, if_false]
  rfl

theorem put_args_to_stack_hidden (tg : Target) (func : Function) (top_scope : Scope)
    (scopes : List Scope) (retvar : VarInfo) (sc : Scope)
    (hret : is_stack_param func.type.ret = true)
    (hscopes : func.scopes = some (top_scope :: scopes))
    (hfind : scope_find top_scope tg.RET_VAR_NAME = some (retvar, sc))
    (hsize : tg.type_size retvar.type = 8) :
    put_args_to_stack tg func
      = ⟨.EMIT_ASM "mov" [RDI, OFFSET_INDIRECT retvar.local_offset RBP]
          :: (put_params tg func.type 1).out, (put_params tg func.type 1).res⟩ := by
  simp only [put_args_to_stack, hret, if_true, hscopes, find_ret_var, hfind, Option.map,
    hsize, store_reg_arg_eq 8 0 _ (by decide) (by decide)]
  rfl

/-- C17: for a function that is not variadic and has no hidden return pointer, whose
parameters of the integer class have integer or pointer type of 1, 2, 4 or 8 bytes,
`put_args_to_stack` succeeds and writes, for each parameter in declaration order, its
store: the `k`-th parameter of the integer class (counting the parameters before it that
are neither stack-passed aggregates nor floating-point) is stored from the `k`-th of
RDI, RSI, RDX, RCX, R8, R9 under the name for its size exactly when `k < 6`; the `j`-th
floating-point parameter is stored from `XMM j`, by `movss` for `float` and `movsd` for
`double`, exactly when `j < 8`; a stack-passed aggregate has no store. The register names
for 8, 4, 2 and 1 bytes and the eight XMM names are the ones written out in the last two
parts, and the stores on the right are the ones the code emits from its own register
tables. -/
theorem put_args_to_stack_registers (tg : Target) (func : Function)
    (hret : is_stack_param func.type.ret = false)
    (hva : func.type.vaargs = false)
    (hok : int_params_ok tg (func.type.params.getD [])) :
    put_args_to_stack tg func = ⟨param_stores tg 0 (func.type.params.getD []), .ok ()⟩
    ∧ (∀ (earlier : List VarInfo) (v : VarInfo), int_class v = true →
        param_store tg 0 earlier v
          = if earlier.countP int_class < 6 then
              int_store (tg.type_size v.type) (earlier.countP int_class) v.local_offset
            else [])
    ∧ (∀ (earlier : List VarInfo) (v : VarInfo), float_class v = true →
        param_store tg 0 earlier v
          = if earlier.countP float_class < 8 then
              float_store v.type (earlier.countP float_class) v.local_offset
            else [])
    ∧ (∀ (earlier : List VarInfo) (v : VarInfo), is_stack_param v.type = true →
        param_store tg 0 earlier v = [])
    ∧ (∀ offset : Int,
        (List.range 6).map (fun k => int_store 8 k offset)
          = ["%rdi", "%rsi", "%rdx", "%rcx", "%r8", "%r9"].map
              (fun reg => [Asm.EMIT_ASM "mov" [reg, OFFSET_INDIRECT offset "%rbp"]])
        ∧ (List.range 6).map (fun k => int_store 4 k offset)
          = ["%edi", "%esi", "%edx", "%ecx", "%r8d", "%r9d"].map
              (fun reg => [Asm.EMIT_ASM "mov" [reg, OFFSET_INDIRECT offset "%rbp"]])
        ∧ (List.range 6).map (fun k => int_store 2 k offset)
          = ["%di", "%si", "%dx", "%cx", "%r8w", "%r9w"].map
              (fun reg => [Asm.EMIT_ASM "mov" [reg, OFFSET_INDIRECT offset "%rbp"]])
        ∧ (List.range 6).map (fun k => int_store 1 k offset)
          = ["%dil", "%sil", "%dl", "%cl", "%r8b", "%r9b"].map
              (fun reg => [Asm.EMIT_ASM "mov" [reg, OFFSET_INDIRECT offset "%rbp"]]))
    ∧ (∀ offset : Int,
        (List.range 8).map (fun j => float_store (.TY_FLONUM .FL_DOUBLE) j offset)
          = ["%xmm0", "%xmm1", "%xmm2", "%xmm3", "%xmm4", "%xmm5", "%xmm6", "%xmm7"].map
              (fun reg => [Asm.EMIT_ASM "movsd" [reg, OFFSET_INDIRECT offset "%rbp"]])
        ∧ (List.range 8).map (fun j => float_store (.TY_FLONUM .FL_FLOAT) j offset)
          = ["%xmm0", "%xmm1", "%xmm2", "%xmm3", "%xmm4", "%xmm5", "%xmm6", "%xmm7"].map
              (fun reg => [Asm.EMIT_ASM "movss" [reg, OFFSET_INDIRECT offset "%rbp"]])) := by
  refine ⟨?_, ?_, ?_, ?_, fun _ => ⟨rfl, rfl, rfl, rfl⟩, fun _ => ⟨rfl, rfl⟩⟩
  · rw [put_args_to_stack_no_hidden tg func hret]
    exact put_params_fixed tg func.type 0 (by decide) hva hok
  · intro earlier v h
    simp only [int_class, Bool.and_eq_true, Bool.not_eq_true', Bool.not_eq_eq_eq_not,
      Bool.not_true] at h
    simp only [param_store, h.1, h.2, Bool.false_eq_true, if_false, Nat.zero_add]
  · intro earlier v h
    simp only [float_class, Bool.and_eq_true, Bool.not_eq_true', Bool.not_eq_eq_eq_not,
      Bool.not_true] at h
    simp only [param_store, h.1, h.2, Bool.false_eq_true, if_false, if_true]
  · intro earlier v h
    simp only [param_store, h, if_true]

theorem example_params_ok : int_params_ok sysv_lp64 example_params := by
  intro v hv
  simp only [example_params, List.mem_cons, List.mem_singleton, List.not_mem_nil,
    or_false] at hv
  rcases hv with h | h | h | h | h | h <;> subst h <;> decide

/-- Witness for C17: the parameters of
`void f(int a, double d, char c, struct S s, long *p, float x)` are stored from `%edi`,
`%xmm0`, `%sil`, `%rdx` and `%xmm1`; the struct has no store. -/
theorem put_args_to_stack_registers_witness :
    is_stack_param example_func.type.ret = false
    ∧ example_func.type.vaargs = false
    ∧ int_params_ok sysv_lp64 (example_func.type.params.getD [])
    ∧ put_args_to_stack sysv_lp64 example_func
      = ⟨[.EMIT_ASM "mov" ["%edi", "-4(%rbp)"],
          .EMIT_ASM "movsd" ["%xmm0", "-16(%rbp)"],
          .EMIT_ASM "mov" ["%sil", "-17(%rbp)"],
          .EMIT_ASM "mov" ["%rdx", "-32(%rbp)"],
          .EMIT_ASM "movss" ["%xmm1", "-36(%rbp)"]], .ok ()⟩ :=
  ⟨rfl, rfl, example_params_ok,
   (put_args_to_stack_registers sysv_lp64 example_func rfl rfl example_params_ok).1⟩

/-- C18: for a function whose return type is a stack-passed aggregate, with the reserved
return-value variable found from the top scope and 8 bytes wide, `put_args_to_stack`
first stores the 64-bit register RDI into the frame slot of that variable and then treats
the parameters with the register index starting at 1. When the function is not variadic
the `k`-th parameter of the integer class is stored from register `k + 1` (RSI onward)
exactly when `k < 5`; when it is variadic the five registers RSI, RDX, RCX, R8, R9 are
stored, register `r + 1` to the slot of the `r`-th parameter of the integer class when
there is one. -/
theorem put_args_to_stack_hidden_pointer (tg : Target) (func : Function) (top_scope : Scope)
    (scopes : List Scope) (retvar : VarInfo) (sc : Scope)
    (hret : is_stack_param func.type.ret = true)
    (hscopes : func.scopes = some (top_scope :: scopes))
    (hfind : scope_find top_scope tg.RET_VAR_NAME = some (retvar, sc))
    (hsize : tg.type_size retvar.type = 8)
    (hptr : tg.type_size (.TY_PTR .TY_VOID) = 8)
    (hok : int_params_ok tg (func.type.params.getD [])) :
    put_args_to_stack tg func
      = ⟨.EMIT_ASM "mov" [RDI, OFFSET_INDIRECT retvar.local_offset RBP]
          :: (if func.type.vaargs then
                match func.type.params with
                | some params => vaargs_reg_stores tg 1 params ++ vaargs_freg_stores params
                | none => []
              else param_stores tg 1 (func.type.params.getD [])), .ok ()⟩
    ∧ (∀ (earlier : List VarInfo) (v : VarInfo), int_class v = true →
        param_store tg 1 earlier v
          = if earlier.countP int_class < 5 then
              int_store (tg.type_size v.type) (earlier.countP int_class + 1) v.local_offset
            else [])
    ∧ (∀ params : List VarInfo,
        vaargs_reg_stores tg 1 params
          = (List.range 5).flatMap (fun r =>
              match (params.filter int_class)[r]? with
              | some v => int_store (tg.type_size v.type) (r + 1) v.local_offset
              | none => int_store 8 (r + 1) (reg_save_offset (r + 1))))
    ∧ (∀ offset : Int,
        [int_store 8 1 offset, int_store 8 2 offset, int_store 8 3 offset,
          int_store 8 4 offset, int_store 8 5 offset]
          = [RSI, RDX, RCX, R8, R9].map
              (fun reg => [Asm.EMIT_ASM "mov" [reg, OFFSET_INDIRECT offset RBP]])) := by
  refine ⟨?_, ?_, ?_, fun _ => rfl⟩
  · rw [put_args_to_stack_hidden tg func top_scope scopes retvar sc hret hscopes hfind hsize]
    cases hva : func.type.vaargs with
    | false =>
      rw [put_params_fixed tg func.type 1 (by decide) hva hok]
      simp only [Bool.false_eq_true, if_false]
    | true =>
      cases hp : func.type.params with
      | none =>
        simp only [put_params, hp, if_true]
        rfl
      | some params =>
        rw [hp] at hok
        rw [put_params_vaargs tg func.type 1 (by decide) params hp hptr hva hok]
        simp only [if_true]
  · intro earlier v h
    simp only [int_class, Bool.and_eq_true, Bool.not_eq_true', Bool.not_eq_eq_eq_not,
      Bool.not_true] at h
    have h5 : (earlier.countP int_class + 1 < 6) = (earlier.countP int_class < 5) := by
      apply propext; omega
    simp only [param_store, h.1, h.2, Bool.false_eq_true, if_false,
      Nat.add_comm 1 (earlier.countP int_class), h5]
  · intro params
    simp only [vaargs_reg_stores, Nat.add_comm 1]

/-- Witness for C18: `struct S g(int a)` stores `%rdi` to the slot of the reserved
variable and `a` from `%esi`; the variadic `struct S g(int a, ...)` then saves `%rdx`
to `%r9` and `%xmm0` to `%xmm7`. -/
theorem put_args_to_stack_hidden_pointer_witness :
    is_stack_param (example_struct_func false).type.ret = true
    ∧ scope_find (.mk none (some [example_ret_var, example_param_a])) sysv_lp64.RET_VAR_NAME
        = some (example_ret_var, .mk none (some [example_ret_var, example_param_a]))
    ∧ put_args_to_stack sysv_lp64 (example_struct_func false)
      = ⟨[.EMIT_ASM "mov" ["%rdi", "-8(%rbp)"], .EMIT_ASM "mov" ["%esi", "-12(%rbp)"]],
          .ok ()⟩
    ∧ (put_args_to_stack sysv_lp64 (example_struct_func true)).out.take 3
      = [.EMIT_ASM "mov" ["%rdi", "-8(%rbp)"], .EMIT_ASM "mov" ["%esi", "-12(%rbp)"],
          .EMIT_ASM "mov" ["%rdx", "-96(%rbp)"]] :=
  ⟨rfl, rfl,
   (put_args_to_stack_hidden_pointer sysv_lp64 (example_struct_func false)
      (.mk none (some [example_ret_var, example_param_a])) [] example_ret_var
      (.mk none (some [example_ret_var, example_param_a])) rfl rfl rfl rfl rfl
      (by intro v hv
          simp only [example_struct_func, Option.getD_some, List.mem_singleton] at hv
          subst hv; decide)).1,
   congrArg (fun r => r.out.take 3)
     (put_args_to_stack_hidden_pointer sysv_lp64 (example_struct_func true)
        (.mk none (some [example_ret_var, example_param_a])) [] example_ret_var
        (.mk none (some [example_ret_var, example_param_a])) rfl rfl rfl rfl rfl
        (by intro v hv
            simp only [example_struct_func, Option.getD_some, List.mem_singleton] at hv
            subst hv; decide)).1⟩

/-- C19, as the code has it: for a variadic function with a parameter list,
`put_args_to_stack` stores each integer register from the first one that is not taken by
a hidden return pointer, and each of XMM0 to XMM7, either to the slot of the named
parameter bound to it or to its slot of the register save area. Without a hidden return
pointer the integer registers are RDI to R9; with one, RDI is stored to the slot of the
reserved return-value variable and the registers are RSI to R9, so RDI has no store to
the save area. The save area has six 8-byte integer slots, RDI at offset -112 from the
frame pointer up to R9 at -72, immediately followed by eight 8-byte floating-point slots
written by `movsd`, XMM0 at -64 up to XMM7 at -8; each slot ends where the next begins and
the last ends at the frame pointer, so the area has 112 bytes. -/
theorem put_args_to_stack_save_area (tg : Target) (func : Function) (params : List VarInfo)
    (hva : func.type.vaargs = true)
    (hparams : func.type.params = some params)
    (hptr : tg.type_size (.TY_PTR .TY_VOID) = 8)
    (hok : int_params_ok tg params) :
    (is_stack_param func.type.ret = false →
      put_args_to_stack tg func
        = ⟨vaargs_reg_stores tg 0 params ++ vaargs_freg_stores params, .ok ()⟩)
    ∧ (∀ (top_scope : Scope) (scopes : List Scope) (retvar : VarInfo) (sc : Scope),
        is_stack_param func.type.ret = true →
        func.scopes = some (top_scope :: scopes) →
        scope_find top_scope tg.RET_VAR_NAME = some (retvar, sc) →
        tg.type_size retvar.type = 8 →
        put_args_to_stack tg func
          = ⟨.EMIT_ASM "mov" ["%rdi", OFFSET_INDIRECT retvar.local_offset "%rbp"]
              :: (vaargs_reg_stores tg 1 params ++ vaargs_freg_stores params), .ok ()⟩)
    ∧ (∀ first : Nat,
        vaargs_reg_stores tg first params
          = (List.range (6 - first)).flatMap (fun r =>
              match (params.filter int_class)[r]? with
              | some v => int_store (tg.type_size v.type) (first + r) v.local_offset
              | none => int_store 8 (first + r) (reg_save_offset (first + r))))
    ∧ vaargs_freg_stores params
        = (List.range 8).flatMap (fun j =>
            match (params.filter float_class)[j]? with
            | some v => float_store v.type j v.local_offset
            | none => float_store (.TY_FLONUM .FL_DOUBLE) j (freg_save_offset j))
    ∧ (List.range 6).map (fun i => int_store 8 i (reg_save_offset i))
        = [[.EMIT_ASM "mov" ["%rdi", "-112(%rbp)"]], [.EMIT_ASM "mov" ["%rsi", "-104(%rbp)"]],
           [.EMIT_ASM "mov" ["%rdx", "-96(%rbp)"]], [.EMIT_ASM "mov" ["%rcx", "-88(%rbp)"]],
           [.EMIT_ASM "mov" ["%r8", "-80(%rbp)"]], [.EMIT_ASM "mov" ["%r9", "-72(%rbp)"]]]
    ∧ (List.range 8).map (fun j => float_store (.TY_FLONUM .FL_DOUBLE) j (freg_save_offset j))
        = [[.EMIT_ASM "movsd" ["%xmm0", "-64(%rbp)"]], [.EMIT_ASM "movsd" ["%xmm1", "-56(%rbp)"]],
           [.EMIT_ASM "movsd" ["%xmm2", "-48(%rbp)"]], [.EMIT_ASM "movsd" ["%xmm3", "-40(%rbp)"]],
           [.EMIT_ASM "movsd" ["%xmm4", "-32(%rbp)"]], [.EMIT_ASM "movsd" ["%xmm5", "-24(%rbp)"]],
           [.EMIT_ASM "movsd" ["%xmm6", "-16(%rbp)"]], [.EMIT_ASM "movsd" ["%xmm7", "-8(%rbp)"]]]
    ∧ (∀ reg ∈ ["%rdi", "%rsi", "%rdx", "%rcx", "%r8", "%r9"], store_width "mov" reg = 8)
    ∧ (∀ reg : String, store_width "movsd" reg = 8)
    ∧ (∀ i : Nat, reg_save_offset i = 8 * (i : Int) - 112)
    ∧ (∀ j : Nat, freg_save_offset j = 8 * (j : Int) - 64)
    ∧ (∀ i : Nat, reg_save_offset (i + 1) = reg_save_offset i + 8)
    ∧ reg_save_offset 5 + 8 = freg_save_offset 0
    ∧ (∀ j : Nat, freg_save_offset (j + 1) = freg_save_offset j + 8)
    ∧ freg_save_offset 7 + 8 = 0
    ∧ reg_save_offset 0 = -112 := by
  refine ⟨?_, ?_, fun _ => rfl, rfl, rfl, rfl, by decide, fun _ => rfl, ?_, ?_, ?_,
    by decide, ?_, by decide, by decide⟩
  · intro hret
    rw [put_args_to_stack_no_hidden tg func hret]
    exact put_params_vaargs tg func.type 0 (by decide) params hparams hptr hva hok
  · intro top_scope scopes retvar sc hret hscopes hfind hsize
    rw [put_args_to_stack_hidden tg func top_scope scopes retvar sc hret hscopes hfind hsize,
      put_params_vaargs tg func.type 1 (by decide) params hparams hptr hva hok]
    rfl
  · intro i
    simp only [reg_save_offset, MAX_REG_ARGS, MAX_FREG_ARGS, WORD_SIZE]
    push_cast
    ring
  · intro j
    simp only [freg_save_offset, MAX_FREG_ARGS, WORD_SIZE]
    push_cast
    ring
  · intro i
    simp only [reg_save_offset, MAX_REG_ARGS, MAX_FREG_ARGS, WORD_SIZE]
    push_cast
    ring
  · intro j
    simp only [freg_save_offset, MAX_FREG_ARGS, WORD_SIZE]
    push_cast
    ring

/-- Witness for C19: the stores of `int h(char *fmt, ...)`, where RDI is bound to `fmt`
and the other registers go to the save area, and of `struct S g(int a, ...)`, where RDI
holds the hidden return pointer, RSI is bound to `a`, and nothing is stored at -112,
the save slot of RDI. -/
theorem put_args_to_stack_save_area_witness :
    example_vaargs_func.type.vaargs = true
    ∧ sysv_lp64.type_size (.TY_PTR .TY_VOID) = 8
    ∧ is_stack_param example_vaargs_func.type.ret = false
    ∧ put_args_to_stack sysv_lp64 example_vaargs_func
      = ⟨[.EMIT_ASM "mov" ["%rdi", "-112(%rbp)"],
          .EMIT_ASM "mov" ["%rsi", "-104(%rbp)"],
          .EMIT_ASM "mov" ["%rdx", "-96(%rbp)"],
          .EMIT_ASM "mov" ["%rcx", "-88(%rbp)"],
          .EMIT_ASM "mov" ["%r8", "-80(%rbp)"],
          .EMIT_ASM "mov" ["%r9", "-72(%rbp)"],
          .EMIT_ASM "movsd" ["%xmm0", "-64(%rbp)"],
          .EMIT_ASM "movsd" ["%xmm1", "-56(%rbp)"],
          .EMIT_ASM "movsd" ["%xmm2", "-48(%rbp)"],
          .EMIT_ASM "movsd" ["%xmm3", "-40(%rbp)"],
          .EMIT_ASM "movsd" ["%xmm4", "-32(%rbp)"],
          .EMIT_ASM "movsd" ["%xmm5", "-24(%rbp)"],
          .EMIT_ASM "movsd" ["%xmm6", "-16(%rbp)"],
          .EMIT_ASM "movsd" ["%xmm7", "-8(%rbp)"]], .ok ()⟩
    ∧ (example_struct_func true).type.vaargs = true
    ∧ is_stack_param (example_struct_func true).type.ret = true
    ∧ put_args_to_stack sysv_lp64 (example_struct_func true)
      = ⟨[.EMIT_ASM "mov" ["%rdi", "-8(%rbp)"],
          .EMIT_ASM "mov" ["%esi", "-12(%rbp)"],
          .EMIT_ASM "mov" ["%rdx", "-96(%rbp)"],
          .EMIT_ASM "mov" ["%rcx", "-88(%rbp)"],
          .EMIT_ASM "mov" ["%r8", "-80(%rbp)"],
          .EMIT_ASM "mov" ["%r9", "-72(%rbp)"],
          .EMIT_ASM "movsd" ["%xmm0", "-64(%rbp)"],
          .EMIT_ASM "movsd" ["%xmm1", "-56(%rbp)"],
          .EMIT_ASM "movsd" ["%xmm2", "-48(%rbp)"],
          .EMIT_ASM "movsd" ["%xmm3", "-40(%rbp)"],
          .EMIT_ASM "movsd" ["%xmm4", "-32(%rbp)"],
          .EMIT_ASM "movsd" ["%xmm5", "-24(%rbp)"],
          .EMIT_ASM "movsd" ["%xmm6", "-16(%rbp)"],
          .EMIT_ASM "movsd" ["%xmm7", "-8(%rbp)"]], .ok ()⟩ :=
  ⟨rfl, rfl, rfl,
   (put_args_to_stack_save_area sysv_lp64 example_vaargs_func [example_param_fmt] rfl rfl
      rfl
      (by intro v hv
          simp only [List.mem_singleton] at hv
          subst hv; decide)).1 rfl,
   rfl, rfl,
   (put_args_to_stack_save_area sysv_lp64 (example_struct_func true) [example_param_a] rfl
      rfl rfl
      (by intro v hv
          simp only [List.mem_singleton] at hv
          subst hv; decide)).2.1
      (.mk none (some [example_ret_var, example_param_a])) [] example_ret_var
      (.mk none (some [example_ret_var, example_param_a])) rfl rfl rfl rfl⟩

/-- Counterexample for C19: in `int h(char *fmt, ...)` the registers XMM0 and XMM1 are
saved by `movsd`, which writes 8 bytes, at the offsets -64 and -56, which are 8 bytes
apart: slots of 16 bytes at these offsets would overlap, the floating-point part of the
save area has 64 bytes and not 128, and the whole area has 112 bytes and not 176. -/
theorem put_args_to_stack_save_area_counterexample :
    (put_args_to_stack sysv_lp64 example_vaargs_func).out.drop 6
      = [.EMIT_ASM "movsd" ["%xmm0", "-64(%rbp)"],
         .EMIT_ASM "movsd" ["%xmm1", "-56(%rbp)"],
         .EMIT_ASM "movsd" ["%xmm2", "-48(%rbp)"],
         .EMIT_ASM "movsd" ["%xmm3", "-40(%rbp)"],
         .EMIT_ASM "movsd" ["%xmm4", "-32(%rbp)"],
         .EMIT_ASM "movsd" ["%xmm5", "-24(%rbp)"],
         .EMIT_ASM "movsd" ["%xmm6", "-16(%rbp)"],
         .EMIT_ASM "movsd" ["%xmm7", "-8(%rbp)"]]
    ∧ store_width "movsd" XMM0 = 8
    ∧ freg_save_offset 0 = -64
    ∧ freg_save_offset 1 = -56
    ∧ ¬ (freg_save_offset 0 + 16 ≤ freg_save_offset 1)
    ∧ ¬ (0 - freg_save_offset 0 = 128)
    ∧ ¬ (0 - reg_save_offset 0 = 48 + 128) := by
  refine ⟨rfl, rfl, by decide, by decide, by decide, by decide, by decide⟩

/-! ### `emit_defun` -/

theorem run_mk_bind_val {α β : Type} (o : List Asm) (a : α) (f : α → Run β) :
    ((⟨o, .ok a⟩ : Run α) >>= f) = ⟨o ++ (f a).out, (f a).res⟩ := by
  rfl

theorem run_eq_of_res {α : Type} (x : Run α) (a : α) (h : x.res = .ok a) :
    x = ⟨x.out, .ok a⟩ := by
  cases x
  simp only at h
  rw [h]

theorem no_stmt_loop_false (stmts : List (Option Stmt)) (stmt : Stmt)
    (hmem : some stmt ∈ stmts) (hasm : is_asm stmt = false) :
    no_stmt_loop stmts = false := by
  induction stmts with
  | nil => cases hmem
  | cons s rest ih =>
    cases s with
    | none =>
      simp only [no_stmt_loop]
      rcases List.mem_cons.1 hmem with h | h
      · cases h
      · exact ih h
    | some t =>
      simp only [no_stmt_loop]
      by_cases ht : is_asm t = true
      · rcases List.mem_cons.1 hmem with h | h
        · injection h with h
          subst h
          rw [hasm] at ht
          cases ht
        · simp only [ht, Bool.not_true, Bool.false_eq_true, if_false]
          exact ih h
      · have ht2 : is_asm t = false := by simpa using ht
        simp only [ht2, Bool.not_false, if_true]

theorem emit_defun_label_res (tg : Target) (global_scope : Scope) (func : Function) :
    (emit_defun_label tg global_scope func).res = .ok () := by
  unfold emit_defun_label
  simp only []
  split <;> rfl

theorem emit_prologue_eq (tg : Target) (be : Backend) (func : Function)
    (hframe : 0 ≤ func.ra.frame_size)
    (hargs : (put_args_to_stack tg func).res = .ok ()) :
    emit_prologue tg be func 8
      = ⟨[.EMIT_ASM "push" [RBP], .EMIT_ASM "mov" [RSP, RBP]]
          ++ (if func.ra.frame_size = 0 then []
              else [.EMIT_ASM "sub" [IM func.ra.frame_size, RSP]])
          ++ (put_args_to_stack tg func).out
          ++ (be.push_callee_save_regs func.ra.used_reg_bits (16 + func.ra.frame_size)).out,
         (be.push_callee_save_regs func.ra.used_reg_bits (16 + func.ra.frame_size)).res⟩ := by
  unfold emit_prologue
  rw [run_eq_of_res _ _ hargs]
  by_cases h0 : func.ra.frame_size = 0
  · have hn : ¬ func.ra.frame_size > 0 := by omega
    simp only [hn, h0, if_false, if_true]
    rfl
  · have hp : func.ra.frame_size > 0 := by omega
    have h16 : (8 : Int) + 8 + func.ra.frame_size = 16 + func.ra.frame_size := by ring
    simp only [hp, h0, if_false, if_true, PUSH, MOV, SUB, emit, run_mk_bind_val,
      run_mk_bind, run_pure_eq, h16]
    simp
    exact ⟨rfl, rfl⟩

theorem emit_epilogue_eq (be : Backend) (func : Function) (s : Int) (pop_out : List Asm)
    (hpop : be.pop_callee_save_regs func.ra.used_reg_bits s
      = ⟨pop_out, .ok (16 + func.ra.frame_size)⟩) :
    emit_epilogue be func s
      = ⟨pop_out ++ [.EMIT_ASM "mov" [RBP, RSP], .EMIT_ASM "pop" [RBP]], .ok 8⟩ := by
  have h8 : (16 : Int) + func.ra.frame_size - func.ra.frame_size - 8 = 8 := by ring
  unfold emit_epilogue
  rw [hpop]
  simp only [run_mk_bind_val, MOV, POP, emit, run_pure_eq, h8]
  simp
  exact ⟨rfl, rfl⟩

/-- C20: for a function definition with at least one statement that is not `asm` and
with `frame_size >= 0`, entered with `stackpos = 8`, when the argument stores and the
static-local definitions succeed, the callee-save pushes move `stackpos` from after the
frame allocation to `s`, the body leaves it at `s` and the callee-save pops bring it
back: `emit_defun` writes, after the header and the label, `push %rbp`, `mov %rsp, %rbp`,
`sub $frame_size, %rsp` (left out when `frame_size` is 0), the argument stores, the
callee-save pushes, the body, the callee-save pops, `mov %rbp, %rsp`, `pop %rbp`, `ret`
and the static locals, and it passes the exit assertion with `stackpos = 8`. -/
theorem emit_defun_stack_balanced (tg : Target) (be : Backend) (global_scope : Scope)
    (func : Function) (scopes : List Scope) (stmts : List (Option Stmt)) (stmt : Stmt)
    (push_out body_out pop_out : List Asm) (s : Int)
    (hscopes : func.scopes = some scopes)
    (hstmts : func.stmts = some stmts)
    (hmem : some stmt ∈ stmts)
    (hasm : is_asm stmt = false)
    (hframe : 0 ≤ func.ra.frame_size)
    (hargs : (put_args_to_stack tg func).res = .ok ())
    (hpush : be.push_callee_save_regs func.ra.used_reg_bits (16 + func.ra.frame_size)
      = ⟨push_out, .ok s⟩)
    (hbody : be.emit_bb_irs func.bbcon s = ⟨body_out, .ok s⟩)
    (hpop : be.pop_callee_save_regs func.ra.used_reg_bits s
      = ⟨pop_out, .ok (16 + func.ra.frame_size)⟩)
    (hstatics : (static_scopes_loop tg scopes).res = .ok ()) :
    emit_defun tg be global_scope func 8
      = ⟨[.emit_comment none, .EMIT_ASM ".text" []]
          ++ (emit_defun_label tg global_scope func).out
          ++ [.EMIT_ASM "push" [RBP], .EMIT_ASM "mov" [RSP, RBP]]
          ++ (if func.ra.frame_size = 0 then []
              else [.EMIT_ASM "sub" [IM func.ra.frame_size, RSP]])
          ++ (put_args_to_stack tg func).out
          ++ push_out
          ++ body_out
          ++ pop_out
          ++ [.EMIT_ASM "mov" [RBP, RSP], .EMIT_ASM "pop" [RBP], .EMIT_ASM "ret" []]
          ++ (static_scopes_loop tg scopes).out, .ok 8⟩ := by
  have hns : no_stmt func.stmts = false := by
    rw [hstmts]
    exact no_stmt_loop_false stmts stmt hmem hasm
  unfold emit_defun
  simp only [hscopes, hns, Bool.not_false, if_true]
  rw [emit_prologue_eq tg be func hframe hargs, hpush,
    run_eq_of_res _ _ (emit_defun_label_res tg global_scope func),
    run_eq_of_res _ _ hstatics]
  simp only [run_mk_bind_val, run_mk_bind, run_pure_eq, run_pure_bind, emit, _TEXT, RET,
    hbody, emit_epilogue_eq be func s pop_out hpop, if_true, List.append_assoc,
    List.cons_append, List.nil_append, List.append_nil]
  have hout : (pure 8 : Run Int).out = [] := rfl
  have hres : (pure 8 : Run Int).res = .ok 8 := rfl
  rw [hout, hres, List.append_nil]

/-- Witness for C20: `int main(void) { static int n; int x; return 0; }` with a frame of
16 bytes, one callee-saved register and a one-instruction body; with a frame of 0 bytes
the `sub` is left out. -/
theorem emit_defun_stack_balanced_witness :
    (example_main 16).scopes.isSome = true
    ∧ some Stmt.ST_OTHER ∈ [none, some (Stmt.ST_ASM "nop"), some Stmt.ST_OTHER]
    ∧ is_asm .ST_OTHER = false
    ∧ (0 : Int) ≤ (example_main 16).ra.frame_size
    ∧ emit_defun sysv_lp64 example_backend example_global_scope (example_main 16) 8
      = ⟨[.emit_comment none,
          .EMIT_ASM ".text" [],
          .EMIT_ASM ".globl" ["main"],
          .EMIT_LABEL "main",
          .EMIT_ASM "push" ["%rbp"],
          .EMIT_ASM "mov" ["%rsp", "%rbp"],
          .EMIT_ASM "sub" ["$16", "%rsp"],
          .EMIT_ASM "push" ["%rbx"],
          .EMIT_ASM "mov" ["$0", "%eax"],
          .EMIT_ASM "pop" ["%rbx"],
          .EMIT_ASM "mov" ["%rbp", "%rsp"],
          .EMIT_ASM "pop" ["%rbp"],
          .EMIT_ASM "ret" [],
          .EMIT_ASM ".comm" ["n.0", "4,4"]], .ok 8⟩
    ∧ emit_defun sysv_lp64 example_backend example_global_scope (example_main 0) 8
      = ⟨[.emit_comment none,
          .EMIT_ASM ".text" [],
          .EMIT_ASM ".globl" ["main"],
          .EMIT_LABEL "main",
          .EMIT_ASM "push" ["%rbp"],
          .EMIT_ASM "mov" ["%rsp", "%rbp"],
          .EMIT_ASM "push" ["%rbx"],
          .EMIT_ASM "mov" ["$0", "%eax"],
          .EMIT_ASM "pop" ["%rbx"],
          .EMIT_ASM "mov" ["%rbp", "%rsp"],
          .EMIT_ASM "pop" ["%rbp"],
          .EMIT_ASM "ret" [],
          .EMIT_ASM ".comm" ["n.0", "4,4"]], .ok 8⟩ :=
  ⟨rfl, by decide, rfl, by decide,
   emit_defun_stack_balanced sysv_lp64 example_backend example_global_scope (example_main 16)
     _ [none, some (.ST_ASM "nop"), some .ST_OTHER] .ST_OTHER
     [.EMIT_ASM "push" ["%rbx"]] [.EMIT_ASM "mov" ["$0", "%eax"]] [.EMIT_ASM "pop" ["%rbx"]]
     40 rfl rfl (by decide) rfl (by decide) rfl rfl rfl rfl rfl,
   emit_defun_stack_balanced sysv_lp64 example_backend example_global_scope (example_main 0)
     _ [none, some (.ST_ASM "nop"), some .ST_OTHER] .ST_OTHER
     [.EMIT_ASM "push" ["%rbx"]] [.EMIT_ASM "mov" ["$0", "%eax"]] [.EMIT_ASM "pop" ["%rbx"]]
     24 rfl rfl (by decide) rfl (by decide) rfl rfl rfl rfl rfl⟩

/-! ### Static locals of a function -/

theorem static_vars_loop_eq (tg : Target) (vars : List VarInfo) :
    static_vars_loop tg vars
      = Run.sequence ((vars.filter (fun varinfo => varinfo.storage.contains .VS_STATIC)).map
          (static_definition tg)) := by
  induction vars with
  | nil => rfl
  | cons v rest ih =>
    by_cases hs : v.storage.contains .VS_STATIC = true
    · simp only [List.filter_cons, hs, if_true, List.map_cons, run_sequence_cons]
      rw [← ih]
      simp only [static_vars_loop, hs, Bool.not_true, Bool.false_eq_true, if_false,
        static_definition]
      cases v.static_gvar with
      | none => rfl
      | some g => rfl
    · have hs2 : v.storage.contains .VS_STATIC = false := by simpa using hs
      simp only [List.filter_cons, hs2, Bool.false_eq_true, if_false]
      rw [← ih]
      simp only [static_vars_loop, hs2, Bool.not_false, if_true]

theorem static_scopes_loop_eq (tg : Target) (scopes : List Scope) :
    static_scopes_loop tg scopes
      = Run.sequence ((static_vars scopes).map (static_definition tg)) := by
  induction scopes with
  | nil => rfl
  | cons scope rest ih =>
    simp only [static_vars, List.flatMap_cons, List.map_append, run_sequence_append]
    simp only [static_vars] at ih
    rw [← ih]
    cases hv : scope.vars with
    | none =>
      simp only [static_scopes_loop, hv, Option.getD_none, List.filter_nil, List.map_nil,
        Run.sequence]
      exact (run_pure_bind () (fun _ => static_scopes_loop tg rest)).symm
    | some vars =>
      simp only [static_scopes_loop, hv, Option.getD_some, static_vars_loop_eq]

theorem emit_defun_eq_head (tg : Target) (be : Backend) (global_scope : Scope)
    (func : Function) (scopes : List Scope) (stackpos : Int)
    (hscopes : func.scopes = some scopes) :
    emit_defun tg be global_scope func stackpos
      = (emit_defun_head tg be global_scope func stackpos >>= fun sp => do
          RET
          static_scopes_loop tg scopes
          if sp = 8 then pure sp else fatal (.assert "stackpos == 8")) := by
  unfold emit_defun emit_defun_head
  simp only [hscopes]
  by_cases h8 : stackpos = 8
  · simp only [h8, if_true, run_bind_assoc]
  · simp only [h8, if_false, run_bind_assoc]

theorem run_bind_nil_out {α β : Type} (x : Run α) (f : α → Run β)
    (h : ∀ a, (f a).out = []) : (x >>= f).out = x.out := by
  show (Run.bind x f).out = x.out
  unfold Run.bind
  cases hx : x.res with
  | error e => rfl
  | ok a => simp only [h a, List.append_nil]

/-- C21: for a function definition whose statements before `RET()` succeed with output
`head_out`, `emit_defun` writes `head_out`, then `ret`, then the static locals and
nothing else: the static-local part is the sequence, over the variables with static
storage of the function's scopes in scope order and then declaration order, of one
`emit_varinfo` of the synthesized global with the initializer recorded in it (stopping
at the first that fails). A variable is in that sequence exactly when it has static
storage, once for each time it is declared. -/
theorem emit_defun_static_locals (tg : Target) (be : Backend) (global_scope : Scope)
    (func : Function) (scopes : List Scope) (stackpos : Int) (head_out : List Asm) (sp : Int)
    (hscopes : func.scopes = some scopes)
    (hhead : emit_defun_head tg be global_scope func stackpos = ⟨head_out, .ok sp⟩) :
    (emit_defun tg be global_scope func stackpos).out
      = head_out ++ [.EMIT_ASM "ret" []]
          ++ (Run.sequence ((static_vars scopes).map (static_definition tg))).out
    ∧ static_scopes_loop tg scopes
        = Run.sequence ((static_vars scopes).map (static_definition tg))
    ∧ (∀ (varinfo gvarinfo : VarInfo), varinfo.static_gvar = some gvarinfo →
        static_definition tg varinfo = emit_varinfo tg gvarinfo gvarinfo.global_init)
    ∧ static_vars scopes
        = scopes.flatMap (fun scope =>
            (scope.vars.getD []).filter (fun varinfo => varinfo.storage.contains .VS_STATIC))
    ∧ (∀ varinfo : VarInfo, varinfo ∈ static_vars scopes
        ↔ (∃ scope ∈ scopes, varinfo ∈ scope.vars.getD [])
            ∧ varinfo.storage.contains .VS_STATIC = true) := by
  refine ⟨?_, static_scopes_loop_eq tg scopes, ?_, rfl, ?_⟩
  · rw [emit_defun_eq_head tg be global_scope func scopes stackpos hscopes, hhead,
      static_scopes_loop_eq]
    simp only [run_mk_bind_val, RET, emit, run_mk_bind, List.append_assoc,
      List.singleton_append, List.cons_append, List.nil_append]
    rw [run_bind_nil_out]
    intro _
    by_cases h8 : sp = 8
    · simp only [h8, if_true]
      rfl
    · simp only [h8, if_false, fatal_out]
  · intro varinfo gvarinfo h
    simp only [static_definition, h]
  · intro varinfo
    simp only [static_vars, List.mem_flatMap, List.mem_filter]
    constructor
    · rintro ⟨scope, hs, hv, hst⟩
      exact ⟨⟨scope, hs, hv⟩, hst⟩
    · rintro ⟨⟨scope, hs, hv⟩, hst⟩
      exact ⟨scope, hs, hv, hst⟩

/-- Witness for C21: `int main(void) { static int n; int x; return 0; }`: after `ret`
comes the definition of the synthesized global `n.0` and nothing for `x`. -/
theorem emit_defun_static_locals_witness :
    (example_main 16).scopes = some [.mk none (some
      [.mk "n" (.TY_FIXNUM .FX_INT) [.VS_STATIC] none (some example_static_gvar) 0 [],
       .mk "x" (.TY_FIXNUM .FX_INT) [] none none (-4) []])]
    ∧ (emit_defun sysv_lp64 example_backend example_global_scope (example_main 16) 8).out
      = [.emit_comment none,
          .EMIT_ASM ".text" [],
          .EMIT_ASM ".globl" ["main"],
          .EMIT_LABEL "main",
          .EMIT_ASM "push" ["%rbp"],
          .EMIT_ASM "mov" ["%rsp", "%rbp"],
          .EMIT_ASM "sub" ["$16", "%rsp"],
          .EMIT_ASM "push" ["%rbx"],
          .EMIT_ASM "mov" ["$0", "%eax"],
          .EMIT_ASM "pop" ["%rbx"],
          .EMIT_ASM "mov" ["%rbp", "%rsp"],
          .EMIT_ASM "pop" ["%rbp"]]
        ++ [.EMIT_ASM "ret" []]
        ++ [.EMIT_ASM ".comm" ["n.0", "4,4"]] :=
  ⟨rfl,
   (emit_defun_static_locals sysv_lp64 example_backend example_global_scope (example_main 16)
      _ 8 [.emit_comment none,
          .EMIT_ASM ".text" [],
          .EMIT_ASM ".globl" ["main"],
          .EMIT_LABEL "main",
          .EMIT_ASM "push" ["%rbp"],
          .EMIT_ASM "mov" ["%rsp", "%rbp"],
          .EMIT_ASM "sub" ["$16", "%rsp"],
          .EMIT_ASM "push" ["%rbx"],
          .EMIT_ASM "mov" ["$0", "%eax"],
          .EMIT_ASM "pop" ["%rbx"],
          .EMIT_ASM "mov" ["%rbp", "%rsp"],
          .EMIT_ASM "pop" ["%rbp"]] 8 rfl rfl).1⟩

/-! ### `array_to_ptr` -/

/-- C23: for an array type and a non-null initializer that is not `IK_MULTI`,
`construct_initial_value` succeeds when the initializer is `IK_SINGLE`, the element type
is a char type and the expression under its casts is a string literal, writing one
`.ascii` line; in every other case it stops with the error "Illegal initializer" and
has written nothing. The initializer is one that the function accepts: it is not
`IK_DOT`, which the assertion at the head of `construct_initial_value` excludes and which
initializers in normal form do not contain. -/
theorem construct_initial_value_array_illegal (tg : Target) (elem_type : EmitType)
    (length : Int) (init : Initializer)
    (hmulti : ∀ multi, init ≠ .IK_MULTI multi)
    (hdot : ∀ name value, init ≠ .IK_DOT name value) :
    ((∃ single type buf, init = .IK_SINGLE single ∧ is_char_type elem_type = true
          ∧ strip_cast single = .EX_STR type buf) →
        ∃ text, construct_initial_value tg (.TY_ARRAY elem_type length) (some init)
          = ⟨[.EMIT_ASM ".ascii" [text]], .ok ()⟩)
    ∧ (¬ (∃ single type buf, init = .IK_SINGLE single ∧ is_char_type elem_type = true
          ∧ strip_cast single = .EX_STR type buf) →
        construct_initial_value tg (.TY_ARRAY elem_type length) (some init)
          = ⟨[], .error (.error "Illegal initializer")⟩) := by
  constructor
  · rintro ⟨single, type, buf, rfl, hchar, hstr⟩
    refine ⟨"\"" ++ tg.escape_string (buf.take
        (if buf.length > tg.type_size (.TY_ARRAY elem_type length) then
          tg.type_size (.TY_ARRAY elem_type length) else buf.length))
      ++ String.join (List.replicate (tg.type_size (.TY_ARRAY elem_type length)
        - (if buf.length > tg.type_size (.TY_ARRAY elem_type length) then
          tg.type_size (.TY_ARRAY elem_type length) else buf.length)) "\\0") ++ "\"", ?_⟩
    simp only [construct_initial_value, hchar, if_true, hstr]
    rfl
  · intro hnot
    rcases init with single | multi | ⟨name, value⟩ | ⟨index, value⟩
    · simp only [construct_initial_value]
      by_cases hchar : is_char_type elem_type = true
      · simp only [hchar, if_true]
        cases hstr : strip_cast single with
        | EX_STR type buf => exact absurd ⟨single, type, buf, rfl, hchar, hstr⟩ hnot
        | _ => rfl
      · simp only [hchar, if_false]
        rfl
    · exact absurd rfl (hmulti multi)
    · exact absurd rfl (hdot name value)
    · simp only [construct_initial_value]
      rfl

/-- Witness for C23: `char s[5] = "hi"` succeeds, `int a[2] = 5` is an illegal
initializer. -/
theorem construct_initial_value_array_illegal_witness :
    (∃ text, construct_initial_value sysv_lp64 (.TY_ARRAY (.TY_FIXNUM .FX_CHAR) 5)
        (some (.IK_SINGLE (.EX_STR (.TY_ARRAY (.TY_FIXNUM .FX_CHAR) 3) [104, 105, 0])))
      = ⟨[.EMIT_ASM ".ascii" [text]], .ok ()⟩)
    ∧ construct_initial_value sysv_lp64 (.TY_ARRAY (.TY_FIXNUM .FX_INT) 2)
        (some (.IK_SINGLE (.EX_FIXNUM (.TY_FIXNUM .FX_INT) 5)))
      = ⟨[], .error (.error "Illegal initializer")⟩ :=
  ⟨(construct_initial_value_array_illegal sysv_lp64 (.TY_FIXNUM .FX_CHAR) 5
      (.IK_SINGLE (.EX_STR (.TY_ARRAY (.TY_FIXNUM .FX_CHAR) 3) [104, 105, 0]))
      (fun _ h => by cases h) (fun _ _ h => by cases h)).1
      ⟨_, _, _, rfl, rfl, rfl⟩,
   (construct_initial_value_array_illegal sysv_lp64 (.TY_FIXNUM .FX_INT) 2
      (.IK_SINGLE (.EX_FIXNUM (.TY_FIXNUM .FX_INT) 5))
      (fun _ h => by cases h) (fun _ _ h => by cases h)).2
      (by rintro ⟨_, _, _, _, h, _⟩; cases h)⟩

/-- C24: for the type `float` or `double` and a non-null `IK_SINGLE` initializer,
`construct_initial_value` stops with the error
"Illegal initializer: constant number expected", having written nothing, exactly when
the expression is not a constant of floating-point type; a constant of integer type is
rejected. With a null initializer it writes one zero, `.long` for `float` and `.quad`
for `double`. -/
theorem construct_initial_value_flonum (tg : Target) (kind : FlonumKind) (value : Expr) :
    (construct_initial_value tg (.TY_FLONUM kind) (some (.IK_SINGLE value))
        = ⟨[], .error (.error "Illegal initializer: constant number expected")⟩
      ↔ ¬ (is_const value = true ∧ is_flonum value.type = true))
    ∧ (∀ (fixnum : Int) (fxkind : FixnumKind),
        construct_initial_value tg (.TY_FLONUM kind)
            (some (.IK_SINGLE (.EX_FIXNUM (.TY_FIXNUM fxkind) fixnum)))
          = ⟨[], .error (.error "Illegal initializer: constant number expected")⟩)
    ∧ construct_initial_value tg (.TY_FLONUM .FL_FLOAT) none
        = ⟨[.EMIT_ASM ".long" ["0x0"]], .ok ()⟩
    ∧ construct_initial_value tg (.TY_FLONUM .FL_DOUBLE) none
        = ⟨[.EMIT_ASM ".quad" ["0x0"]], .ok ()⟩ := by
  refine ⟨?_, ?_, rfl, rfl⟩
  · constructor
    · intro h hc
      have hb : (is_const value && is_flonum value.type) = true := by
        simp only [hc.1, hc.2, Bool.and_self]
      cases kind <;> cases value <;>
        simp [construct_initial_value, hb, fatal, _QUAD, _LONG, emit, is_const] at h hc
      all_goals (rw [h] at hc; exact Bool.noConfusion hc)
    · intro hnot
      have hb : (is_const value && is_flonum value.type) = false := by
        cases h1 : is_const value <;> cases h2 : is_flonum value.type <;>
          simp_all
      cases kind <;> simp only [construct_initial_value, hb, Bool.not_false, if_true] <;> rfl
  · intro fixnum fxkind
    cases kind <;> rfl

/-- A constant of type `float` is narrowed from `double` before its bit pattern is
printed: the data of `float x = 1.5` is `.long 0x3fc00000` and that of `float y = 0.1`
is `.long 0x3dcccccd`, while `double z = 1.5` keeps its 64 bits. -/
theorem construct_initial_value_float_example :
    construct_initial_value sysv_lp64 (.TY_FLONUM .FL_FLOAT)
        (some (.IK_SINGLE (.EX_FLONUM (.TY_FLONUM .FL_DOUBLE) 0x3ff8000000000000)))
      = ⟨[.EMIT_ASM ".long" ["0x3fc00000"]], .ok ()⟩
    ∧ construct_initial_value darwin_lp64 (.TY_FLONUM .FL_FLOAT)
        (some (.IK_SINGLE (.EX_FLONUM (.TY_FLONUM .FL_DOUBLE) 0x3fb999999999999a)))
      = ⟨[.EMIT_ASM ".long" ["0x3dcccccd"]], .ok ()⟩
    ∧ construct_initial_value sysv_lp64 (.TY_FLONUM .FL_DOUBLE)
        (some (.IK_SINGLE (.EX_FLONUM (.TY_FLONUM .FL_DOUBLE) 0x3ff8000000000000)))
      = ⟨[.EMIT_ASM ".quad" ["0x3ff8000000000000"]], .ok ()⟩ := by
  refine ⟨?_, ?_, ?_⟩ <;> rfl

/-! ## Theorems: `lib.c` -/

theorem strcmp_nil_nil : strcmp [] [] = 0 := rfl

theorem strcmp_nil_cons (d : Nat) (q : List Nat) : strcmp [] (d :: q) = -(d : Int) := by
  simp [strcmp, deref]

theorem strcmp_cons_nil (c : Nat) (p : List Nat) (hc : c ≠ 0) :
    strcmp (c :: p) [] = (c : Int) := by
  simp [strcmp, deref, hc]

theorem strcmp_cons_cons_eq (c : Nat) (p q : List Nat) (hc : c ≠ 0) :
    strcmp (c :: p) (c :: q) = strcmp p q := by
  simp [strcmp, deref, hc]

theorem strcmp_cons_cons_ne (c d : Nat) (p q : List Nat) (hcd : c ≠ d) :
    strcmp (c :: p) (d :: q) = (c : Int) - (d : Int) := by
  simp [strcmp, deref, hcd]

theorem strcmp_self (p : List Nat) (hp : ∀ c ∈ p, c ≠ 0) : strcmp p p = 0 := by
  induction p with
  | nil => rfl
  | cons c p ih =>
    rw [strcmp_cons_cons_eq c p p (hp c (List.mem_cons_self _ _))]
    exact ih (fun x hx => hp x (List.mem_cons_of_mem _ hx))

theorem strcmp_first_diff (p : List Nat) : ∀ q : List Nat,
    (∀ c ∈ p, c ≠ 0) → (∀ c ∈ q, c ≠ 0) → p ≠ q →
    ∃ i, (∀ j < i, p.getD j 0 = q.getD j 0) ∧ p.getD i 0 ≠ q.getD i 0
      ∧ strcmp p q = (p.getD i 0 : Int) - (q.getD i 0 : Int) := by
  induction p with
  | nil =>
    intro q _ hq hne
    cases q with
    | nil => exact absurd rfl hne
    | cons d q =>
      refine ⟨0, fun j hj => absurd hj (Nat.not_lt_zero j), ?_, ?_⟩
      · simpa using (hq d (List.mem_cons_self _ _)).symm
      · simp [strcmp_nil_cons]
  | cons c p ih =>
    intro q hp hq hne
    have hc : c ≠ 0 := hp c (List.mem_cons_self _ _)
    cases q with
    | nil =>
      refine ⟨0, fun j hj => absurd hj (Nat.not_lt_zero j), ?_, ?_⟩
      · simpa using hc
      · simp [strcmp_cons_nil c p hc]
    | cons d q =>
      by_cases hcd : c = d
      · subst hcd
        have hne2 : p ≠ q := fun h => hne (by rw [h])
        obtain ⟨i, h1, h2, h3⟩ := ih q (fun x hx => hp x (List.mem_cons_of_mem _ hx))
          (fun x hx => hq x (List.mem_cons_of_mem _ hx)) hne2
        refine ⟨i + 1, ?_, ?_, ?_⟩
        · intro j hj
          cases j with
          | zero => rfl
          | succ j => simpa using h1 j (by omega)
        · simpa using h2
        · rw [strcmp_cons_cons_eq c p q hc, h3]
          simp
      · refine ⟨0, fun j hj => absurd hj (Nat.not_lt_zero j), ?_, ?_⟩
        · simpa using hcd
        · simp [strcmp_cons_cons_ne c d p q hcd]

theorem strcmp_antisymm (p : List Nat) : ∀ q : List Nat,
    (∀ c ∈ p, c ≠ 0) → (∀ c ∈ q, c ≠ 0) → strcmp p q = -strcmp q p := by
  induction p with
  | nil =>
    intro q _ hq
    cases q with
    | nil => rfl
    | cons d q =>
      rw [strcmp_nil_cons, strcmp_cons_nil d q (hq d (List.mem_cons_self _ _))]
  | cons c p ih =>
    intro q hp hq
    have hc : c ≠ 0 := hp c (List.mem_cons_self _ _)
    cases q with
    | nil => rw [strcmp_cons_nil c p hc, strcmp_nil_cons, neg_neg]
    | cons d q =>
      by_cases hcd : c = d
      · subst hcd
        rw [strcmp_cons_cons_eq c p q hc, strcmp_cons_cons_eq c q p hc]
        exact ih q (fun x hx => hp x (List.mem_cons_of_mem _ hx))
          (fun x hx => hq x (List.mem_cons_of_mem _ hx))
      · rw [strcmp_cons_cons_ne c d p q hcd, strcmp_cons_cons_ne d c q p (Ne.symm hcd)]
        ring

theorem strcmp_prefix (p : List Nat) : ∀ r : List Nat,
    (∀ c ∈ p, c ≠ 0) → (∀ c ∈ r, c ≠ 0) → r ≠ [] → strcmp p (p ++ r) < 0 := by
  induction p with
  | nil =>
    intro r _ hr hne
    cases r with
    | nil => exact absurd rfl hne
    | cons d r =>
      rw [List.nil_append, strcmp_nil_cons]
      have := hr d (List.mem_cons_self _ _)
      omega
  | cons c p ih =>
    intro r hp hr hne
    rw [List.cons_append, strcmp_cons_cons_eq c p _ (hp c (List.mem_cons_self _ _))]
    exact ih r (fun x hx => hp x (List.mem_cons_of_mem _ hx)) hr hne

theorem strcmp_after_nul (p : List Nat) : ∀ q x y : List Nat,
    (∀ c ∈ p, c ≠ 0) → strcmp (p ++ 0 :: x) (q ++ 0 :: y) = strcmp p q := by
  induction p with
  | nil =>
    intro q x y _
    cases q <;> simp [strcmp, deref]
  | cons c p ih =>
    intro q x y hp
    have hc : c ≠ 0 := hp c (List.mem_cons_self _ _)
    cases q with
    | nil => simp [strcmp, deref, hc, hc.symm]
    | cons d q =>
      by_cases hcd : c = d
      · subst hcd
        rw [List.cons_append, List.cons_append, strcmp_cons_cons_eq c _ _ hc,
          strcmp_cons_cons_eq c p q hc]
        exact ih q x y (fun z hz => hp z (List.mem_cons_of_mem _ hz))
      · rw [List.cons_append, List.cons_append, strcmp_cons_cons_ne c d _ _ hcd,
          strcmp_cons_cons_ne c d p q hcd]

/-- C25: for NUL-terminated strings `p` and `q` (lists of non-zero bytes), `strcmp(p, q)`
is 0 exactly when `p` and `q` are equal; otherwise it is the byte of `p` minus the byte of
`q` at the first position where the two strings, each followed by its NUL, differ; a
proper prefix compares less; and `strcmp(p, q) = -strcmp(q, p)`. The bytes stored after
the two NULs take no part. -/
theorem strcmp_spec (p q : List Nat) (hp : ∀ c ∈ p, c ≠ 0) (hq : ∀ c ∈ q, c ≠ 0) :
    (strcmp p q = 0 ↔ p = q)
    ∧ (p ≠ q → ∃ i, (∀ j < i, p.getD j 0 = q.getD j 0) ∧ p.getD i 0 ≠ q.getD i 0
        ∧ strcmp p q = (p.getD i 0 : Int) - (q.getD i 0 : Int))
    ∧ (∀ r, r ≠ [] → q = p ++ r → strcmp p q < 0)
    ∧ strcmp p q = -strcmp q p
    ∧ (∀ x y : List Nat, strcmp (p ++ 0 :: x) (q ++ 0 :: y) = strcmp p q) := by
  refine ⟨?_, strcmp_first_diff p q hp hq, ?_, strcmp_antisymm p q hp hq,
    fun x y => strcmp_after_nul p q x y hp⟩
  · constructor
    · intro h
      by_contra hne
      obtain ⟨i, _, h2, h3⟩ := strcmp_first_diff p q hp hq hne
      rw [h3] at h
      exact h2 (by omega)
    · intro h
      subst h
      exact strcmp_self p hp
  · intro r hne hqr
    subst hqr
    exact strcmp_prefix p r hp
      (fun x hx => hq x (List.mem_append_right _ hx)) hne

/-- Witness for C25: `strcmp("ab", "ac") = 'b' - 'c'`, and `"ab"` is less than
`"abc"`. -/
theorem strcmp_spec_witness :
    (∀ c ∈ [97, 98], c ≠ 0)
    ∧ (∀ c ∈ [97, 99], c ≠ 0)
    ∧ strcmp [97, 98] [97, 99] = -1
    ∧ strcmp [97, 98] [97, 99] = -strcmp [97, 99] [97, 98]
    ∧ strcmp [97, 98] [97, 98, 99] < 0 :=
  ⟨by decide, by decide, by decide,
   (strcmp_spec [97, 98] [97, 99] (by decide) (by decide)).2.2.2.1,
   (strcmp_spec [97, 98] [97, 98, 99] (by decide) (by decide)).2.2.1 [99] (by decide) rfl⟩

theorem strcasecmp_eq_strcmp (p : List Nat) : ∀ q : List Nat,
    strcasecmp p q = strcmp p q := by
  induction p with
  | nil =>
    intro q
    simp only [strcasecmp, strcmp]
    split <;> omega
  | cons c p ih =>
    intro q
    simp only [strcasecmp, strcmp]
    by_cases hd : (c : Int) - (deref q : Int) = 0
    · have hcq : c = deref q := by omega
      by_cases hc : c = 0
      · simp [hc, ← hcq]
      · simp [hc, ← hcq, ih]
    · have hcq : c ≠ deref q := by omega
      simp [hd, hcq]

/-- C26, the code at the failing input: `strcasecmp("A", "a")` is -32 and not 0, while
`strncasecmp("A", "a", 2)` is 0. `strcasecmp` does not call `tolower`: it returns -32 for
every pair of strings that start with `A` and `a`, and on all arguments it returns what
`strcmp` returns. -/
theorem strcasecmp_case_sensitive :
    strcasecmp [65] [97] = -32
    ∧ strncasecmp [65] [97] 2 = 0
    ∧ (∀ p q : List Nat, strcasecmp (65 :: p) (97 :: q) = -32)
    ∧ (∀ p q : List Nat, strcasecmp p q = strcmp p q) := by
  refine ⟨by decide, by decide, ?_, fun p q => strcasecmp_eq_strcmp p q⟩
  intro p q
  simp [strcasecmp, deref]

theorem memcmp_loop_succ (mem : Mem) (p q n : Nat) (d0 : Option Int) :
    memcmp_loop mem p q (n + 1) d0
      = if (mem p : Int) - (mem q : Int) ≠ 0 then some ((mem p : Int) - (mem q : Int))
        else memcmp_loop mem (p + 1) (q + 1) n (some 0) := by
  simp only [memcmp_loop]
  by_cases h : (mem p : Int) - (mem q : Int) = 0
  · simp only [h, ne_eq, not_true_eq_false, if_false]
  · simp only [h, ne_eq, not_false_eq_true, if_true]

theorem memcmp_loop_spec (mem : Mem) (n : Nat) : ∀ p q : Nat,
    ∃ d, memcmp_loop mem p q n (some 0) = some d
      ∧ (d = 0 ↔ ∀ i < n, mem (p + i) = mem (q + i))
      ∧ (d ≠ 0 → ∃ i < n, (∀ j < i, mem (p + j) = mem (q + j))
          ∧ d = (mem (p + i) : Int) - (mem (q + i) : Int)) := by
  induction n with
  | zero =>
    intro p q
    exact ⟨0, rfl, by simp, by simp⟩
  | succ n ih =>
    intro p q
    rw [memcmp_loop_succ]
    by_cases h : (mem p : Int) - (mem q : Int) = 0
    · have hpq : mem p = mem q := by omega
      obtain ⟨d, h1, h2, h3⟩ := ih (p + 1) (q + 1)
      refine ⟨d, ?_, ?_, ?_⟩
      · simp only [h, ne_eq, not_true_eq_false, if_false, h1]
      · rw [h2]
        constructor
        · intro hall i hi
          cases i with
          | zero => simpa using hpq
          | succ i =>
            have := hall i (by omega)
            rw [show p + (i + 1) = p + 1 + i by omega, show q + (i + 1) = q + 1 + i by omega]
            exact this
        · intro hall i hi
          have := hall (i + 1) (by omega)
          rw [show p + 1 + i = p + (i + 1) by omega, show q + 1 + i = q + (i + 1) by omega]
          exact this
      · intro hd
        obtain ⟨i, hi, hj, hv⟩ := h3 hd
        refine ⟨i + 1, by omega, ?_, ?_⟩
        · intro j hj2
          cases j with
          | zero => simpa using hpq
          | succ j =>
            have := hj j (by omega)
            rw [show p + (j + 1) = p + 1 + j by omega, show q + (j + 1) = q + 1 + j by omega]
            exact this
        · rw [show p + (i + 1) = p + 1 + i by omega, show q + (i + 1) = q + 1 + i by omega]
          exact hv
    · refine ⟨(mem p : Int) - (mem q : Int), ?_, ?_, ?_⟩
      · simp only [h, ne_eq, not_false_eq_true, if_true]
      · constructor
        · intro h0
          exact absurd h0 h
        · intro hall
          have := hall 0 (by omega)
          simp only [Nat.add_zero] at this
          omega
      · intro _
        exact ⟨0, by omega, fun j hj => absurd hj (Nat.not_lt_zero j), by simp⟩

/-- C27, the code at the failing input: for `n = 0` the loop of `memcmp` does not run and
the function returns its local `d`, which has never been assigned, whatever the buffers.
For every `n >= 1` it returns a value that is 0 exactly when the first `n` bytes are
equal and is otherwise the difference of the first differing pair of bytes. -/
theorem memcmp_zero_uninitialized :
    (∀ (mem : Mem) (buf1 buf2 : Nat), memcmp mem buf1 buf2 0 = none)
    ∧ (∀ (mem : Mem) (buf1 buf2 n : Nat),
        ∃ d, memcmp mem buf1 buf2 (n + 1) = some d
          ∧ (d = 0 ↔ ∀ i < n + 1, mem (buf1 + i) = mem (buf2 + i))
          ∧ (d ≠ 0 → ∃ i < n + 1, (∀ j < i, mem (buf1 + j) = mem (buf2 + j))
              ∧ d = (mem (buf1 + i) : Int) - (mem (buf2 + i) : Int))) := by
  refine ⟨fun _ _ _ => rfl, ?_⟩
  intro mem buf1 buf2 n
  have h := memcmp_loop_spec mem (n + 1) buf1 buf2
  rw [memcmp_loop_succ] at h
  unfold memcmp
  rw [memcmp_loop_succ]
  exact h

/-- C28, the code at the failing input: with `t = "a"` and `n = 4`, `strncpy(s, t, 4)`
writes `'a'` and one NUL and leaves `s[2]` and `s[3]` as they were (`'x'`), where the
claim has NUL. With the empty string as source and any `n >= 1` it writes the single
byte `s[0]`. The loop stops after the NUL that it copies and there is no loop that fills
up to `n`. -/
theorem strncpy_no_padding :
    (List.range 6).map (fun i => (strncpy example_mem 100 0 4).1 (100 + i))
      = [97, 0, 120, 120, 120, 120]
    ∧ (strncpy example_mem 100 0 4).2 = 100
    ∧ (∀ (mem : Mem) (s t n : Nat),
        strncpy (mem.store t 0) s t (n + 1) = ((mem.store t 0).store s 0, s)) := by
  refine ⟨by decide, rfl, ?_⟩
  intro mem s t n
  simp [strncpy, strncpy_loop, Mem.store]

theorem copy_forward_spec (n : Nat) : ∀ (mem : Mem) (d s : Nat), (d ≤ s ∨ s + n ≤ d) →
    ∀ a, copy_forward mem d s n a
      = if d ≤ a ∧ a < d + n then mem (s + (a - d)) else mem a := by
  induction n with
  | zero =>
    intro mem d s _ a
    have : ¬ (d ≤ a ∧ a < d + 0) := by omega
    simp only [copy_forward, this, if_false]
  | succ n ih =>
    intro mem d s h a
    simp only [copy_forward]
    rw [ih (mem.store d (mem s)) (d + 1) (s + 1) (by omega) a]
    by_cases h1 : d + 1 ≤ a ∧ a < d + 1 + n
    · have h2 : d ≤ a ∧ a < d + (n + 1) := by omega
      have h3 : s + 1 + (a - (d + 1)) ≠ d := by omega
      simp only [h1, h2, and_self, if_true, Mem.store, h3, if_false]
      congr 1
      omega
    · by_cases h4 : a = d
      · subst h4
        have h2 : a ≤ a ∧ a < a + (n + 1) := by omega
        simp only [h1, h2, and_self, if_true, if_false, Mem.store, Nat.sub_self,
          Nat.add_zero]
      · have h2 : ¬ (d ≤ a ∧ a < d + (n + 1)) := by omega
        simp only [h1, h2, if_false, Mem.store, h4]

theorem copy_backward_spec (n : Nat) : ∀ (mem : Mem) (d s : Nat), s ≤ d →
    ∀ a, copy_backward mem (d + n) (s + n) n a
      = if d ≤ a ∧ a < d + n then mem (s + (a - d)) else mem a := by
  induction n with
  | zero =>
    intro mem d s _ a
    have : ¬ (d ≤ a ∧ a < d + 0) := by omega
    simp only [copy_backward, this, if_false]
  | succ n ih =>
    intro mem d s h a
    simp only [copy_backward]
    rw [show d + (n + 1) - 1 = d + n by omega, show s + (n + 1) - 1 = s + n by omega,
      ih (mem.store (d + n) (mem (s + n))) d s h a]
    by_cases h1 : d ≤ a ∧ a < d + n
    · have h2 : d ≤ a ∧ a < d + (n + 1) := by omega
      have h3 : s + (a - d) ≠ d + n := by omega
      simp only [h1, h2, and_self, if_true, Mem.store, h3, if_false]
    · by_cases h4 : a = d + n
      · subst h4
        have h2 : d ≤ d + n ∧ d + n < d + (n + 1) := by omega
        have h3 : ¬ (d + n < d + n) := Nat.lt_irrefl _
        simp only [h2, and_self, if_true, if_false, Mem.store,
          Nat.add_sub_cancel_left, h3, and_false]
      · have h2 : ¬ (d ≤ a ∧ a < d + (n + 1)) := by omega
        simp only [h1, h2, if_false, Mem.store, h4]

theorem memmove_eq (mem : Mem) (dst src n : Nat) (a : Nat) :
    (memmove mem dst src n).1 a
      = if dst ≤ a ∧ a < dst + n then mem (src + (a - dst)) else mem a := by
  unfold memmove
  by_cases h : src < dst ∧ src + n > dst
  · simp only [h, and_self, if_true]
    exact copy_backward_spec n mem dst src (by omega) a
  · simp only [h, if_false]
    exact copy_forward_spec n mem dst src (by omega) a

/-- C29: for every memory, addresses `dst` and `src` and length `n`, whether or not the
ranges overlap, after `memmove(dst, src, n)` the byte at `dst + i` is the byte that was
at `src + i` before the call, for every `i < n`; every byte outside `[dst, dst + n)` is
unchanged; and `dst` is returned. -/
theorem memmove_spec (mem : Mem) (dst src n : Nat) :
    (∀ i < n, (memmove mem dst src n).1 (dst + i) = mem (src + i))
    ∧ (∀ a, (a < dst ∨ dst + n ≤ a) → (memmove mem dst src n).1 a = mem a)
    ∧ (memmove mem dst src n).2 = dst
    ∧ (List.range 6).map (memmove example_mem_count 1 0 3).1 = [10, 10, 11, 12, 14, 15]
    ∧ (List.range 6).map (memmove example_mem_count 0 1 3).1 = [11, 12, 13, 13, 14, 15] := by
  refine ⟨?_, ?_, ?_, by decide, by decide⟩
  · intro i hi
    rw [memmove_eq]
    have h : dst ≤ dst + i ∧ dst + i < dst + n := by omega
    simp only [h, and_self, if_true, Nat.add_sub_cancel_left]
  · intro a ha
    rw [memmove_eq]
    have h : ¬ (dst ≤ a ∧ a < dst + n) := by omega
    simp only [h, if_false]
  · unfold memmove
    split <;> rfl

theorem to_long_add_mul (y m : Int) : to_long (y + 2 ^ 64 * m) = to_long y := by
  unfold to_long
  rw [show y + 2 ^ 64 * m + 2 ^ 63 = (y + 2 ^ 63) + 2 ^ 64 * m by ring,
    Int.add_mul_emod_self_left]

theorem to_long_eq (x : Int) : to_long x = x + 2 ^ 64 * (-((x + 2 ^ 63) / 2 ^ 64)) := by
  unfold to_long
  have h := Int.emod_add_ediv (x + 2 ^ 63) (2 ^ 64)
  linarith

theorem to_long_step (x b v : Int) : to_long (to_long x * b + v) = to_long (x * b + v) := by
  rw [to_long_eq x,
    show (x + 2 ^ 64 * (-((x + 2 ^ 63) / 2 ^ 64))) * b + v
      = (x * b + v) + 2 ^ 64 * ((-((x + 2 ^ 63) / 2 ^ 64)) * b) by ring,
    to_long_add_mul]

theorem to_long_neg (x : Int) : to_long (-(to_long x)) = to_long (-x) := by
  rw [to_long_eq x,
    show -(x + 2 ^ 64 * (-((x + 2 ^ 63) / 2 ^ 64)))
      = -x + 2 ^ 64 * ((x + 2 ^ 63) / 2 ^ 64) by ring,
    to_long_add_mul]

theorem strtol_loop_digit (b c v : Nat) (dm hm : Int) (hb : 2 ≤ b ∧ b ≤ 36)
    (hdm : dm = if (b : Int) ≤ 10 then 48 + (b : Int) else 58)
    (hhm : hm = 87 + (b : Int))
    (hv : digit_value b c = some v) (p : List Nat) (r : Int) (k : Nat) :
    strtol_loop b dm hm (c :: p) r k
      = strtol_loop b dm hm p (to_long (r * b + v)) (k + 1) := by
  unfold digit_value at hv
  simp only [strtol_loop, to_char, tolower]
  split_ifs at hv with h1 h2 h3
  · injection hv with hv
    have hc : 48 ≤ ((c : Int) + 128) % 256 - 128 ∧ ((c : Int) + 128) % 256 - 128 < dm := by
      rw [hdm]; split_ifs <;> omega
    have hn : ((c : Int) + 128) % 256 - 128 - 48 = (v : Int) := by omega
    simp only [hc, and_self, if_true, hn]
  · injection hv with hv
    have hc : ¬ (48 ≤ ((c : Int) + 128) % 256 - 128 ∧ ((c : Int) + 128) % 256 - 128 < dm) := by
      rw [hdm]; split_ifs <;> omega
    have hu : ¬ (65 ≤ ((c : Int) + 128) % 256 - 128 ∧ ((c : Int) + 128) % 256 - 128 ≤ 90) := by
      omega
    have hl : 97 ≤ (((c : Int) + 128) % 256 - 128 + 128) % 256 - 128
        ∧ (((c : Int) + 128) % 256 - 128 + 128) % 256 - 128 < hm := by
      rw [hhm]; omega
    have hn : (((c : Int) + 128) % 256 - 128 + 128) % 256 - 128 - 97 + 10 = (v : Int) := by
      omega
    simp only [hc, hu, if_false, hl, and_self, if_true, hn]
  · injection hv with hv
    have hc : ¬ (48 ≤ ((c : Int) + 128) % 256 - 128 ∧ ((c : Int) + 128) % 256 - 128 < dm) := by
      rw [hdm]; split_ifs <;> omega
    have hu : 65 ≤ ((c : Int) + 128) % 256 - 128 ∧ ((c : Int) + 128) % 256 - 128 ≤ 90 := by
      omega
    have hl : 97 ≤ (((c : Int) + 128) % 256 - 128 + (97 - 65) + 128) % 256 - 128
        ∧ (((c : Int) + 128) % 256 - 128 + (97 - 65) + 128) % 256 - 128 < hm := by
      rw [hhm]; omega
    have hn : (((c : Int) + 128) % 256 - 128 + (97 - 65) + 128) % 256 - 128 - 97 + 10
        = (v : Int) := by
      omega
    simp only [hc, hu, and_self, if_true, if_false, hl, hn]

theorem strtol_loop_stop (b : Nat) (dm hm : Int) (hb : 2 ≤ b ∧ b ≤ 36)
    (hdm : dm = if (b : Int) ≤ 10 then 48 + (b : Int) else 58)
    (hhm : hm = 87 + (b : Int))
    (tail : List Nat) (htail : digit_value b (deref tail) = none) (hbyte : deref tail < 256)
    (r : Int) (k : Nat) :
    strtol_loop b dm hm tail r k = (r, k) := by
  cases tail with
  | nil => rfl
  | cons c p =>
    simp only [deref, List.headD_cons] at htail hbyte
    unfold digit_value at htail
    simp only [strtol_loop, to_char, tolower]
    split_ifs at htail with h1 h2 h3
    have hc : ¬ (48 ≤ ((c : Int) + 128) % 256 - 128 ∧ ((c : Int) + 128) % 256 - 128 < dm) := by
      rw [hdm]; split_ifs <;> omega
    simp only [hc, if_false]
    by_cases hu : 65 ≤ ((c : Int) + 128) % 256 - 128 ∧ ((c : Int) + 128) % 256 - 128 ≤ 90
    · have hl : ¬ (97 ≤ (((c : Int) + 128) % 256 - 128 + (97 - 65) + 128) % 256 - 128
          ∧ (((c : Int) + 128) % 256 - 128 + (97 - 65) + 128) % 256 - 128 < hm) := by
        rw [hhm]; omega
      simp only [hu, and_self, if_true, hl, if_false]
    · have hl : ¬ (97 ≤ (((c : Int) + 128) % 256 - 128 + 128) % 256 - 128
          ∧ (((c : Int) + 128) % 256 - 128 + 128) % 256 - 128 < hm) := by
        rw [hhm]; omega
      simp only [hu, if_false, hl]

theorem strtol_loop_digits (b : Nat) (dm hm : Int) (hb : 2 ≤ b ∧ b ≤ 36)
    (hdm : dm = if (b : Int) ≤ 10 then 48 + (b : Int) else 58)
    (hhm : hm = 87 + (b : Int)) (tail : List Nat) (ds : List Nat) :
    ∀ (acc k : Nat), (∀ c ∈ ds, (digit_value b c).isSome = true) →
      strtol_loop b dm hm (ds ++ tail) (to_long acc) k
        = strtol_loop b dm hm tail (to_long (digits_value_from b acc ds)) (k + ds.length) := by
  induction ds with
  | nil => intro acc k _; rfl
  | cons c ds ih =>
    intro acc k hds
    obtain ⟨v, hv⟩ := Option.isSome_iff_exists.1 (hds c (List.mem_cons_self _ _))
    rw [List.cons_append, strtol_loop_digit b c v dm hm hb hdm hhm hv, to_long_step]
    have hcast : (acc : Int) * (b : Int) + (v : Int) = ((acc * b + v : Nat) : Int) := by
      push_cast; ring
    rw [hcast, ih (acc * b + v) (k + 1) (fun x hx => hds x (List.mem_cons_of_mem _ hx))]
    simp only [digits_value_from, List.foldl_cons, hv, Option.getD_some, List.length_cons]
    congr 1
    omega

theorem digit_not_sign (b c : Nat) (h : (digit_value b c).isSome = true) :
    48 ≤ c ∧ c ≤ 122 := by
  unfold digit_value at h
  split_ifs at h <;> first | omega | (simp at h)

theorem parse_sign_none (p : List Nat) (h43 : deref p ≠ 43) (h45 : deref p ≠ 45)
    (hbyte : deref p < 256) : parse_sign p = (false, 0) := by
  have h1 : ¬ (((deref p : Nat) : Int) + 128) % 256 - 128 = 43 := by omega
  have h2 : ¬ (((deref p : Nat) : Int) + 128) % 256 - 128 = 45 := by omega
  simp only [parse_sign, to_char, h1, h2, or_self, if_false, decide_False]

theorem strtol_unsigned (b : Nat) (hb : 2 ≤ b ∧ b ≤ 36) (ds tail : List Nat)
    (hds : ∀ c ∈ ds, (digit_value b c).isSome = true)
    (htail : digit_value b (deref tail) = none) (hbyte : deref tail < 256)
    (dm hm : Int) (hdm : dm = if (b : Int) ≤ 10 then 48 + (b : Int) else 58)
    (hhm : hm = 87 + (b : Int)) :
    strtol_loop b dm hm (ds ++ tail) 0 0 = (to_long (digits_value b ds), ds.length) := by
  have h := strtol_loop_digits b dm hm hb hdm hhm tail ds 0 0 hds
  have h0 : to_long ((0 : Nat) : Int) = 0 := by decide
  rw [h0] at h
  rw [h, strtol_loop_stop b dm hm hb hdm hhm tail htail hbyte]
  simp only [digits_value, Nat.zero_add]

theorem strtol_of_parse (b : Nat) (hb : 2 ≤ b ∧ b ≤ 36) (p : List Nat) (neg : Bool)
    (adv : Nat) (ds tail : List Nat)
    (hps : parse_sign p = (neg, adv)) (hdrop : p.drop adv = ds ++ tail)
    (hds : ∀ c ∈ ds, (digit_value b c).isSome = true)
    (htail : digit_value b (deref tail) = none) (hbyte : deref tail < 256) :
    strtol p b
      = (if neg then to_long (-(to_long (digits_value b ds))) else to_long (digits_value b ds),
         if ds.length = 0 then 0 else adv + ds.length) := by
  simp only [strtol, hps, hdrop]
  rw [strtol_unsigned b hb ds tail hds htail hbyte _ _
    (by unfold to_char; split_ifs <;> omega) (by unfold to_char; omega)]

/-- C30: for a base `b` with `2 <= b <= 36` and a string made of an optional sign `+`
or `-`, then the characters `ds`, all digits of base `b` (letters in either case), then
a character that is not a digit of base `b` (the first byte of `tail`, or the NUL at the
end of the string), `strtol` returns the value of `ds` in base `b`, negated after `-`,
as a 64-bit `long` (wrapping modulo `2^64`), and the pointer it stores to `*pp` is at
that first character after the digits; when `ds` is empty it returns 0 and stores the
start of the string. Without a sign, the string does not start with `+` or `-`. -/
theorem strtol_spec (b : Nat) (sign ds tail : List Nat)
    (hb : 2 ≤ b ∧ b ≤ 36)
    (hsign : sign = [] ∨ sign = [43] ∨ sign = [45])
    (hds : ∀ c ∈ ds, (digit_value b c).isSome = true)
    (htail : digit_value b (deref tail) = none)
    (hbyte : deref tail < 256)
    (hfirst : sign = [] → ds = [] → deref tail ≠ 43 ∧ deref tail ≠ 45) :
    strtol (sign ++ ds ++ tail) b
      = (to_long (if sign = [45] then -(digits_value b ds : Int) else (digits_value b ds : Int)),
         if ds = [] then 0 else sign.length + ds.length) := by
  have hk : ∀ n : Nat, (if ds.length = 0 then 0 else n + ds.length)
      = if ds = [] then 0 else n + ds.length := by
    intro n
    cases ds <;> simp
  rcases hsign with h | h | h
  · subst h
    have hps : parse_sign ([] ++ ds ++ tail) = (false, 0) := by
      cases ds with
      | nil =>
        obtain ⟨h1, h2⟩ := hfirst rfl rfl
        exact parse_sign_none _ h1 h2 hbyte
      | cons c ds =>
        have hc := digit_not_sign b c (hds c (List.mem_cons_self _ _))
        apply parse_sign_none
        · simp only [List.nil_append, List.cons_append, deref, List.headD_cons]; omega
        · simp only [List.nil_append, List.cons_append, deref, List.headD_cons]; omega
        · simp only [List.nil_append, List.cons_append, deref, List.headD_cons]; omega
    rw [strtol_of_parse b hb _ false 0 ds tail hps rfl hds htail hbyte, hk]
    have h45 : ¬ (([] : List Nat) = [45]) := by decide
    simp only [h45, if_false, Bool.false_eq_true, List.length_nil]
  · subst h
    have hps : parse_sign ([43] ++ ds ++ tail) = (false, 1) := by
      simp [parse_sign, to_char, deref]
    rw [strtol_of_parse b hb _ false 1 ds tail hps rfl hds htail hbyte, hk]
    have h45 : ¬ (([43] : List Nat) = [45]) := by decide
    simp only [h45, if_false, Bool.false_eq_true, List.length_singleton]
  · subst h
    have hps : parse_sign ([45] ++ ds ++ tail) = (true, 1) := by
      simp [parse_sign, to_char, deref]
    rw [strtol_of_parse b hb _ true 1 ds tail hps rfl hds htail hbyte, hk]
    simp only [if_true, List.length_singleton, to_long_neg]

/-- Witness for C30: `strtol("-7Fz", &end, 16)` is -127 with `end` at the `z`, and
`strtol("+-7", &end, 10)` is 0 with `end` at the start. -/
theorem strtol_spec_witness :
    (2 ≤ 16 ∧ 16 ≤ 36)
    ∧ (∀ c ∈ [55, 70], (digit_value 16 c).isSome = true)
    ∧ digit_value 16 (deref [122]) = none
    ∧ strtol [45, 55, 70, 122] 16 = (-127, 3)
    ∧ strtol [43, 45, 55] 10 = (0, 0) :=
  ⟨by decide, by decide, by decide,
   strtol_spec 16 [45] [55, 70] [122] (by decide) (by decide) (by decide) (by decide)
     (by decide) (by intro h; cases h),
   strtol_spec 10 [43] [] [45, 55] (by decide) (by decide) (by decide) (by decide)
     (by decide) (by intro h; cases h)⟩

/-! ### Symmetry of `same_type` -/

theorem struct_same_comm (p q : StructInfoPtr) : p.same q = q.same p := by
  simp only [StructInfoPtr.same]
  by_cases h : p.addr = q.addr
  · simp [h]
  · have h2 : ¬ q.addr = p.addr := fun e => h e.symm
    simp [h, h2]

mutual
theorem same_type_comm (m : Map) : ∀ a b : CType, same_type m a b = same_type m b a
  | .TY_VOID, b => by cases b <;> simp [same_type]
  | .TY_NUM n1, b => by
    cases b <;> simp [same_type]
    exact eq_comm
  | .TY_PTR t, .TY_PTR u => by
    simp only [same_type]
    exact same_type_comm m t u
  | .TY_ARRAY t _, .TY_ARRAY u _ => by
    simp only [same_type]
    exact same_type_comm m t u
  | .TY_FUNC r1 (some l1) _, .TY_FUNC r2 (some l2) _ => by
    simp only [same_type]
    rw [same_type_comm m r1 r2, same_type_params_comm m l1 l2]
    by_cases hl : l1.length = l2.length
    · simp [hl]
    · have hl2 : ¬ l2.length = l1.length := fun e => hl e.symm
      simp [hl, hl2]
  | .TY_FUNC r1 none _, .TY_FUNC r2 (some l2) _ => by
    simp only [same_type]
    rw [same_type_comm m r1 r2]
  | .TY_FUNC r1 (some l1) _, .TY_FUNC r2 none _ => by
    simp only [same_type]
    rw [same_type_comm m r1 r2]
  | .TY_FUNC r1 none _, .TY_FUNC r2 none _ => by
    simp only [same_type]
    rw [same_type_comm m r1 r2]
  | .TY_STRUCT i1 name1, .TY_STRUCT i2 name2 => by
    cases i1 <;> cases i2 <;> simp only [same_type]
    · by_cases h : name1 = name2
      · simp [h]
      · have h2 : ¬ name2 = name1 := fun e => h e.symm
        simp [h, h2]
    · rw [struct_same_comm]
  | .TY_PTR _, .TY_VOID => by simp [same_type]
  | .TY_PTR _, .TY_NUM _ => by simp [same_type]
  | .TY_PTR _, .TY_ARRAY _ _ => by simp [same_type]
  | .TY_PTR _, .TY_FUNC _ _ _ => by simp [same_type]
  | .TY_PTR _, .TY_STRUCT _ _ => by simp [same_type]
  | .TY_ARRAY _ _, .TY_VOID => by simp [same_type]
  | .TY_ARRAY _ _, .TY_NUM _ => by simp [same_type]
  | .TY_ARRAY _ _, .TY_PTR _ => by simp [same_type]
  | .TY_ARRAY _ _, .TY_FUNC _ _ _ => by simp [same_type]
  | .TY_ARRAY _ _, .TY_STRUCT _ _ => by simp [same_type]
  | .TY_FUNC _ _ _, .TY_VOID => by simp [same_type]
  | .TY_FUNC _ _ _, .TY_NUM _ => by simp [same_type]
  | .TY_FUNC _ _ _, .TY_PTR _ => by simp [same_type]
  | .TY_FUNC _ _ _, .TY_ARRAY _ _ => by simp [same_type]
  | .TY_FUNC _ _ _, .TY_STRUCT _ _ => by simp [same_type]
  | .TY_STRUCT _ _, .TY_VOID => by simp [same_type]
  | .TY_STRUCT _ _, .TY_NUM _ => by simp [same_type]
  | .TY_STRUCT _ _, .TY_PTR _ => by simp [same_type]
  | .TY_STRUCT _ _, .TY_ARRAY _ _ => by simp [same_type]
  | .TY_STRUCT _ _, .TY_FUNC _ _ _ => by simp [same_type]
theorem same_type_params_comm (m : Map) : ∀ ps qs : List CType,
    same_type_params m ps qs = same_type_params m qs ps
  | [], qs => by cases qs <;> simp [same_type_params]
  | t :: rest, [] => by simp [same_type_params]
  | t :: rest, u :: qs => by
    simp only [same_type_params]
    rw [same_type_comm m t u, same_type_params_comm m rest qs]
end

/-- C33: `same_type` is symmetric. For all well-formed types `a` and `b` and every state
of `struct_map`, the calls `same_type(a, b)` and `same_type(b, a)` both return, and they
return the same value; this includes two struct types of which exactly one is
forward-declared (null `info`), whichever comes first. The two calls also agree when a
type is not well formed: then both dereference a null parameter vector or both return
the same value. -/
theorem same_type_symmetric (struct_map : Map) (a b : CType)
    (ha : well_formed a = true) (hb : well_formed b = true) :
    (∃ r, same_type struct_map a b = some r ∧ same_type struct_map b a = some r)
    ∧ (∀ (info : StructInfoPtr) (name1 name2 : String),
        same_type struct_map (.TY_STRUCT (some info) name1) (.TY_STRUCT none name2)
          = same_type struct_map (.TY_STRUCT none name2) (.TY_STRUCT (some info) name1))
    ∧ (∀ x y : CType, same_type struct_map x y = same_type struct_map y x) := by
  refine ⟨?_, fun info name1 name2 => same_type_comm struct_map _ _,
    same_type_comm struct_map⟩
  obtain ⟨r, hr⟩ := same_type_returns struct_map a b ha hb
  exact ⟨r, hr, by rw [← same_type_comm struct_map a b]; exact hr⟩

/-- Witness for C33: with `struct S` defined at address 7, the forward-declared
`struct S` and the struct type that carries that `StructInfo` are the same type in both
orders, and `int*` against `char*` is false in both orders. -/
theorem same_type_symmetric_witness :
    well_formed (.TY_STRUCT none "S") = true
    ∧ well_formed (.TY_STRUCT (some (.mk 7 [] false 0 1)) "S") = true
    ∧ same_type [("S", some (.mk 7 [] false 0 1))]
        (.TY_STRUCT none "S") (.TY_STRUCT (some (.mk 7 [] false 0 1)) "S") = some true
    ∧ same_type [("S", some (.mk 7 [] false 0 1))]
        (.TY_STRUCT (some (.mk 7 [] false 0 1)) "S") (.TY_STRUCT none "S") = some true
    ∧ (∃ r, same_type [] (ptrof tyInt) (ptrof tyChar) = some r
        ∧ same_type [] (ptrof tyChar) (ptrof tyInt) = some r) :=
  ⟨rfl, rfl, by decide, by decide,
   (same_type_symmetric [] (ptrof tyInt) (ptrof tyChar) rfl rfl).1⟩

/-! ### References to variables in initializers -/

theorem sum_map_neg (l : List Int) : (l.map (fun k => -k)).sum = -l.sum := by
  induction l with
  | nil => rfl
  | cons a l ih => simp only [List.map_cons, List.sum_cons, ih]; ring

theorem member_chain_eval : ∀ (e v : Expr) (offsets : List Int),
    member_chain e = some (v, offsets) →
    eval_initial_value_member e none 0 = .ok (some v, offsets.sum)
  | .EX_VAR type name scope, v, offsets, h => by
    simp only [member_chain, Option.some.injEq, Prod.mk.injEq] at h
    obtain ⟨h1, h2⟩ := h
    subst h1; subst h2
    simp [eval_initial_value_member]
  | .EX_MEMBER type target index, v, offsets, h => by
    simp only [member_chain] at h
    cases hc : member_chain target with
    | none => simp [hc] at h
    | some vo =>
      obtain ⟨v1, offs1⟩ := vo
      cases ht : target.type with
      | TY_STRUCT info =>
        simp only [hc, ht, List.get?_eq_getElem?] at h
        cases hm : info.members[index]? with
        | none => rw [hm] at h; cases h
        | some member =>
          rw [hm] at h
          simp only [Option.some.injEq, Prod.mk.injEq] at h
          obtain ⟨h1, h2⟩ := h
          subst h1; subst h2
          have ih := member_chain_eval target v1 offs1 hc
          simp [eval_initial_value_member, ih, ht, ptr_or_array, hm]
      | _ => simp [hc, ht] at h
  | .EX_FIXNUM _ _, _, _, h => by simp [member_chain] at h
  | .EX_FLONUM _ _, _, _, h => by simp [member_chain] at h
  | .EX_STR _ _, _, _, h => by simp [member_chain] at h
  | .EX_ADD _ _ _, _, _, h => by simp [member_chain] at h
  | .EX_SUB _ _ _, _, _, h => by simp [member_chain] at h
  | .EX_REF _ _, _, _, h => by simp [member_chain] at h
  | .EX_DEREF _ _, _, _, h => by simp [member_chain] at h
  | .EX_CAST _ _, _, _, h => by simp [member_chain] at h
  | .EX_OTHER _, _, _, h => by simp [member_chain] at h

theorem const_terms_eval : ∀ (e : Expr) (terms : List Int),
    const_terms e = some terms →
    eval_initial_value e none 0 = .ok (none, terms.sum)
  | .EX_FIXNUM type fixnum, terms, h => by
    simp only [const_terms, Option.some.injEq] at h
    subst h
    simp [eval_initial_value, is_const]
  | .EX_CAST _ sub, terms, h => by
    simp only [const_terms] at h
    simp only [eval_initial_value]
    exact const_terms_eval sub terms h
  | .EX_ADD _ lhs rhs, terms, h => by
    simp only [const_terms] at h
    cases hl : const_terms lhs with
    | none => simp [hl] at h
    | some l =>
      cases hr : const_terms rhs with
      | none => simp [hl, hr] at h
      | some r =>
        simp only [hl, hr, Option.some.injEq] at h
        subst h
        simp [eval_initial_value, const_terms_eval lhs l hl, const_terms_eval rhs r hr]
  | .EX_SUB _ lhs rhs, terms, h => by
    simp only [const_terms] at h
    cases hl : const_terms lhs with
    | none => simp [hl] at h
    | some l =>
      cases hr : const_terms rhs with
      | none => simp [hl, hr] at h
      | some r =>
        simp only [hl, hr, Option.some.injEq] at h
        subst h
        simp [eval_initial_value, const_terms_eval lhs l hl, const_terms_eval rhs r hr,
          sum_map_neg]
  | .EX_VAR _ _ _, _, h => by simp [const_terms] at h
  | .EX_FLONUM _ _, _, h => by simp [const_terms] at h
  | .EX_STR _ _, _, h => by simp [const_terms] at h
  | .EX_REF _ _, _, h => by simp [const_terms] at h
  | .EX_DEREF _ _, _, h => by simp [const_terms] at h
  | .EX_MEMBER _ _ _, _, h => by simp [const_terms] at h
  | .EX_OTHER _, _, h => by simp [const_terms] at h

theorem ref_terms_eval : ∀ (e v : Expr) (terms : List Int),
    ref_terms e = some (v, terms) →
    eval_initial_value e none 0 = .ok (some v, terms.sum)
  | .EX_VAR type name scope, v, terms, h => by
    simp only [ref_terms, Option.some.injEq, Prod.mk.injEq] at h
    obtain ⟨h1, h2⟩ := h
    subst h1; subst h2
    simp [eval_initial_value]
  | .EX_CAST _ sub, v, terms, h => by
    simp only [ref_terms] at h
    simp only [eval_initial_value]
    exact ref_terms_eval sub v terms h
  | .EX_REF _ (.EX_VAR type name scope), v, terms, h => by
    simp only [ref_terms, Option.some.injEq, Prod.mk.injEq] at h
    obtain ⟨h1, h2⟩ := h
    subst h1; subst h2
    simp [eval_initial_value]
  | .EX_REF _ (.EX_DEREF _ sub), v, terms, h => by
    simp only [ref_terms] at h
    simp only [eval_initial_value]
    exact ref_terms_eval sub v terms h
  | .EX_REF _ (.EX_MEMBER type target index), v, terms, h => by
    simp only [ref_terms] at h
    simp only [eval_initial_value]
    exact member_chain_eval _ v terms h
  | .EX_ADD _ lhs rhs, v, terms, h => by
    simp only [ref_terms] at h
    cases hrl : ref_terms lhs with
    | some vl =>
      obtain ⟨v1, l⟩ := vl
      cases hcr : const_terms rhs with
      | some r =>
        simp only [hrl, hcr, Option.some.injEq, Prod.mk.injEq] at h
        obtain ⟨h1, h2⟩ := h
        subst h1; subst h2
        simp [eval_initial_value, ref_terms_eval lhs v1 l hrl, const_terms_eval rhs r hcr]
      | none =>
        simp only [hrl, hcr] at h
        cases hcl : const_terms lhs with
        | none => simp [hcl] at h
        | some l2 =>
          cases hrr : ref_terms rhs with
          | none => simp [hcl, hrr] at h
          | some vr =>
            obtain ⟨v2, r⟩ := vr
            simp only [hcl, hrr, Option.some.injEq, Prod.mk.injEq] at h
            obtain ⟨h1, h2⟩ := h
            subst h1; subst h2
            simp [eval_initial_value, const_terms_eval lhs l2 hcl, ref_terms_eval rhs v2 r hrr]
    | none =>
      simp only [hrl] at h
      cases hcl : const_terms lhs with
      | none => simp [hcl] at h
      | some l2 =>
        cases hrr : ref_terms rhs with
        | none => simp [hcl, hrr] at h
        | some vr =>
          obtain ⟨v2, r⟩ := vr
          simp only [hcl, hrr, Option.some.injEq, Prod.mk.injEq] at h
          obtain ⟨h1, h2⟩ := h
          subst h1; subst h2
          simp [eval_initial_value, const_terms_eval lhs l2 hcl, ref_terms_eval rhs v2 r hrr]
  | .EX_SUB _ lhs rhs, v, terms, h => by
    simp only [ref_terms] at h
    cases hrl : ref_terms lhs with
    | none => simp [hrl] at h
    | some vl =>
      obtain ⟨v1, l⟩ := vl
      cases hcr : const_terms rhs with
      | none => simp [hrl, hcr] at h
      | some r =>
        simp only [hrl, hcr, Option.some.injEq, Prod.mk.injEq] at h
        obtain ⟨h1, h2⟩ := h
        subst h1; subst h2
        simp [eval_initial_value, ref_terms_eval lhs v1 l hrl, const_terms_eval rhs r hcr,
          sum_map_neg]
  | .EX_REF _ (.EX_FIXNUM _ _), _, _, h => by simp [ref_terms] at h
  | .EX_REF _ (.EX_FLONUM _ _), _, _, h => by simp [ref_terms] at h
  | .EX_REF _ (.EX_STR _ _), _, _, h => by simp [ref_terms] at h
  | .EX_REF _ (.EX_ADD _ _ _), _, _, h => by simp [ref_terms] at h
  | .EX_REF _ (.EX_SUB _ _ _), _, _, h => by simp [ref_terms] at h
  | .EX_REF _ (.EX_REF _ _), _, _, h => by simp [ref_terms] at h
  | .EX_REF _ (.EX_CAST _ _), _, _, h => by simp [ref_terms] at h
  | .EX_REF _ (.EX_OTHER _), _, _, h => by simp [ref_terms] at h
  | .EX_FIXNUM _ _, _, _, h => by simp [ref_terms] at h
  | .EX_FLONUM _ _, _, _, h => by simp [ref_terms] at h
  | .EX_STR _ _, _, _, h => by simp [ref_terms] at h
  | .EX_DEREF _ _, _, _, h => by simp [ref_terms] at h
  | .EX_MEMBER _ _ _, _, _, h => by simp [ref_terms] at h
  | .EX_OTHER _, _, _, h => by simp [ref_terms] at h

theorem scalar_output_of_eval (tg : Target) (e : Expr) (t : EmitType) (name : String)
    (scope : Scope) (offset : Int) (label : String)
    (heval : eval_initial_value e none 0 = .ok (some (.EX_VAR t name scope), offset))
    (hlabel : scalar_output tg (some (.IK_SINGLE (.EX_VAR t name scope))) = .ok label) :
    scalar_output tg (some (.IK_SINGLE e)) = .ok (symbol_ref label offset) := by
  have hv : eval_initial_value (.EX_VAR t name scope) none 0
      = .ok (some (.EX_VAR t name scope), 0) := by
    simp [eval_initial_value]
  simp only [scalar_output, hv, heval] at hlabel ⊢
  cases hf : scope_find scope name with
  | none => simp [hf] at hlabel
  | some found =>
    obtain ⟨varinfo0, sc⟩ := found
    simp only [hf] at hlabel ⊢
    generalize (if (!is_global_scope sc && varinfo0.storage.contains StorageBit.VS_STATIC) = true
      then
        match varinfo0.static_gvar with
        | none => Except.error (Fatal.assert "varinfo != NULL")
        | some gvar => Except.ok (gvar, gvar.name)
      else (Except.ok (varinfo0, name) : Except Fatal (VarInfo × String))) = res at hlabel ⊢
    cases res with
    | error err => cases hlabel
    | ok pair =>
      obtain ⟨varinfo, nm⟩ := pair
      simp only [if_true, Except.ok.injEq] at hlabel
      simp only [hlabel, symbol_ref]
      by_cases ho : offset = 0
      · simp only [ho, if_true]
      · simp only [ho, if_false]

/-- C31: for an initializer expression built from one reference to a variable `v`
(`v`, `&v`, `&*e`, or `&v.m1...mk`), casts, and integer constants added to it or
subtracted from it, `eval_initial_value` yields `v` and the sum of the recorded offsets
of the members of the chain and of the constants with their signs; casts have no effect.
`construct_initial_value` for an integer or pointer type then writes one directive whose
operand is the label written for a reference to `v` alone when that sum is 0, and that
label followed by ` + ` and the sum in decimal otherwise. -/
theorem eval_initial_value_reference (tg : Target) (e : Expr) (t : EmitType) (name : String)
    (scope : Scope) (terms : List Int) (label : String) (type : EmitType)
    (directive : String)
    (hterms : ref_terms e = some (.EX_VAR t name scope, terms))
    (hlabel : scalar_output tg (some (.IK_SINGLE (.EX_VAR t name scope))) = .ok label)
    (hdir : scalar_directive type = some directive) :
    eval_initial_value e none 0 = .ok (some (.EX_VAR t name scope), terms.sum)
    ∧ construct_initial_value tg type (some (.IK_SINGLE e))
      = ⟨[.EMIT_ASM directive
            [if terms.sum = 0 then label else label ++ " + " ++ toString terms.sum]],
          .ok ()⟩
    ∧ (∀ (ctype : EmitType) (sub : Expr),
        ref_terms (.EX_CAST ctype sub) = ref_terms sub
        ∧ eval_initial_value (.EX_CAST ctype sub) none 0 = eval_initial_value sub none 0) := by
  have heval := ref_terms_eval e _ terms hterms
  refine ⟨heval, ?_, fun ctype sub => ⟨by simp only [ref_terms], by simp only [eval_initial_value]⟩⟩
  have hout := scalar_output_of_eval tg e t name scope terms.sum label heval hlabel
  exact construct_initial_value_of_output tg type directive e _ hdir hout

/-- Witness for C31: with `struct { char a; int b; } v`, the initializer
`(char*)&v.b + 3 - 1` of a pointer is written as `.quad _v + 6` on the Darwin target. -/
theorem eval_initial_value_reference_witness :
    ref_terms example_member_ref = some (example_var_v, [4, 3, -1])
    ∧ scalar_output darwin_lp64 (some (.IK_SINGLE example_var_v)) = .ok "_v"
    ∧ eval_initial_value example_member_ref none 0 = .ok (some example_var_v, 6)
    ∧ construct_initial_value darwin_lp64 (.TY_PTR (.TY_FIXNUM .FX_CHAR))
        (some (.IK_SINGLE example_member_ref))
      = ⟨[.EMIT_ASM ".quad" ["_v + 6"]], .ok ()⟩ :=
  ⟨rfl, rfl,
   (eval_initial_value_reference darwin_lp64 example_member_ref example_struct_v.type "v"
      example_struct_scope [4, 3, -1] "_v" (.TY_PTR (.TY_FIXNUM .FX_CHAR)) ".quad"
      rfl rfl rfl).1,
   (eval_initial_value_reference darwin_lp64 example_member_ref example_struct_v.type "v"
      example_struct_scope [4, 3, -1] "_v" (.TY_PTR (.TY_FIXNUM .FX_CHAR)) ".quad"
      rfl rfl rfl).2.1⟩

/-- C32: for a `+` or `-` expression whose operands evaluate to `(var1, offset1)` and
`(var2, offset2)`, `eval_initial_value` stops at an assertion when both operands refer
to a variable, and for `-` also when only the right operand refers to a variable; in the
remaining cases it returns the variable of the operand that has one (none when neither
has) with the offset `offset1 + offset2` for `+` and `offset1 - offset2` for `-`. -/
theorem eval_initial_value_add_sub (type : EmitType) (lhs rhs : Expr)
    (var1 var2 : Option Expr) (offset1 offset2 : Int)
    (hl : eval_initial_value lhs none 0 = .ok (var1, offset1))
    (hr : eval_initial_value rhs none 0 = .ok (var2, offset2)) :
    (var1.isSome = true → var2.isSome = true →
      (∃ what, eval_initial_value (.EX_ADD type lhs rhs) none 0 = .error (.assert what))
      ∧ (∃ what, eval_initial_value (.EX_SUB type lhs rhs) none 0 = .error (.assert what)))
    ∧ (var1 = none → var2.isSome = true →
      ∃ what, eval_initial_value (.EX_SUB type lhs rhs) none 0 = .error (.assert what))
    ∧ (¬ (var1.isSome = true ∧ var2.isSome = true) →
      eval_initial_value (.EX_ADD type lhs rhs) none 0
        = .ok (if var1.isSome then var1 else var2, offset1 + offset2))
    ∧ (var2 = none →
      eval_initial_value (.EX_SUB type lhs rhs) none 0 = .ok (var1, offset1 - offset2)) := by
  refine ⟨?_, ?_, ?_, ?_⟩
  · intro h1 h2
    obtain ⟨v1, rfl⟩ := Option.isSome_iff_exists.1 h1
    obtain ⟨v2, rfl⟩ := Option.isSome_iff_exists.1 h2
    exact ⟨⟨"var2 == NULL", by simp only [eval_initial_value, hl, hr]⟩,
      ⟨"var2 == NULL", by simp only [eval_initial_value, hl, hr]⟩⟩
  · intro h1 h2
    subst h1
    obtain ⟨v2, rfl⟩ := Option.isSome_iff_exists.1 h2
    exact ⟨"expr->kind == EX_ADD", by simp only [eval_initial_value, hl, hr]⟩
  · intro h
    cases var1 <;> cases var2 <;> simp [eval_initial_value, hl, hr] at h ⊢
  · intro h
    subst h
    cases var1 <;> simp only [eval_initial_value, hl, hr] <;> rfl

/-- Witness for C32: `&v - 3` evaluates to `v` with offset -3, `3 + &v` to `v` with
offset 3, `3 - &v` and `&v + &v` stop at an assertion. -/
theorem eval_initial_value_add_sub_witness :
    eval_initial_value (.EX_REF (.TY_PTR example_struct_v.type) example_var_v) none 0
      = .ok (some example_var_v, 0)
    ∧ eval_initial_value (.EX_FIXNUM (.TY_FIXNUM .FX_LONG) 3) none 0 = .ok (none, 3)
    ∧ eval_initial_value (.EX_SUB (.TY_PTR example_struct_v.type)
          (.EX_REF (.TY_PTR example_struct_v.type) example_var_v)
          (.EX_FIXNUM (.TY_FIXNUM .FX_LONG) 3)) none 0
        = .ok (some example_var_v, -3)
    ∧ eval_initial_value (.EX_ADD (.TY_PTR example_struct_v.type)
          (.EX_FIXNUM (.TY_FIXNUM .FX_LONG) 3)
          (.EX_REF (.TY_PTR example_struct_v.type) example_var_v)) none 0
        = .ok (some example_var_v, 3)
    ∧ (∃ what, eval_initial_value (.EX_SUB (.TY_PTR example_struct_v.type)
          (.EX_FIXNUM (.TY_FIXNUM .FX_LONG) 3)
          (.EX_REF (.TY_PTR example_struct_v.type) example_var_v)) none 0
        = .error (.assert what))
    ∧ (∃ what, eval_initial_value (.EX_ADD (.TY_PTR example_struct_v.type)
          (.EX_REF (.TY_PTR example_struct_v.type) example_var_v)
          (.EX_REF (.TY_PTR example_struct_v.type) example_var_v)) none 0
        = .error (.assert what)) :=
  ⟨rfl, rfl,
   (eval_initial_value_add_sub (.TY_PTR example_struct_v.type)
      (.EX_REF (.TY_PTR example_struct_v.type) example_var_v)
      (.EX_FIXNUM (.TY_FIXNUM .FX_LONG) 3) (some example_var_v) none 0 3 rfl rfl).2.2.2 rfl,
   (eval_initial_value_add_sub (.TY_PTR example_struct_v.type)
      (.EX_FIXNUM (.TY_FIXNUM .FX_LONG) 3)
      (.EX_REF (.TY_PTR example_struct_v.type) example_var_v) none (some example_var_v) 3 0
      rfl rfl).2.2.1 (by simp),
   (eval_initial_value_add_sub (.TY_PTR example_struct_v.type)
      (.EX_FIXNUM (.TY_FIXNUM .FX_LONG) 3)
      (.EX_REF (.TY_PTR example_struct_v.type) example_var_v) none (some example_var_v) 3 0
      rfl rfl).2.1 rfl rfl,
   ((eval_initial_value_add_sub (.TY_PTR example_struct_v.type)
      (.EX_REF (.TY_PTR example_struct_v.type) example_var_v)
      (.EX_REF (.TY_PTR example_struct_v.type) example_var_v)
      (some example_var_v) (some example_var_v) 0 0 rfl rfl).1 rfl rfl).1⟩

/-! ### A function without statements -/

theorem no_stmt_loop_true (stmts : List (Option Stmt))
    (h : ∀ s ∈ stmts, s = none ∨ ∃ str, s = some (.ST_ASM str)) :
    no_stmt_loop stmts = true := by
  induction stmts with
  | nil => rfl
  | cons s rest ih =>
    have hrest := ih (fun x hx => h x (List.mem_cons_of_mem _ hx))
    rcases h s (List.mem_cons_self _ _) with hs | ⟨str, hs⟩
    · subst hs
      simp only [no_stmt_loop, hrest]
    · subst hs
      simp only [no_stmt_loop, is_asm, Bool.not_true, Bool.false_eq_true, if_false, hrest]

theorem emit_defun_label_eq (tg : Target) (global_scope : Scope) (func : Function) :
    emit_defun_label tg global_scope func
      = ⟨defun_label_lines tg global_scope func, .ok ()⟩ := by
  unfold emit_defun_label defun_label_lines is_static_func
  cases hf : scope_find global_scope func.name with
  | none => rfl
  | some found =>
    obtain ⟨varinfo, sc⟩ := found
    simp only []
    by_cases hs : varinfo.storage.contains .VS_STATIC = true
    · simp only [hs, Bool.not_true, Bool.false_eq_true, if_false, if_true]
      rfl
    · have hs2 : varinfo.storage.contains .VS_STATIC = false := by simpa using hs
      simp only [hs2, Bool.not_false, if_true, Bool.false_eq_true, if_false]
      rfl

/-- C34: for a function definition whose statement list is null, empty, or holds only
null entries and `asm` statements, entered with `stackpos = 8` and with a body that is
emitted successfully, the output of `emit_defun` is the blank comment line, `.text`, the
lines of the label (`.globl` and the label for a function that is not static, a comment
and the label for a static one), the body, `ret`, and the static-local definitions:
no prologue, argument store, callee-save push or pop, or epilogue. Without the comment
lines it is `.text`, `.globl` when not static, the label, the body, `ret` and the static
locals. -/
theorem emit_defun_no_stmt (tg : Target) (be : Backend) (global_scope : Scope)
    (func : Function) (scopes : List Scope) (body_out : List Asm) (sp : Int)
    (hscopes : func.scopes = some scopes)
    (hstmts : ∀ stmts, func.stmts = some stmts →
      ∀ s ∈ stmts, s = none ∨ ∃ str, s = some (.ST_ASM str))
    (hbody : be.emit_bb_irs func.bbcon 8 = ⟨body_out, .ok sp⟩) :
    (emit_defun tg be global_scope func 8).out
      = [.emit_comment none, .EMIT_ASM ".text" []]
          ++ defun_label_lines tg global_scope func
          ++ body_out
          ++ [.EMIT_ASM "ret" []]
          ++ (static_scopes_loop tg scopes).out
    ∧ (emit_defun tg be global_scope func 8).out.filter (fun a => !is_comment_line a)
      = [.EMIT_ASM ".text" []]
          ++ (if is_static_func global_scope func then [.EMIT_LABEL func.name]
              else [.EMIT_ASM ".globl" [tg.MANGLE func.name],
                    .EMIT_LABEL (tg.MANGLE func.name)])
          ++ body_out.filter (fun a => !is_comment_line a)
          ++ [.EMIT_ASM "ret" []]
          ++ (static_scopes_loop tg scopes).out.filter (fun a => !is_comment_line a) := by
  have hns : no_stmt func.stmts = true := by
    unfold no_stmt
    cases hst : func.stmts with
    | none => rfl
    | some stmts => exact no_stmt_loop_true stmts (hstmts stmts hst)
  have hhead : emit_defun_head tg be global_scope func 8
      = ⟨[.emit_comment none, .EMIT_ASM ".text" []]
          ++ defun_label_lines tg global_scope func ++ body_out, .ok sp⟩ := by
    unfold emit_defun_head
    simp only [hns, Bool.not_true, Bool.false_eq_true, if_false, if_true,
      emit_defun_label_eq, run_pure_bind, hbody, emit, _TEXT, run_mk_bind, run_mk_bind_val,
      List.append_assoc, List.cons_append, List.nil_append]
    have hp : (pure sp : Run Int).out = [] := rfl
    have hq : (pure sp : Run Int).res = .ok sp := rfl
    rw [hp, hq, List.append_nil]
  have hout : (emit_defun tg be global_scope func 8).out
      = [.emit_comment none, .EMIT_ASM ".text" []]
          ++ defun_label_lines tg global_scope func
          ++ body_out
          ++ [.EMIT_ASM "ret" []]
          ++ (static_scopes_loop tg scopes).out := by
    rw [emit_defun_eq_head tg be global_scope func scopes 8 hscopes, hhead]
    simp only [run_mk_bind_val, RET, emit, run_mk_bind, List.append_assoc,
      List.singleton_append, List.cons_append, List.nil_append]
    rw [run_bind_nil_out]
    intro _
    by_cases h8 : sp = 8
    · simp only [h8, if_true]
      rfl
    · simp only [h8, if_false, fatal_out]
  refine ⟨hout, ?_⟩
  rw [hout]
  unfold defun_label_lines
  by_cases hs : is_static_func global_scope func = true
  · simp [hs, List.filter_append, List.filter_cons, is_comment_line]
  · have hs2 : is_static_func global_scope func = false := by simpa using hs
    simp [hs2, List.filter_append, List.filter_cons, is_comment_line]

/-- Witness for C34: `void nop(void) { __asm("nop"); }` has no prologue and no epilogue:
its output is `.text`, `.globl nop`, the label, the body and `ret`. -/
theorem emit_defun_no_stmt_witness :
    example_asm_func.stmts = some [none, some (.ST_ASM "nop")]
    ∧ (emit_defun sysv_lp64 example_backend example_global_scope example_asm_func 8).out
      = [.emit_comment none, .EMIT_ASM ".text" [], .EMIT_ASM ".globl" ["nop"],
          .EMIT_LABEL "nop", .EMIT_ASM "mov" ["$0", "%eax"], .EMIT_ASM "ret" []] :=
  ⟨rfl,
   (emit_defun_no_stmt sysv_lp64 example_backend example_global_scope example_asm_func
      [.mk none (some [])] [.EMIT_ASM "mov" ["$0", "%eax"]] 8 rfl
      (by
        intro stmts h s hs
        have hst : stmts = [none, some (.ST_ASM "nop")] := by
          have h2 : example_asm_func.stmts = some [none, some (.ST_ASM "nop")] := rfl
          rw [h2] at h
          exact (Option.some.inj h).symm
        subst hst
        simp only [List.mem_cons, List.mem_singleton, List.not_mem_nil, or_false] at hs
        rcases hs with rfl | rfl
        · exact Or.inl rfl
        · exact Or.inr ⟨"nop", rfl⟩)
      rfl).1⟩
